import Mathlib

/-!
# Device registry and syscall dispatcher of libnds (`devoptab`)

A shallow embedding of `source/arm9/libc/devoptab.c`,
`source/arm9/libc/devoptab_syscalls.c`, `source/arm9/libc/nitrofs_devoptab.c`,
`source/arm9/libc/iob.c`, and of the device tables and the functions
`fat_open`, `fat_seek`, `fat_ftruncate_internal` and `fat_ftruncate` of
`source/arm9/libc/fatfs_devoptab.c`.

Conventions of the embedding

* A C string is the list of its characters before the terminating NUL;
  a nullable `const char *` is an `Option CStr`.
* `int` values are `Int` (all indices are far below `2^31`).
* The global tables are functions on `Fin`: `devoptab_list` has exactly
  `MAX_DEVICES` slots and `fd_table` exactly `DEVOPTAB_MAX_FDS` entries.
* A `for` loop that returns or breaks at the first index satisfying a test is
  `Fin.find`, which yields the least such index.
* Dispatcher functions that the source writes out one by one with the same
  body (`read`/`write`/`lseek`, the descriptor-based extended operations, the
  one-path extended operations) share that body as one definition
  (`fd_forward`, `fd_posix_forward`, `path_posix_forward`).
* A backend entry point is a function on the `World` (errno and the state of
  the external libraries); it cannot reach the registry or the descriptor
  table.  Every invocation made by the dispatcher is appended to the ghost
  field `trace`, together with the value `callback_device_idx` had during
  the call.
* The FAT library and the heap are a parameter `FatLib` of the FAT functions.
  Statements about the calls a function makes run it on `FatLib.logged`, the
  same library recording each call and its result behind its state.
* The `while` loop of `fat_ftruncate_internal` is a recursion on a bound for
  the number of its iterations; the functions that contain it return an
  `Option`, and `none` (bound reached) is proved not to occur.
-/

namespace Devoptab

/-! ## C strings -/

/-- The characters of a C string, terminator excluded. -/
abbrev CStr := List Char

/-- The function `strlen`. -/
def strlen (s : CStr) : Nat := s.length

/-- The function `strchr(s, c)` for `c` other than NUL: the offset of the first
occurrence of `c`, or `none` for a null result. -/
def strchr : CStr → Char → Option Nat
  | [], _ => none
  | x :: xs, c => if x = c then some 0 else (strchr xs c).map (· + 1)

/-- The function `strcmp`, up to the sign of its result (the C standard fixes
no more): `0` for equal strings, `-1` or `1` by the first difference. -/
def strcmp : CStr → CStr → Int
  | [], [] => 0
  | [], _ :: _ => -1
  | _ :: _, [] => 1
  | a :: as, b :: bs => if a = b then strcmp as bs else if a < b then -1 else 1

/-- The function `strncmp`, up to the sign of its result: compares at most `n`
characters and stops at the end of either string. -/
def strncmp : CStr → CStr → Nat → Int
  | _, _, 0 => 0
  | [], [], _ + 1 => 0
  | [], _ :: _, _ + 1 => -1
  | _ :: _, [], _ + 1 => 1
  | a :: as, b :: bs, n + 1 =>
    if a = b then strncmp as bs n else if a < b then -1 else 1

/-! ## Constants -/

/-- The macro `MAX_DEVICES` of `devoptab.h`. -/
abbrev MAX_DEVICES : Nat := 16

/-- The macro `DEVOPTAB_MAX_FDS` of `devoptab_syscalls.c`. -/
abbrev DEVOPTAB_MAX_FDS : Nat := 128

/-- The macro `DEVOPTAB_IS_POSIX` of `devoptab.h`. -/
abbrev DEVOPTAB_IS_POSIX : Nat := 1

/-- The macro `STDERR_FILENO` of `<unistd.h>`. -/
abbrev STDERR_FILENO : Nat := 2

/-- Modelled from the spec: the `BadDescriptor` code `EBADF` of `<errno.h>`,
a header that is not part of the sources; the number is the one of newlib. -/
def EBADF : Int := 9

/-- Modelled from the spec: the `CrossDeviceLink` code `EXDEV` of `<errno.h>`,
a header that is not part of the sources; the number is the one of newlib. -/
def EXDEV : Int := 18

/-- Modelled from the spec: the `NoDevice` code `ENODEV` of `<errno.h>`,
a header that is not part of the sources; the number is the one of newlib. -/
def ENODEV : Int := 19

/-- Modelled from the spec: the `InvalidArgument` code `EINVAL` of `<errno.h>`,
a header that is not part of the sources; the number is the one of newlib. -/
def EINVAL : Int := 22

/-- Modelled from the spec: the `TooManyOpenFiles` code `ENFILE` of `<errno.h>`,
a header that is not part of the sources; the number is the one of newlib. -/
def ENFILE : Int := 23

/-- Modelled from the spec: the `NotSupported` code `ENOSYS` of `<errno.h>`,
a header that is not part of the sources; the number is the one of newlib. -/
def ENOSYS : Int := 88

/-- Modelled from the spec: the `ReadOnlyFilesystem` code `EROFS` of
`<errno.h>`, a header that is not part of the sources; the number is the one
of newlib. -/
def EROFS : Int := 30

/-- Modelled from the spec: the write-only access flag `O_WRONLY` of
`<sys/fcntl.h>`, a header that is not part of the sources; the number is the
one of newlib. -/
def O_WRONLY : Nat := 0x1

/-- Modelled from the spec: the read-write access flag `O_RDWR` of
`<sys/fcntl.h>`, a header that is not part of the sources; the number is the
one of newlib. -/
def O_RDWR : Nat := 0x2

/-- Modelled from the spec: the append flag `O_APPEND` of `<sys/fcntl.h>`, a
header that is not part of the sources; the number is the one of newlib. -/
def O_APPEND : Nat := 0x8

/-- Modelled from the spec: the create flag `O_CREAT` of `<sys/fcntl.h>`, a
header that is not part of the sources; the number is the one of newlib. -/
def O_CREAT : Nat := 0x200

/-- Modelled from the spec: the truncate flag `O_TRUNC` of `<sys/fcntl.h>`, a
header that is not part of the sources; the number is the one of newlib. -/
def O_TRUNC : Nat := 0x400

/-- Modelled from the spec: the buffer size `PATH_MAX` of `<limits.h>`, a
header that is not part of the sources; the number is the one of newlib. -/
def PATH_MAX : Nat := 1024

/-- Modelled from the spec: the success code `FR_OK` of the FAT library header
`ff.h`, which is not part of the sources. -/
def FR_OK : Int := 0

/-! ## Data model -/

/-- What a backend entry point can read and write: `errno` and the state
`ext` of the external libraries behind the backends. -/
structure World (σ : Type) where
  errno : Int
  ext : σ

/-- The struct `devoptab_t` of `devoptab.h`.  A null function pointer is
`none`; pointer arguments other than strings are addresses. -/
structure devoptab_t (σ : Type) where
  name : Option CStr
  flags : Nat := 0
  deviceData : Nat := 0
  open_r : Option (Option CStr → Int → World σ → Int × World σ) := none
  close_r : Option (Int → World σ → Int × World σ) := none
  write_r : Option (Int → List Char → Nat → World σ → Int × World σ) := none
  read_r : Option (Int → Nat → Nat → World σ → Int × World σ) := none
  seek_r : Option (Int → Int → Int → World σ → Int × World σ) := none

/-- The struct `devoptab_posix_t` of `devoptab.h`.  A `const devoptab_t *` held
by the registry is modelled by the record that encloses it; the extended
entries are read only after `as_posix_device` has seen the flag
`DEVOPTAB_IS_POSIX`.  The members `getwd_r` and `get_current_dir_name_r` are
the ones `devoptab_syscalls.c` reads and `fatfs_devoptab.c` initialises. -/
structure devoptab_posix_t (σ : Type) where
  dot : devoptab_t σ
  fstat_r : Option (Int → Nat → World σ → Int × World σ) := none
  stat_r : Option (Option CStr → Nat → World σ → Int × World σ) := none
  link_r : Option (Option CStr → Option CStr → World σ → Int × World σ) := none
  unlink_r : Option (Option CStr → World σ → Int × World σ) := none
  chdir_r : Option (Option CStr → World σ → Int × World σ) := none
  getcwd_r : Option (Nat → Nat → World σ → Option CStr × World σ) := none
  getwd_r : Option (Nat → World σ → Option CStr × World σ) := none
  get_current_dir_name_r : Option (World σ → Option CStr × World σ) := none
  rename_r : Option (Option CStr → Option CStr → World σ → Int × World σ) := none
  mkdir_r : Option (Option CStr → Int → World σ → Int × World σ) := none
  diropen_r : Option (Nat → Option CStr → World σ → Nat × World σ) := none
  dirreset_r : Option (Nat → World σ → Int × World σ) := none
  dirnext_r : Option (Nat → Nat → Nat → World σ → Int × World σ) := none
  dirclose_r : Option (Nat → World σ → Int × World σ) := none
  statvfs_r : Option (Option CStr → Nat → World σ → Int × World σ) := none
  ftruncate_r : Option (Int → Int → World σ → Int × World σ) := none
  fsync_r : Option (Int → World σ → Int × World σ) := none
  chmod_r : Option (Option CStr → Nat → World σ → Int × World σ) := none
  fchmod_r : Option (Int → Nat → World σ → Int × World σ) := none
  rmdir_r : Option (Option CStr → World σ → Int × World σ) := none
  lstat_r : Option (Option CStr → Nat → World σ → Int × World σ) := none
  utimes_r : Option (Option CStr → Nat → World σ → Int × World σ) := none

/-- The struct `devoptab_fd_entry_t` of `devoptab_syscalls.c`. -/
structure devoptab_fd_entry_t where
  used : Bool
  device_idx : Int
  device_fd : Int
deriving DecidableEq, Repr

/-- A backend entry point with the arguments it was invoked with. -/
inductive Invoke where
  | open_r (path : Option CStr) (flags : Int)
  | close_r (fd : Int)
  | link_r (existing newLink : Option CStr)
  | chdir_r (name : Option CStr)
  | getcwd_r (buf size : Nat)
  | rename_r (oldName newName : Option CStr)
  | write_r (fd : Int) (ptr : List Char) (len : Nat)
  | read_r (fd : Int) (ptr len : Nat)
  | seek_r (fd pos dir : Int)
  | fstat_r (fd : Int) (st : Nat)
  | stat_r (file : Option CStr) (st : Nat)
  | unlink_r (name : Option CStr)
  | getwd_r (buf : Nat)
  | get_current_dir_name_r
  | mkdir_r (path : Option CStr) (mode : Int)
  | statvfs_r (path : Option CStr) (buf : Nat)
  | ftruncate_r (fd len : Int)
  | fsync_r (fd : Int)
  | chmod_r (path : Option CStr) (mode : Nat)
  | fchmod_r (fd : Int) (mode : Nat)
  | rmdir_r (name : Option CStr)
  | lstat_r (file : Option CStr) (st : Nat)
  | utimes_r (filename : Option CStr) (times : Nat)
deriving DecidableEq, Repr

/-- One record of the ghost trace: the registry index of the device whose
entry point ran, the value of `callback_device_idx` during the call, and the
entry point with its arguments. -/
structure Call where
  device_idx : Int
  marker : Int
  what : Invoke
deriving DecidableEq, Repr

/-- The globals of `devoptab.c` and `devoptab_syscalls.c`, `errno`, the state
of the external libraries, and the ghost trace of backend invocations. -/
structure State (σ : Type) where
  devoptab_list : Fin MAX_DEVICES → Option (devoptab_posix_t σ)
  defaultDevice : Int
  fd_table : Fin DEVOPTAB_MAX_FDS → devoptab_fd_entry_t
  current_drive_is_nitrofs : Bool
  callback_device_idx : Int
  errno : Int
  ext : σ
  trace : List Call

/-- The function `null_write` of `devoptab.c`: accepts and discards. -/
def null_write {σ : Type} (_fd : Int) (_ptr : List Char) (len : Nat)
    (w : World σ) : Int × World σ :=
  (len, w)

/-- The device `dot_null` of `devoptab.c`. -/
def dot_null {σ : Type} : devoptab_posix_t σ :=
  { dot := { name := some "null".toList, write_r := some null_write } }

/-- The static initialisers: slots 0..2 hold `dot_null`, no default device,
descriptors 0..2 bound to devices 0..2, no callback in progress. -/
def State.initial {σ : Type} (ext : σ) : State σ :=
  { devoptab_list := fun i => if i.val < 3 then some dot_null else none
    defaultDevice := -1
    fd_table := fun i =>
      if i.val < 3 then { used := true, device_idx := i.val, device_fd := i.val }
      else { used := false, device_idx := 0, device_fd := 0 }
    current_drive_is_nitrofs := false
    callback_device_idx := -1
    errno := 0
    ext := ext
    trace := [] }

/-- A C `int` used as an index of an array of `n` elements: `none` when the
bounds test `(i < 0) || (i >= n)` of the source rejects it. -/
def slot? (n : Nat) (i : Int) : Option (Fin n) :=
  if h : i < 0 ∨ i ≥ (n : Int) then none
  else some ⟨i.toNat, by omega⟩

/-! ## `devoptab.c` -/

section Registry

variable {σ : Type}

/-- The loop test of `AddDevice` at slot `idx`: the slot is empty, or holds a
device of the given name.  (A registered device with a null name would make
`strcmp` undefined; `AddDevice` never stores one, and the test is false
there.) -/
def AddDevice.stop (s : State σ) (name : CStr) (idx : Fin MAX_DEVICES) : Bool :=
  match s.devoptab_list idx with
  | none => true
  | some d =>
    match d.dot.name with
    | none => false
    | some n => strcmp n name == 0

/-- The function `AddDevice` of `devoptab.c`. -/
def AddDevice (s : State σ) (device : Option (devoptab_posix_t σ)) :
    Int × State σ :=
  match device with
  | none => (-1, s)
  | some dev =>
    match dev.dot.name with
    | none => (-1, s)
    | some name =>
      match Fin.find (fun idx : Fin MAX_DEVICES =>
          3 ≤ idx.val ∧ AddDevice.stop s name idx = true) with
      | none => (-1, s)
      | some idx =>
        let s1 := { s with
          devoptab_list := Function.update s.devoptab_list idx (some dev) }
        if s1.defaultDevice < 0 then
          (idx.val, { s1 with defaultDevice := idx.val })
        else
          (idx.val, s1)

/-- The function `GetDevice` of `devoptab.c`. -/
def GetDevice (s : State σ) (index : Int) : Option (devoptab_posix_t σ) :=
  match slot? MAX_DEVICES index with
  | none => none
  | some i => s.devoptab_list i

/-- The function `SetDefaultDevice` of `devoptab.c`. -/
def SetDefaultDevice (s : State σ) (index : Int) : Int × State σ :=
  match slot? MAX_DEVICES index with
  | none => (-1, s)
  | some i =>
    match s.devoptab_list i with
    | none => (-1, s)
    | some _ => (0, { s with defaultDevice := index })

/-- The function `GetDefaultDevice` of `devoptab.c`. -/
def GetDefaultDevice (s : State σ) : Int := s.defaultDevice

/-- The loop test of `FindDevice` at slot `index`: the slot is occupied and the
name of its device has length `dev_namelen` and agrees with `name` on that
many characters.  (A registered device with a null name would make `strlen`
undefined; `AddDevice` never stores one, and the test is false there.) -/
def FindDevice.hit (s : State σ) (name : CStr) (dev_namelen : Int)
    (index : Fin MAX_DEVICES) : Bool :=
  match s.devoptab_list index with
  | none => false
  | some d =>
    match d.dot.name with
    | none => false
    | some n =>
      let namelen := strlen n
      dev_namelen == (namelen : Int) && strncmp n name namelen == 0

/-- The function `FindDevice` of `devoptab.c`. -/
def FindDevice (s : State σ) (name : Option CStr) : Int :=
  match name with
  | none => -1
  | some name =>
    match strchr name ':' with
    | none => s.defaultDevice
    | some separator =>
      match Fin.find (fun index : Fin MAX_DEVICES =>
          FindDevice.hit s name (separator : Int) index = true) with
      | some index => index.val
      | none => -1

/-- The function `RemoveDevice` of `devoptab.c`.  (The store
`devoptab_list[index] = NULL` is out of bounds only when `defaultDevice` is
16 or more, which `SetDefaultDevice` and `AddDevice` never make it; the store
is skipped there.) -/
def RemoveDevice (s : State σ) (name : Option CStr) : Int × State σ :=
  let index := FindDevice s name
  if index < 0 then (-1, s)
  else
    let s1 :=
      match slot? MAX_DEVICES index with
      | none => s
      | some i =>
        { s with devoptab_list := Function.update s.devoptab_list i none }
    if s1.defaultDevice = index then (0, { s1 with defaultDevice := -1 })
    else (0, s1)

end Registry

/-! ## `devoptab_syscalls.c` -/

section Syscalls

variable {σ : Type}

/-- The world a backend entry point sees when called in state `s`. -/
def State.world (s : State σ) : World σ := { errno := s.errno, ext := s.ext }

/-- A call `device->entry(args)` made by the dispatcher: run the entry point on
the world of `s`, store the world it leaves, and log the call. -/
def State.invoke {ρ : Type} (s : State σ) (device_idx : Int) (what : Invoke)
    (entry : World σ → ρ × World σ) : ρ × State σ :=
  let r := entry s.world
  (r.1, { s with
    errno := r.2.errno
    ext := r.2.ext
    trace := s.trace ++ [{ device_idx := device_idx
                           marker := s.callback_device_idx
                           what := what }] })

/-- The function `fd_alloc`: the descriptor found, or `none` for the result
`-1`. -/
def fd_alloc (s : State σ) : Option (Fin DEVOPTAB_MAX_FDS) × State σ :=
  match Fin.find (fun fd : Fin DEVOPTAB_MAX_FDS =>
      STDERR_FILENO + 1 ≤ fd.val ∧ (s.fd_table fd).used = false) with
  | some fd =>
    (some fd, { s with
      fd_table := Function.update s.fd_table fd
        { s.fd_table fd with used := true } })
  | none => (none, { s with errno := ENFILE })

/-- The function `fd_release`. -/
def fd_release (s : State σ) (fd : Int) : State σ :=
  match slot? DEVOPTAB_MAX_FDS fd with
  | none => s
  | some i =>
    { s with
      fd_table := Function.update s.fd_table i
        { s.fd_table i with used := false } }

/-- The function `fd_get_const`: the entry pointer it returns is the index of
the entry, read through the table when dereferenced. -/
def fd_get_const (s : State σ) (fd : Int) :
    Option (Fin DEVOPTAB_MAX_FDS) × State σ :=
  match slot? DEVOPTAB_MAX_FDS fd with
  | none => (none, { s with errno := EBADF })
  | some i =>
    if (s.fd_table i).used = false then (none, { s with errno := EBADF })
    else (some i, s)

/-- The function `path_get_device`: the device and the value stored through
`device_idx_out`. -/
def path_get_device (s : State σ) (path : Option CStr) :
    Option (devoptab_posix_t σ × Int) × State σ :=
  match path with
  | none => (none, { s with errno := EINVAL })
  | some _ =>
    let device_idx := FindDevice s path
    if device_idx < 0 then (none, { s with errno := ENODEV })
    else
      match GetDevice s device_idx with
      | none => (none, { s with errno := ENODEV })
      | some device => (some (device, device_idx), s)

/-- The function `fd_get_device`. -/
def fd_get_device (s : State σ) (entry : Fin DEVOPTAB_MAX_FDS) :
    Option (devoptab_posix_t σ) × State σ :=
  match GetDevice s (s.fd_table entry).device_idx with
  | none => (none, { s with errno := ENODEV })
  | some device => (some device, s)

/-- The function `as_posix_device`. -/
def as_posix_device (s : State σ) (device : devoptab_posix_t σ) :
    Option (devoptab_posix_t σ) × State σ :=
  if Nat.land device.dot.flags DEVOPTAB_IS_POSIX = 0 then
    (none, { s with errno := ENOSYS })
  else (some device, s)

/-- The function `get_default_posix_device`. -/
def get_default_posix_device (s : State σ) :
    Option (devoptab_posix_t σ × Int) × State σ :=
  let device_idx := GetDefaultDevice s
  if device_idx < 0 then (none, { s with errno := ENODEV })
  else
    match GetDevice s device_idx with
    | none => (none, { s with errno := ENODEV })
    | some device =>
      match as_posix_device s device with
      | (none, s1) => (none, s1)
      | (some posix, s1) => (some (posix, device_idx), s1)

/-- The function `open` (a keyword of Lean, hence the name).  The variadic
mode argument read under `O_CREAT` is discarded by the source and has no
effect. -/
def sys_open (s : State σ) (path : Option CStr) (flags : Int) : Int × State σ :=
  match path_get_device s path with
  | (none, s1) => (-1, s1)
  | (some (device, device_idx), s1) =>
    match device.dot.open_r with
    | none => (-1, { s1 with errno := ENOSYS })
    | some open_r =>
      match fd_alloc s1 with
      | (none, s2) => (-1, s2)
      | (some fd, s2) =>
        match s2.invoke device_idx (Invoke.open_r path flags) (open_r path flags) with
        | (device_fd, s3) =>
          if device_fd < 0 then (-1, fd_release s3 fd.val)
          else
            (fd.val, { s3 with
              fd_table := Function.update s3.fd_table fd
                { s3.fd_table fd with
                  device_idx := device_idx, device_fd := device_fd } })

/-- The function `close`. -/
def close (s : State σ) (fd : Int) : Int × State σ :=
  match fd_get_const s fd with
  | (none, s1) => (-1, s1)
  | (some entry, s1) =>
    match fd_get_device s1 entry with
    | (none, s2) => (-1, s2)
    | (some device, s2) =>
      match device.dot.close_r with
      | none => (0, fd_release s2 fd)
      | some close_r =>
        let s3 := { s2 with callback_device_idx := (s2.fd_table entry).device_idx }
        match s3.invoke (s3.fd_table entry).device_idx
            (Invoke.close_r (s3.fd_table entry).device_fd)
            (close_r (s3.fd_table entry).device_fd) with
        | (ret, s4) =>
          (ret, fd_release { s4 with callback_device_idx := -1 } fd)

/-- The function `link`. -/
def link (s : State σ) (existing newLink : Option CStr) : Int × State σ :=
  match path_get_device s existing with
  | (none, s1) => (-1, s1)
  | (some (_, source_idx), s1) =>
    match path_get_device s1 newLink with
    | (none, s2) => (-1, s2)
    | (some (target, target_idx), s2) =>
      if source_idx ≠ target_idx then (-1, { s2 with errno := EXDEV })
      else
        match as_posix_device s2 target with
        | (none, s3) => (-1, s3)
        | (some posix, s3) =>
          match posix.link_r with
          | none => (-1, { s3 with errno := ENOSYS })
          | some link_r =>
            s3.invoke target_idx (Invoke.link_r existing newLink)
              (link_r existing newLink)

/-- The function `rename`. -/
def rename (s : State σ) (oldName newName : Option CStr) : Int × State σ :=
  match path_get_device s oldName with
  | (none, s1) => (-1, s1)
  | (some (_, source_idx), s1) =>
    match path_get_device s1 newName with
    | (none, s2) => (-1, s2)
    | (some (target, target_idx), s2) =>
      if source_idx ≠ target_idx then (-1, { s2 with errno := EXDEV })
      else
        match as_posix_device s2 target with
        | (none, s3) => (-1, s3)
        | (some posix, s3) =>
          match posix.rename_r with
          | none => (-1, { s3 with errno := ENOSYS })
          | some rename_r =>
            s3.invoke target_idx (Invoke.rename_r oldName newName)
              (rename_r oldName newName)

/-- The comparison `strcmp(current->name, "nitro") == 0` of `chdir`.  (A null
name would make it undefined; `AddDevice` never stores one, and the result is
false there.) -/
def chdir.is_nitro (current : devoptab_posix_t σ) : Bool :=
  match current.dot.name with
  | none => false
  | some n => strcmp n "nitro".toList == 0

/-- The function `chdir`. -/
def chdir (s : State σ) (name : Option CStr) : Int × State σ :=
  match path_get_device s name with
  | (none, s1) => (-1, s1)
  | (some (device, device_idx), s1) =>
    match as_posix_device s1 device with
    | (none, s2) => (-1, s2)
    | (some posix, s2) =>
      match posix.chdir_r with
      | none => (-1, { s2 with errno := ENOSYS })
      | some chdir_r =>
        match s2.invoke device_idx (Invoke.chdir_r name) (chdir_r name) with
        | (ret, s3) =>
          if ret = 0 then
            let s4 := (SetDefaultDevice s3 device_idx).2
            (ret, { s4 with
              current_drive_is_nitrofs :=
                match GetDevice s4 device_idx with
                | none => false
                | some current => chdir.is_nitro current })
          else (ret, s3)

/-- The function `getcwd`: the string returned, or `none` for a null result. -/
def getcwd (s : State σ) (buf size : Nat) : Option CStr × State σ :=
  match get_default_posix_device s with
  | (none, s1) => (none, s1)
  | (some (posix, device_idx), s1) =>
    match posix.getcwd_r with
    | none => (none, { s1 with errno := ENOSYS })
    | some getcwd_r =>
      let s2 := { s1 with callback_device_idx := device_idx }
      match s2.invoke device_idx (Invoke.getcwd_r buf size) (getcwd_r buf size) with
      | (ret, s3) => (ret, { s3 with callback_device_idx := -1 })

/-- The function `GetDeviceDataByFd`: the pointer returned, `0` for null. -/
def GetDeviceDataByFd (s : State σ) (fd : Int) : Nat × State σ :=
  if s.callback_device_idx ≥ 0 then
    match GetDevice s s.callback_device_idx with
    | none => (0, { s with errno := ENODEV })
    | some device => (device.dot.deviceData, s)
  else
    match slot? DEVOPTAB_MAX_FDS fd with
    | none => (0, { s with errno := EBADF })
    | some i =>
      if (s.fd_table i).used = false then (0, { s with errno := EBADF })
      else
        match GetDevice s (s.fd_table i).device_idx with
        | none => (0, { s with errno := ENODEV })
        | some device => (device.dot.deviceData, s)

/-- The common body of `write`, `read` and `lseek`, which differ in the entry
point and its arguments only: `entry_r` reads the entry point of the device
with the caller's arguments filled in, and is applied to the device-local
descriptor. -/
def fd_forward (s : State σ) (fd : Int)
    (entry_r : devoptab_posix_t σ → Option (Int → World σ → Int × World σ))
    (what : Int → Invoke) : Int × State σ :=
  match fd_get_const s fd with
  | (none, s1) => (-1, s1)
  | (some entry, s1) =>
    match fd_get_device s1 entry with
    | (none, s2) => (-1, s2)
    | (some device, s2) =>
      match entry_r device with
      | none => (-1, { s2 with errno := ENOSYS })
      | some f =>
        let s3 := { s2 with callback_device_idx := (s2.fd_table entry).device_idx }
        match s3.invoke (s3.fd_table entry).device_idx
            (what (s3.fd_table entry).device_fd)
            (f (s3.fd_table entry).device_fd) with
        | (ret, s4) => (ret, { s4 with callback_device_idx := -1 })

/-- The function `write`. -/
def write (s : State σ) (fd : Int) (ptr : List Char) (len : Nat) : Int × State σ :=
  fd_forward s fd
    (fun device => device.dot.write_r.map (fun f device_fd => f device_fd ptr len))
    (fun device_fd => Invoke.write_r device_fd ptr len)

/-- The function `read`. -/
def read (s : State σ) (fd : Int) (ptr len : Nat) : Int × State σ :=
  fd_forward s fd
    (fun device => device.dot.read_r.map (fun f device_fd => f device_fd ptr len))
    (fun device_fd => Invoke.read_r device_fd ptr len)

/-- The function `lseek`. -/
def lseek (s : State σ) (fd : Int) (pos dir : Int) : Int × State σ :=
  fd_forward s fd
    (fun device => device.dot.seek_r.map (fun f device_fd => f device_fd pos dir))
    (fun device_fd => Invoke.seek_r device_fd pos dir)

/-- The common body of `fstat`, `ftruncate`, `fsync` and `fchmod`, which differ
in the entry point and its arguments only. -/
def fd_posix_forward (s : State σ) (fd : Int)
    (entry_r : devoptab_posix_t σ → Option (Int → World σ → Int × World σ))
    (what : Int → Invoke) : Int × State σ :=
  match fd_get_const s fd with
  | (none, s1) => (-1, s1)
  | (some entry, s1) =>
    match fd_get_device s1 entry with
    | (none, s2) => (-1, s2)
    | (some device, s2) =>
      match as_posix_device s2 device with
      | (none, s3) => (-1, s3)
      | (some posix, s3) =>
        match entry_r posix with
        | none => (-1, { s3 with errno := ENOSYS })
        | some f =>
          let s4 := { s3 with callback_device_idx := (s3.fd_table entry).device_idx }
          match s4.invoke (s4.fd_table entry).device_idx
              (what (s4.fd_table entry).device_fd)
              (f (s4.fd_table entry).device_fd) with
          | (ret, s5) => (ret, { s5 with callback_device_idx := -1 })

/-- The function `fstat`. -/
def fstat (s : State σ) (fd : Int) (st : Nat) : Int × State σ :=
  fd_posix_forward s fd
    (fun posix => posix.fstat_r.map (fun f device_fd => f device_fd st))
    (fun device_fd => Invoke.fstat_r device_fd st)

/-- The function `ftruncate`. -/
def ftruncate (s : State σ) (fd : Int) (len : Int) : Int × State σ :=
  fd_posix_forward s fd
    (fun posix => posix.ftruncate_r.map (fun f device_fd => f device_fd len))
    (fun device_fd => Invoke.ftruncate_r device_fd len)

/-- The function `fsync`. -/
def fsync (s : State σ) (fd : Int) : Int × State σ :=
  fd_posix_forward s fd
    (fun posix => posix.fsync_r)
    (fun device_fd => Invoke.fsync_r device_fd)

/-- The function `fchmod`. -/
def fchmod (s : State σ) (fd : Int) (mode : Nat) : Int × State σ :=
  fd_posix_forward s fd
    (fun posix => posix.fchmod_r.map (fun f device_fd => f device_fd mode))
    (fun device_fd => Invoke.fchmod_r device_fd mode)

/-- The common body of `stat`, `unlink`, `mkdir`, `statvfs`, `chmod`, `rmdir`,
`lstat` and `utimes`, which differ in the entry point and its arguments only.
None of them writes `callback_device_idx`. -/
def path_posix_forward (s : State σ) (path : Option CStr)
    (entry_r : devoptab_posix_t σ → Option (World σ → Int × World σ))
    (what : Invoke) : Int × State σ :=
  match path_get_device s path with
  | (none, s1) => (-1, s1)
  | (some (device, device_idx), s1) =>
    match as_posix_device s1 device with
    | (none, s2) => (-1, s2)
    | (some posix, s2) =>
      match entry_r posix with
      | none => (-1, { s2 with errno := ENOSYS })
      | some f => s2.invoke device_idx what f

/-- The function `stat`. -/
def stat (s : State σ) (file : Option CStr) (st : Nat) : Int × State σ :=
  path_posix_forward s file
    (fun posix => posix.stat_r.map (fun f => f file st)) (Invoke.stat_r file st)

/-- The function `unlink`. -/
def unlink (s : State σ) (name : Option CStr) : Int × State σ :=
  path_posix_forward s name
    (fun posix => posix.unlink_r.map (fun f => f name)) (Invoke.unlink_r name)

/-- The function `mkdir`. -/
def mkdir (s : State σ) (path : Option CStr) (mode : Int) : Int × State σ :=
  path_posix_forward s path
    (fun posix => posix.mkdir_r.map (fun f => f path mode)) (Invoke.mkdir_r path mode)

/-- The function `statvfs`. -/
def statvfs (s : State σ) (path : Option CStr) (buf : Nat) : Int × State σ :=
  path_posix_forward s path
    (fun posix => posix.statvfs_r.map (fun f => f path buf)) (Invoke.statvfs_r path buf)

/-- The function `chmod`. -/
def chmod (s : State σ) (path : Option CStr) (mode : Nat) : Int × State σ :=
  path_posix_forward s path
    (fun posix => posix.chmod_r.map (fun f => f path mode)) (Invoke.chmod_r path mode)

/-- The function `rmdir`. -/
def rmdir (s : State σ) (name : Option CStr) : Int × State σ :=
  path_posix_forward s name
    (fun posix => posix.rmdir_r.map (fun f => f name)) (Invoke.rmdir_r name)

/-- The function `lstat`. -/
def lstat (s : State σ) (file : Option CStr) (st : Nat) : Int × State σ :=
  path_posix_forward s file
    (fun posix => posix.lstat_r.map (fun f => f file st)) (Invoke.lstat_r file st)

/-- The function `utimes`. -/
def utimes (s : State σ) (filename : Option CStr) (times : Nat) : Int × State σ :=
  path_posix_forward s filename
    (fun posix => posix.utimes_r.map (fun f => f filename times))
    (Invoke.utimes_r filename times)

/-- The function `getwd`: the string returned, or `none` for a null result. -/
def getwd (s : State σ) (buf : Nat) : Option CStr × State σ :=
  match get_default_posix_device s with
  | (none, s1) => (none, s1)
  | (some (posix, device_idx), s1) =>
    match posix.getwd_r with
    | some getwd_r =>
      let s2 := { s1 with callback_device_idx := device_idx }
      match s2.invoke device_idx (Invoke.getwd_r buf) (getwd_r buf) with
      | (ret, s3) => (ret, { s3 with callback_device_idx := -1 })
    | none => getcwd s1 buf PATH_MAX

/-- The function `get_current_dir_name`: the string returned, or `none` for a
null result. -/
def get_current_dir_name (s : State σ) : Option CStr × State σ :=
  match get_default_posix_device s with
  | (none, s1) => (none, s1)
  | (some (posix, device_idx), s1) =>
    match posix.get_current_dir_name_r with
    | some get_current_dir_name_r =>
      let s2 := { s1 with callback_device_idx := device_idx }
      match s2.invoke device_idx Invoke.get_current_dir_name_r
          get_current_dir_name_r with
      | (ret, s3) => (ret, { s3 with callback_device_idx := -1 })
    | none => getcwd s1 0 0

/-- The function `truncate`. -/
def truncate (s : State σ) (path : Option CStr) (len : Int) : Int × State σ :=
  match path with
  | none => (-1, { s with errno := EINVAL })
  | some _ =>
    match sys_open s path (O_WRONLY : Int) with
    | (fd, s1) =>
      if fd < 0 then (-1, s1)
      else
        match ftruncate s1 fd len with
        | (truncate_ret, s2) =>
          let truncate_errno := s2.errno
          match close s2 fd with
          | (close_ret, s3) =>
            if truncate_ret = 0 ∧ close_ret < 0 then (-1, s3)
            else if truncate_ret < 0 then
              (truncate_ret, { s3 with errno := truncate_errno })
            else (truncate_ret, s3)

end Syscalls

/-! ## `nitrofs_devoptab.c` -/

section Nitro

variable {σ : Type}

/-- The functions that `nitrofs_devoptab.c` calls and the sources do not
contain: the image library of `nitrofs_internal.h` and the helper
`fatfs_error_to_posix`.  The last five fields are the entry points
`nitro_getcwd`, `nitro_diropen`, `nitro_dirreset`, `nitro_dirnext` and
`nitro_dirclose`, which work on heap memory and are taken as given; no
statement below depends on them. -/
structure NitroLib (σ : Type) where
  nitrofs_open : CStr → World σ → Int × World σ
  nitrofs_close : Int → World σ → Int × World σ
  nitrofs_read : Int → Nat → Nat → World σ → Int × World σ
  nitrofs_lseek : Int → Int → Int → World σ → Int × World σ
  nitrofs_fstat : Int → Nat → World σ → Int × World σ
  nitrofs_stat : CStr → Nat → World σ → Int × World σ
  nitrofs_chdir : CStr → World σ → Int × World σ
  fatfs_error_to_posix : Int → Int
  nitro_getcwd : Nat → Nat → World σ → Option CStr × World σ
  nitro_diropen : Nat → Option CStr → World σ → Nat × World σ
  nitro_dirreset : Nat → World σ → Int × World σ
  nitro_dirnext : Nat → Nat → Nat → World σ → Int × World σ
  nitro_dirclose : Nat → World σ → Int × World σ

/-- The flags that `nitro_open` rejects:
`O_WRONLY | O_RDWR | O_CREAT | O_TRUNC | O_APPEND`. -/
def nitro_open.mask : Nat := O_WRONLY ||| O_RDWR ||| O_CREAT ||| O_TRUNC ||| O_APPEND

/-- The function `nitro_open`. -/
def nitro_open (lib : NitroLib σ) (path : Option CStr) (flags : Int)
    (w : World σ) : Int × World σ :=
  match path with
  | none => (-1, { w with errno := EINVAL })
  | some p =>
    if Int.land flags (nitro_open.mask : Int) ≠ 0 then (-1, { w with errno := EROFS })
    else lib.nitrofs_open p w

/-- The function `nitro_close`. -/
def nitro_close (lib : NitroLib σ) (fd : Int) (w : World σ) : Int × World σ :=
  lib.nitrofs_close fd w

/-- The function `nitro_write`. -/
def nitro_write (_fd : Int) (_ptr : List Char) (_len : Nat) (w : World σ) :
    Int × World σ :=
  (-1, { w with errno := EROFS })

/-- The function `nitro_read`. -/
def nitro_read (lib : NitroLib σ) (fd : Int) (ptr len : Nat) (w : World σ) :
    Int × World σ :=
  if ptr = 0 then (-1, { w with errno := EINVAL })
  else lib.nitrofs_read fd ptr len w

/-- The function `nitro_seek`. -/
def nitro_seek (lib : NitroLib σ) (fd pos dir : Int) (w : World σ) : Int × World σ :=
  lib.nitrofs_lseek fd pos dir w

/-- The function `nitro_fstat`. -/
def nitro_fstat (lib : NitroLib σ) (fd : Int) (st : Nat) (w : World σ) :
    Int × World σ :=
  if st = 0 then (-1, { w with errno := EINVAL })
  else lib.nitrofs_fstat fd st w

/-- The function `nitro_stat`. -/
def nitro_stat (lib : NitroLib σ) (file : Option CStr) (st : Nat) (w : World σ) :
    Int × World σ :=
  match file with
  | none => (-1, { w with errno := EINVAL })
  | some f =>
    if st = 0 then (-1, { w with errno := EINVAL })
    else lib.nitrofs_stat f st w

/-- The function `nitro_link`. -/
def nitro_link (_existing _newLink : Option CStr) (w : World σ) : Int × World σ :=
  (-1, { w with errno := EROFS })

/-- The function `nitro_unlink`. -/
def nitro_unlink (_name : Option CStr) (w : World σ) : Int × World σ :=
  (-1, { w with errno := EROFS })

/-- The function `nitro_chdir`. -/
def nitro_chdir (lib : NitroLib σ) (name : Option CStr) (w : World σ) :
    Int × World σ :=
  match name with
  | none => (-1, { w with errno := EINVAL })
  | some n =>
    match lib.nitrofs_chdir n w with
    | (result, w1) =>
      if result = FR_OK then (0, w1)
      else (-1, { w1 with errno := lib.fatfs_error_to_posix result })

/-- The function `nitro_rename`. -/
def nitro_rename (_oldName _newName : Option CStr) (w : World σ) : Int × World σ :=
  (-1, { w with errno := EROFS })

/-- The function `nitro_mkdir`. -/
def nitro_mkdir (_path : Option CStr) (_mode : Int) (w : World σ) : Int × World σ :=
  (-1, { w with errno := EROFS })

/-- The function `nitro_ftruncate`. -/
def nitro_ftruncate (_fd _len : Int) (w : World σ) : Int × World σ :=
  (-1, { w with errno := EROFS })

/-- The function `nitro_chmod`. -/
def nitro_chmod (_path : Option CStr) (_mode : Nat) (w : World σ) : Int × World σ :=
  (-1, { w with errno := EROFS })

/-- The function `nitro_fchmod`. -/
def nitro_fchmod (_fd : Int) (_mode : Nat) (w : World σ) : Int × World σ :=
  (-1, { w with errno := EROFS })

/-- The function `nitro_rmdir`. -/
def nitro_rmdir (_name : Option CStr) (w : World σ) : Int × World σ :=
  (-1, { w with errno := EROFS })

/-- The function `nitro_lstat`. -/
def nitro_lstat (lib : NitroLib σ) (file : Option CStr) (st : Nat) (w : World σ) :
    Int × World σ :=
  nitro_stat lib file st w

/-- The function `nitro_utimes`. -/
def nitro_utimes (_filename : Option CStr) (_times : Nat) (w : World σ) :
    Int × World σ :=
  (-1, { w with errno := EROFS })

/-- The device `dot_nitrofs`. -/
def dot_nitrofs (lib : NitroLib σ) : devoptab_posix_t σ :=
  { dot := { name := some "nitro".toList
             flags := DEVOPTAB_IS_POSIX
             open_r := some (nitro_open lib)
             close_r := some (nitro_close lib)
             write_r := some nitro_write
             read_r := some (nitro_read lib)
             seek_r := some (nitro_seek lib) }
    fstat_r := some (nitro_fstat lib)
    stat_r := some (nitro_stat lib)
    link_r := some nitro_link
    unlink_r := some nitro_unlink
    chdir_r := some (nitro_chdir lib)
    getcwd_r := some lib.nitro_getcwd
    rename_r := some nitro_rename
    mkdir_r := some nitro_mkdir
    diropen_r := some lib.nitro_diropen
    dirreset_r := some lib.nitro_dirreset
    dirnext_r := some lib.nitro_dirnext
    dirclose_r := some lib.nitro_dirclose
    statvfs_r := none
    ftruncate_r := some nitro_ftruncate
    fsync_r := none
    chmod_r := some nitro_chmod
    fchmod_r := some nitro_fchmod
    rmdir_r := some nitro_rmdir
    lstat_r := some (nitro_lstat lib)
    utimes_r := some nitro_utimes }

end Nitro

/-! ## `fatfs_devoptab.c`: the device tables -/

section FatTables

variable {σ : Type}

/-- The entry points `fat_open` ... `fat_utimes` of `fatfs_devoptab.c`, taken
as given here: the device tables below say which entries are present. -/
structure FatEntries (σ : Type) where
  fat_open : Option CStr → Int → World σ → Int × World σ
  fat_close : Int → World σ → Int × World σ
  fat_write : Int → List Char → Nat → World σ → Int × World σ
  fat_read : Int → Nat → Nat → World σ → Int × World σ
  fat_seek : Int → Int → Int → World σ → Int × World σ
  fat_fstat : Int → Nat → World σ → Int × World σ
  fat_stat : Option CStr → Nat → World σ → Int × World σ
  fat_link : Option CStr → Option CStr → World σ → Int × World σ
  fat_unlink : Option CStr → World σ → Int × World σ
  fat_chdir : Option CStr → World σ → Int × World σ
  fat_getcwd : Nat → Nat → World σ → Option CStr × World σ
  fat_getwd : Nat → World σ → Option CStr × World σ
  fat_get_current_dir_name : World σ → Option CStr × World σ
  fat_rename : Option CStr → Option CStr → World σ → Int × World σ
  fat_mkdir : Option CStr → Int → World σ → Int × World σ
  fat_diropen : Nat → Option CStr → World σ → Nat × World σ
  fat_dirreset : Nat → World σ → Int × World σ
  fat_dirnext : Nat → Nat → Nat → World σ → Int × World σ
  fat_dirclose : Nat → World σ → Int × World σ
  fat_statvfs : Option CStr → Nat → World σ → Int × World σ
  fat_ftruncate : Int → Int → World σ → Int × World σ
  fat_fsync : Int → World σ → Int × World σ
  fat_rmdir : Option CStr → World σ → Int × World σ
  fat_lstat : Option CStr → Nat → World σ → Int × World σ
  fat_utimes : Option CStr → Nat → World σ → Int × World σ

/-- The initialiser shared, up to the name, by the four FAT device tables. -/
def fat_table (name : String) (fat : FatEntries σ) : devoptab_posix_t σ :=
  { dot := { name := some name.toList
             flags := DEVOPTAB_IS_POSIX
             open_r := some fat.fat_open
             close_r := some fat.fat_close
             write_r := some fat.fat_write
             read_r := some fat.fat_read
             seek_r := some fat.fat_seek }
    fstat_r := some fat.fat_fstat
    stat_r := some fat.fat_stat
    link_r := some fat.fat_link
    unlink_r := some fat.fat_unlink
    chdir_r := some fat.fat_chdir
    getcwd_r := some fat.fat_getcwd
    getwd_r := some fat.fat_getwd
    get_current_dir_name_r := some fat.fat_get_current_dir_name
    rename_r := some fat.fat_rename
    mkdir_r := some fat.fat_mkdir
    diropen_r := some fat.fat_diropen
    dirreset_r := some fat.fat_dirreset
    dirnext_r := some fat.fat_dirnext
    dirclose_r := some fat.fat_dirclose
    statvfs_r := some fat.fat_statvfs
    ftruncate_r := some fat.fat_ftruncate
    fsync_r := some fat.fat_fsync
    chmod_r := none
    fchmod_r := none
    rmdir_r := some fat.fat_rmdir
    lstat_r := some fat.fat_lstat
    utimes_r := some fat.fat_utimes }

/-- The device `dot_fatfs`. -/
def dot_fatfs (fat : FatEntries σ) : devoptab_posix_t σ := fat_table "fat" fat

/-- The device `dot_sd`. -/
def dot_sd (fat : FatEntries σ) : devoptab_posix_t σ := fat_table "sd" fat

/-- The device `dot_nand`. -/
def dot_nand (fat : FatEntries σ) : devoptab_posix_t σ := fat_table "nand" fat

/-- The device `dot_nand2`. -/
def dot_nand2 (fat : FatEntries σ) : devoptab_posix_t σ := fat_table "nand2" fat

end FatTables

/-! ## Vocabulary of the statements -/

/-- The text of a path before its first occurrence of `c`. -/
def before (c : Char) (s : CStr) : CStr := s.takeWhile (fun x => x != c)

/-- The name of the device held in slot `i` of the registry, `none` when the
slot is empty (or the name null). -/
def slotName {σ : Type} (s : State σ) (i : Fin MAX_DEVICES) : Option CStr :=
  (s.devoptab_list i).bind (fun d => d.dot.name)

/-- The number of occupied slots of the registry. -/
def occupied {σ : Type} (s : State σ) : Nat :=
  ((List.finRange MAX_DEVICES).filter
    (fun i => (s.devoptab_list i).isSome)).length

/-! ## Concrete devices and states -/

/-- A plain device named `n`: its open entry returns handle 7, its close entry
returns 0. -/
def plainDev (n : String) : devoptab_posix_t Unit :=
  { dot := { name := some n.toList
             open_r := some (fun _ _ w => (7, w))
             close_r := some (fun _ w => (0, w)) } }

/-- The registry after registering plain devices of the given names, in order,
from the initial state. -/
def registryOf (names : List String) : State Unit :=
  names.foldl (fun s n => (AddDevice s (some (plainDev n))).2) (State.initial ())

/-- The registry states reachable from the initial state by calls of
`AddDevice`, `RemoveDevice` and `SetDefaultDevice`. -/
inductive Reachable {σ : Type} : State σ → Prop
  | initial (ext : σ) : Reachable (State.initial ext)
  | add (s : State σ) (device : Option (devoptab_posix_t σ)) :
      Reachable s → Reachable (AddDevice s device).2
  | remove (s : State σ) (name : Option CStr) :
      Reachable s → Reachable (RemoveDevice s name).2
  | setDefault (s : State σ) (index : Int) :
      Reachable s → Reachable (SetDefaultDevice s index).2

/-- The registry after registering `a` and `fat` and unregistering `a`: slot 3
is empty again and slot 4 holds `fat`. -/
def holeState : State Unit :=
  (RemoveDevice (registryOf ["a", "fat"]) (some "a:".toList)).2

/-- A registry whose thirteen free slots are all taken: slot `i` from 3 on
holds a plain device whose name is `i` times the letter `d`. -/
def fullState : State Unit :=
  { State.initial () with
    devoptab_list := fun i =>
      if i.val < 3 then some dot_null
      else some { dot := { name := some (List.replicate i.val 'd') } }
    defaultDevice := 3 }

/-- A posix-extended device named `n` whose entry points all succeed: open
returns handle 7, the others 0, and getcwd the string `/`. -/
def posixDev (n : String) : devoptab_posix_t Unit :=
  { dot := { name := some n.toList
             flags := DEVOPTAB_IS_POSIX
             open_r := some (fun _ _ w => (7, w))
             close_r := some (fun _ w => (0, w)) }
    link_r := some (fun _ _ w => (0, w))
    chdir_r := some (fun _ w => (0, w))
    getcwd_r := some (fun _ _ w => (some "/".toList, w))
    rename_r := some (fun _ _ w => (0, w)) }

/-- The registry with the posix-extended devices `fat` (slot 3, the default
device) and `sd` (slot 4). -/
def twoDrives : State Unit :=
  (AddDevice (AddDevice (State.initial ()) (some (posixDev "fat"))).2
    (some (posixDev "sd"))).2

/-- A device named `ro` whose open entry always fails with `-1`. -/
def failDev : devoptab_posix_t Unit :=
  { dot := { name := some "ro".toList
             open_r := some (fun _ _ w => (-1, { w with errno := EINVAL })) } }

/-- The initial state with `failDev` registered (slot 3). -/
def failState : State Unit := (AddDevice (State.initial ()) (some failDev)).2

/-- A run of consecutive calls of `open`, one per (path, flags) pair: the
results in call order and the state after the last call. -/
def openAll {σ : Type} (s : State σ) : List (Option CStr × Int) → List Int × State σ
  | [] => ([], s)
  | (path, flags) :: rest =>
    ((sys_open s path flags).1 :: (openAll (sys_open s path flags).2 rest).1,
     (openAll (sys_open s path flags).2 rest).2)

/-- The path resolves, in state `s`, to a registered device whose open entry
succeeds on every input. -/
def OpensOk {σ : Type} (s : State σ) (path : Option CStr) : Prop :=
  ∃ (dev : devoptab_posix_t σ)
    (open_r : Option CStr → Int → World σ → Int × World σ),
    GetDevice s (FindDevice s path) = some dev ∧ dev.dot.open_r = some open_r ∧
    ∀ (p : Option CStr) (f : Int) (w : World σ), 0 ≤ (open_r p f w).1

/-- The state `twoDrives` with every descriptor in use, the descriptors from 3
on bound to the device `sd` in slot 4. -/
def fullTable : State Unit :=
  { twoDrives with
    fd_table := fun i =>
      if i.val < 3 then { used := true, device_idx := i.val, device_fd := i.val }
      else { used := true, device_idx := 4, device_fd := 7 } }

/-- The descriptor `fd` is outside 0..127 or its entry is not in use. -/
def BadFd {σ : Type} (s : State σ) (fd : Int) : Prop :=
  fd < 0 ∨ (DEVOPTAB_MAX_FDS : Int) ≤ fd ∨
    ∃ i : Fin DEVOPTAB_MAX_FDS, fd = (i.val : Int) ∧ (s.fd_table i).used = false

/-- The state `twoDrives` after `open` of `sd:/f` (descriptor 3, bound to slot
4) and the removal of the device `sd`: descriptor 3 is in use and its registry
slot is empty. -/
def vacatedState : State Unit :=
  (RemoveDevice (sys_open twoDrives (some "sd:/f".toList) 0).2 (some "sd:".toList)).2

/-- A plain device named `io` with read, write and seek entries: each returns
its length or position argument and sets `errno` to the handle it was given. -/
def ioDev : devoptab_posix_t Unit :=
  { dot := { name := some "io".toList
             open_r := some (fun _ _ w => (7, w))
             write_r := some (fun fd _ len w => ((len : Int), { w with errno := fd }))
             read_r := some (fun fd _ len w => ((len : Int), { w with errno := fd }))
             seek_r := some (fun fd pos _ w => (pos, { w with errno := fd })) } }

/-- The initial state with `ioDev` registered (slot 3) and descriptor 3 opened
on it (device-local handle 7). -/
def ioState : State Unit :=
  (sys_open (AddDevice (State.initial ()) (some ioDev)).2 (some "io:/f".toList) 0).2

/-- The device does not offer an extended operation: it lacks the flag
`DEVOPTAB_IS_POSIX`, or it has the flag and the entry pointer of the operation
is null. -/
def NoExtended {σ α : Type} (dev : devoptab_posix_t σ) (entry : Option α) : Prop :=
  Nat.land dev.dot.flags DEVOPTAB_IS_POSIX = 0 ∨ entry = none

/-- An image library whose functions all return 0 and change nothing. -/
def nitroLib0 : NitroLib Unit :=
  { nitrofs_open := fun _ w => (0, w)
    nitrofs_close := fun _ w => (0, w)
    nitrofs_read := fun _ _ _ w => (0, w)
    nitrofs_lseek := fun _ _ _ w => (0, w)
    nitrofs_fstat := fun _ _ w => (0, w)
    nitrofs_stat := fun _ _ w => (0, w)
    nitrofs_chdir := fun _ w => (0, w)
    fatfs_error_to_posix := fun _ => 0
    nitro_getcwd := fun _ _ w => (none, w)
    nitro_diropen := fun _ _ w => (0, w)
    nitro_dirreset := fun _ w => (0, w)
    nitro_dirnext := fun _ _ _ w => (0, w)
    nitro_dirclose := fun _ w => (0, w) }

/-- The initial state with `dot_nitrofs` registered (slot 3, the default
device) and descriptor 3 opened on it for reading. -/
def nitroState : State Unit :=
  (sys_open (AddDevice (State.initial ()) (some (dot_nitrofs nitroLib0))).2
    (some "nitro:/f".toList) 0).2

/-- A plain device named `data` whose `deviceData` is the address 42. -/
def dataDev : devoptab_posix_t Unit :=
  { dot := { name := some "data".toList
             deviceData := 42
             open_r := some (fun _ _ w => (7, w)) } }

/-- The initial state with `dataDev` registered (slot 3) and descriptor 3
opened on it. -/
def dataState : State Unit :=
  (sys_open (AddDevice (State.initial ()) (some dataDev)).2 (some "data:/f".toList) 0).2

/-- The records that a call taking the state from `s` to `s'` added to the
trace. -/
def newCalls {σ : Type} (s s' : State σ) : List Call := s'.trace.drop s.trace.length

/-- Every backend invocation made between `s` and `s'` ran for device `d`
with the callback marker equal to `d`, `d` is a registered device, and
`GetDeviceDataByFd`, evaluated in the state of that moment (`s` with the
marker of the record), returns the data of that device for every descriptor
argument. -/
def MarkedCalls {σ : Type} (s s' : State σ) (d : Int) : Prop :=
  ∀ c ∈ newCalls s s', c.device_idx = d ∧ c.marker = d ∧
    ∃ dev : devoptab_posix_t σ, GetDevice s d = some dev ∧
      ∀ fd : Int,
        (GetDeviceDataByFd { s with callback_device_idx := c.marker } fd).1
          = dev.dot.deviceData

/-- Every backend invocation made between `s` and `s'` ran with the callback
marker as it was in `s`. -/
def UnmarkedCalls {σ : Type} (s s' : State σ) : Prop :=
  ∀ c ∈ newCalls s s', c.marker = s.callback_device_idx

/-- The shape of a call that sets the marker around its backend invocation:
either nothing was invoked and the marker is as before, or one invocation ran
for the registered device `d` under marker `d` and the marker is `-1`
afterwards. -/
def MarkedStep {σ : Type} (s s' : State σ) (d : Int) : Prop :=
  (s'.trace = s.trace ∧ s'.callback_device_idx = s.callback_device_idx) ∨
  (∃ (dev : devoptab_posix_t σ) (w : Invoke), GetDevice s d = some dev ∧
    s'.trace = s.trace ++ [{ device_idx := d, marker := d, what := w }] ∧
    s'.callback_device_idx = -1)

/-- The shape of a call that never writes the marker: the marker is as
before and at most one invocation ran, under that marker. -/
def UnmarkedStep {σ : Type} (s s' : State σ) : Prop :=
  s'.callback_device_idx = s.callback_device_idx ∧
  (s'.trace = s.trace ∨
    ∃ (d : Int) (w : Invoke),
      s'.trace = s.trace ++ [{ device_idx := d, marker := s.callback_device_idx, what := w }])

/-- The state `nitroState` with every descriptor in use, the descriptors from
3 on bound to the ROM-image device in slot 3. -/
def nitroFull : State Unit :=
  { nitroState with
    fd_table := fun i =>
      if i.val < 3 then { used := true, device_idx := i.val, device_fd := i.val }
      else { used := true, device_idx := 3, device_fd := 0 } }

/-- The internal `open(path, O_WRONLY)` of `truncate`: its result and the state
it leaves. -/
def truncate.opened {σ : Type} (s : State σ) (path : Option CStr) : Int × State σ :=
  sys_open s path (O_WRONLY : Int)

/-- The `ftruncate` call of `truncate`, made on the descriptor and in the state
that the internal `open` left. -/
def truncate.truncated {σ : Type} (s : State σ) (path : Option CStr) (len : Int) :
    Int × State σ :=
  ftruncate (truncate.opened s path).2 (truncate.opened s path).1 len

/-- The `close` call of `truncate`, made after `ftruncate` on the same
descriptor. -/
def truncate.closed {σ : Type} (s : State σ) (path : Option CStr) (len : Int) :
    Int × State σ :=
  close (truncate.truncated s path len).2 (truncate.opened s path).1

/-- A posix-extended device named `t`: open returns handle 7; ftruncate fails
with `errno` 22 on a negative length and succeeds otherwise; close always
fails with `errno` 9. -/
def truncDev : devoptab_posix_t Unit :=
  { dot := { name := some "t".toList
             flags := DEVOPTAB_IS_POSIX
             open_r := some (fun _ _ w => (7, w))
             close_r := some (fun _ w => (-1, { w with errno := 9 })) }
    ftruncate_r := some (fun _ len w =>
      if len < 0 then (-1, { w with errno := 22 }) else (0, w)) }

/-- The initial state with `truncDev` registered (slot 3). -/
def truncState : State Unit := (AddDevice (State.initial ()) (some truncDev)).2

/-! ## `iob.c`: the buffered console streams -/

section Console

variable {σ : Type}

/-- The constant `OUTPUT_BUFFER_SIZE` of `iob.c`. -/
abbrev OUTPUT_BUFFER_SIZE : Nat := 16

/-- The macro `STDOUT_FILENO` of `<unistd.h>`. -/
abbrev STDOUT_FILENO : Nat := 1

/-- The escape character `0x1B`. -/
def ESC : Char := Char.ofNat 0x1B

/-- The two objects `putc_buffered` reaches through its pointer arguments:
the array `stdout_buf` or `stderr_buf` (of `OUTPUT_BUFFER_SIZE + 1` chars)
and its length counter `stdout_buf_len` or `stderr_buf_len`. -/
structure stream_buf where
  buf : List Char
  buf_len : Nat

/-- The static initialiser of a stream: a zeroed array, length 0. -/
def stream_buf.initial : stream_buf :=
  { buf := List.replicate (OUTPUT_BUFFER_SIZE + 1) (Char.ofNat 0), buf_len := 0 }

/-- The flush test of `putc_buffered`, on the counter after the store and the
character stored. -/
def putc_buffered.flush (buf_len : Nat) (c : Char) : Bool :=
  buf_len == OUTPUT_BUFFER_SIZE || c == '\n' || c == '\r' ||
    (decide ('A' ≤ c) && decide (c ≤ 'Z')) || (decide ('a' ≤ c) && decide (c ≤ 'z'))

/-- The function `putc_buffered` of `iob.c`.  It calls `device->write_r`
directly, without the dispatcher; the call is logged in the ghost trace like
the dispatcher's, with the array passed and the length.  The counter is a
`uint16_t`.  (A store past the end of the array is skipped.) -/
def putc_buffered (s : State σ) (c : Char) (b : stream_buf) (fd : Fin MAX_DEVICES) :
    Int × stream_buf × State σ :=
  match s.devoptab_list fd with
  | none => ((c.toNat : Int), b, s)
  | some device =>
    match device.dot.write_r with
    | none => ((c.toNat : Int), b, s)
    | some write_r =>
      if c = ESC ∨ b.buf_len > 0 then
        let buf1 := b.buf.set b.buf_len c
        let len1 := (b.buf_len + 1) % 2 ^ 16
        let buf2 := buf1.set len1 (Char.ofNat 0)
        if putc_buffered.flush len1 c = true then
          let r := s.invoke (fd.val : Int) (Invoke.write_r (fd.val : Int) buf2 len1)
            (write_r (fd.val : Int) buf2 len1)
          ((c.toNat : Int), { buf := buf2, buf_len := 0 }, r.2)
        else
          ((c.toNat : Int), { buf := buf2, buf_len := len1 }, s)
      else
        let r := s.invoke (fd.val : Int) (Invoke.write_r (fd.val : Int) [c] 1)
          (write_r (fd.val : Int) [c] 1)
        ((c.toNat : Int), b, r.2)

/-- The statics of `iob.c`: the two output streams. -/
structure iob_t where
  stdout : stream_buf
  stderr : stream_buf

/-- The function `stderr_putc_buffered` of `iob.c`. -/
def stderr_putc_buffered (s : State σ) (io : iob_t) (c : Char) : Int × iob_t × State σ :=
  let r := putc_buffered s c io.stderr ⟨STDERR_FILENO, by decide⟩
  (r.1, { io with stderr := r.2.1 }, r.2.2)

/-- The function `stdout_putc_buffered` of `iob.c`. -/
def stdout_putc_buffered (s : State σ) (io : iob_t) (c : Char) : Int × iob_t × State σ :=
  let fallback :=
    match s.devoptab_list ⟨STDOUT_FILENO, by decide⟩ with
    | none => true
    | some device => device.dot.write_r.isNone
  if fallback then stderr_putc_buffered s io c
  else
    let r := putc_buffered s c io.stdout ⟨STDOUT_FILENO, by decide⟩
    (r.1, { io with stdout := r.2.1 }, r.2.2)

/-- The bytes of a list written one after the other to one stream with
`putc_buffered`. -/
def putc_buffered.run (s : State σ) (b : stream_buf) (fd : Fin MAX_DEVICES) :
    List Char → stream_buf × State σ
  | [] => (b, s)
  | c :: cs =>
    let r := putc_buffered s c b fd
    putc_buffered.run r.2.2 r.2.1 fd cs

/-- An ASCII letter. -/
def isLetter (c : Char) : Prop := ('A' ≤ c ∧ c ≤ 'Z') ∨ ('a' ≤ c ∧ c ≤ 'z')

/-- A byte that ends an escape run: a letter, newline or carriage return. -/
def isTerminator (c : Char) : Prop := isLetter c ∨ c = '\n' ∨ c = '\r'

end Console

section ConsoleVocabulary

instance isLetter.decidable : DecidablePred isLetter :=
  fun c => by unfold isLetter; infer_instance

instance isTerminator.decidable : DecidablePred isTerminator :=
  fun c => by unfold isTerminator; infer_instance

end ConsoleVocabulary

/-! ## `fatfs_devoptab.c`: open, seek and truncate -/

section Fat

variable {σ : Type}

/-- Modelled from the spec: the out-of-memory code `ENOMEM` of `<errno.h>`, a
header that is not part of the sources; the number is the one of newlib. -/
def ENOMEM : Int := 12

/-- Modelled from the spec: the read-only access flag `O_RDONLY` of
`<sys/fcntl.h>`, a header that is not part of the sources; the number is the
one of newlib. -/
def O_RDONLY : Nat := 0x0

/-- Modelled from the spec: the create-exclusive flag `O_EXCL` of
`<sys/fcntl.h>`, a header that is not part of the sources; the number is the
one of newlib. -/
def O_EXCL : Nat := 0x800

/-- Modelled from the spec: the whence value `SEEK_SET` of `<stdio.h>`, a
header that is not part of the sources. -/
def SEEK_SET : Int := 0

/-- Modelled from the spec: the whence value `SEEK_CUR` of `<stdio.h>`, a
header that is not part of the sources. -/
def SEEK_CUR : Int := 1

/-- Modelled from the spec: the whence value `SEEK_END` of `<stdio.h>`, a
header that is not part of the sources. -/
def SEEK_END : Int := 2

/-- Modelled from the spec: the library's read mode bit `FA_READ` of `ff.h`,
a header that is not part of the sources. -/
def FA_READ : Nat := 0x01

/-- Modelled from the spec: the library's write mode bit `FA_WRITE` of
`ff.h`, a header that is not part of the sources. -/
def FA_WRITE : Nat := 0x02

/-- Modelled from the spec: the library's mode `FA_OPEN_EXISTING` of `ff.h`,
a header that is not part of the sources. -/
def FA_OPEN_EXISTING : Nat := 0x00

/-- Modelled from the spec: the library's mode `FA_CREATE_NEW` of `ff.h`, a
header that is not part of the sources. -/
def FA_CREATE_NEW : Nat := 0x04

/-- Modelled from the spec: the library's mode `FA_CREATE_ALWAYS` of `ff.h`,
a header that is not part of the sources. -/
def FA_CREATE_ALWAYS : Nat := 0x08

/-- Modelled from the spec: the library's mode `FA_OPEN_APPEND` of `ff.h`, a
header that is not part of the sources. -/
def FA_OPEN_APPEND : Nat := 0x30

/-- What `fatfs_devoptab.c` uses and the sources do not contain: the heap
(`calloc`, `free`), the FAT library of `ff.h` (a file object is named by its
address; `f_size` and `f_tell` read it; `f_write` gives the result code and
the number of bytes written; the offset of `f_lseek` is a value of the
unsigned type `FSIZE_t`), the helper `fatfs_error_to_posix`, the macros
`FD_FAT_PACK` and `FD_FAT_UNPACK`, and the widths in bits of the types
`size_t` and `FSIZE_t`. -/
structure FatLib (σ : Type) where
  calloc : World σ → Option Nat × World σ
  free : Nat → World σ → World σ
  f_open : Nat → CStr → Nat → World σ → Int × World σ
  f_lseek : Nat → Nat → World σ → Int × World σ
  f_write : Nat → List Char → Nat → World σ → (Int × Nat) × World σ
  f_truncate : Nat → World σ → Int × World σ
  f_size : Nat → σ → Nat
  f_tell : Nat → σ → Nat
  fatfs_error_to_posix : Int → Int
  FD_FAT_PACK : Nat → Int
  FD_FAT_UNPACK : Int → Nat
  size_t_bits : Nat
  FSIZE_t_bits : Nat

/-- The cast `(size_t)x`. -/
def FatLib.to_size_t (lib : FatLib σ) (x : Int) : Nat := (x % 2 ^ lib.size_t_bits).toNat

/-- The conversion of a value to the unsigned type `FSIZE_t`, as for an
argument of `f_lseek` or the initialiser of `size_diff`. -/
def FatLib.to_FSIZE_t (lib : FatLib σ) (x : Int) : Nat := (x % 2 ^ lib.FSIZE_t_bits).toNat

/-- The function `fat_fd_to_fil`. -/
def fat_fd_to_fil (lib : FatLib σ) (fd : Int) : Nat := lib.FD_FAT_UNPACK fd

/-- The mode `fat_open` computes from the flags (the `switch` on the access
bits and the tests of `O_CREAT`, `O_APPEND`, `O_TRUNC` and `O_EXCL`); `none`
stands for its two returns with `EINVAL`. -/
def fat_open.mode (flags : Int) : Option Nat :=
  let access : Option (Nat × Bool) :=
    if Int.land flags ((O_RDONLY ||| O_WRONLY ||| O_RDWR : Nat) : Int) = (O_RDONLY : Int) then
      some (FA_READ, false)
    else if Int.land flags ((O_RDONLY ||| O_WRONLY ||| O_RDWR : Nat) : Int) = (O_WRONLY : Int) then
      some (FA_WRITE, true)
    else if Int.land flags ((O_RDONLY ||| O_WRONLY ||| O_RDWR : Nat) : Int) = (O_RDWR : Int) then
      some (FA_READ ||| FA_WRITE, true)
    else none
  match access with
  | none => none
  | some (mode, can_write) =>
    if can_write then
      if Int.land flags (O_CREAT : Int) ≠ 0 then
        if Int.land flags (O_APPEND : Int) ≠ 0 then some (mode ||| FA_OPEN_APPEND)
        else if Int.land flags (O_TRUNC : Int) ≠ 0 then
          if Int.land flags (O_EXCL : Int) ≠ 0 then some (mode ||| FA_CREATE_NEW)
          else some (mode ||| FA_CREATE_ALWAYS)
        else none
      else some (mode ||| FA_OPEN_EXISTING)
    else some (mode ||| FA_OPEN_EXISTING)

/-- The function `fat_open`. -/
def fat_open (lib : FatLib σ) (path : Option CStr) (flags : Int) (w : World σ) :
    Int × World σ :=
  match path with
  | none => (-1, { w with errno := EINVAL })
  | some p =>
    match fat_open.mode flags with
    | none => (-1, { w with errno := EINVAL })
    | some mode =>
      let a := lib.calloc w
      match a.1 with
      | none => (-1, { a.2 with errno := ENOMEM })
      | some fp =>
        let r := lib.f_open fp p mode a.2
        if r.1 = FR_OK then (lib.FD_FAT_PACK fp, r.2)
        else
          let w3 := lib.free fp r.2
          (-1, { w3 with errno := lib.fatfs_error_to_posix r.1 })

/-- The function `fat_seek`.  The offset is handed to `f_lseek` converted to
`FSIZE_t`, the type of its parameter; the value returned is the `off_t`
value.  (The sums are exact: `off_t` values are taken in the range where the
arithmetic of the type does not overflow.) -/
def fat_seek (lib : FatLib σ) (fd : Int) (offset : Int) (whence : Int) (w : World σ) :
    Int × World σ :=
  let fp := fat_fd_to_fil lib fd
  let target : Option Int :=
    if whence = SEEK_END then some (offset + (lib.f_size fp w.ext : Int))
    else if whence = SEEK_CUR then some (offset + (lib.f_tell fp w.ext : Int))
    else if whence ≠ SEEK_SET then none
    else some offset
  match target with
  | none => (-1, { w with errno := EINVAL })
  | some offset =>
    let r := lib.f_lseek fp (lib.to_FSIZE_t offset) w
    if r.1 = FR_OK then (offset, r.2)
    else (-1, { r.2 with errno := lib.fatfs_error_to_posix r.1 })

/-- The array `zeroes` of `fat_ftruncate_internal`. -/
def fat_ftruncate_internal.zeroes : List Char := List.replicate 128 (Char.ofNat 0)

/-- The rest of the growth branch of `fat_ftruncate_internal` once the seek to
the end has succeeded: the `while` loop, the last write, and `return 0`.  The
first argument bounds the number of iterations of the loop; `none` means that
the bound was reached. -/
def fat_ftruncate_internal.fill (lib : FatLib σ) (fp : Nat) :
    Nat → Nat → World σ → Option (Int × World σ)
  | fuel, size_diff, w =>
    if size_diff > 128 then
      match fuel with
      | 0 => none
      | fuel + 1 =>
        let r := lib.f_write fp fat_ftruncate_internal.zeroes 128 w
        if r.1.1 ≠ FR_OK ∨ r.1.2 ≠ 128 then
          some (-1, { r.2 with errno := lib.fatfs_error_to_posix r.1.1 })
        else fat_ftruncate_internal.fill lib fp fuel (size_diff - 128) r.2
    else if size_diff > 0 then
      let r := lib.f_write fp fat_ftruncate_internal.zeroes size_diff w
      if r.1.1 ≠ FR_OK ∨ r.1.2 ≠ size_diff then
        some (-1, { r.2 with errno := lib.fatfs_error_to_posix r.1.1 })
      else some (0, r.2)
    else some (0, w)

/-- The function `fat_ftruncate_internal`.  The two offsets handed to
`f_lseek` have the type `FSIZE_t` of its parameter: `fsize` has it already,
`length` is converted.  The loop is run with the bound `size_diff`; `none`
would mean that it did not end within that many iterations. -/
def fat_ftruncate_internal (lib : FatLib σ) (fp : Nat) (length : Int) (w : World σ) :
    Option (Int × World σ) :=
  let fsize := lib.f_size fp w.ext
  if lib.to_size_t length > lib.to_size_t (fsize : Int) then
    let r := lib.f_lseek fp fsize w
    if r.1 ≠ FR_OK then some (-1, { r.2 with errno := lib.fatfs_error_to_posix r.1 })
    else
      let size_diff := lib.to_FSIZE_t (length - (fsize : Int))
      fat_ftruncate_internal.fill lib fp size_diff size_diff r.2
  else
    let r := lib.f_lseek fp (lib.to_FSIZE_t length) w
    if r.1 ≠ FR_OK then some (-1, { r.2 with errno := lib.fatfs_error_to_posix r.1 })
    else
      let t := lib.f_truncate fp r.2
      if t.1 ≠ FR_OK then some (-1, { t.2 with errno := lib.fatfs_error_to_posix t.1 })
      else some (0, t.2)

/-- The function `fat_ftruncate`; `none` as for `fat_ftruncate_internal`. -/
def fat_ftruncate (lib : FatLib σ) (fd : Int) (len : Int) (w : World σ) :
    Option (Int × World σ) :=
  let fp := fat_fd_to_fil lib fd
  if lib.to_size_t len = lib.to_size_t (lib.f_size fp w.ext : Int) then some (0, w)
  else
    let prev_offset := lib.f_tell fp w.ext
    match fat_ftruncate_internal lib fp len w with
    | none => none
    | some (truncate_ret, w1) =>
      let truncate_errno := w1.errno
      let r := fat_seek lib fd (prev_offset : Int) SEEK_SET w1
      if truncate_ret ≠ 0 then some (-1, { r.2 with errno := truncate_errno })
      else if r.1 ≠ (prev_offset : Int) then some (-1, r.2)
      else some (0, r.2)

/-- One call of the heap or of the FAT library, with its arguments and its
result. -/
inductive FatCall where
  | calloc (result : Option Nat)
  | free (ptr : Nat)
  | f_open (fp : Nat) (path : CStr) (mode : Nat) (result : Int)
  | f_lseek (fp : Nat) (ofs : Nat) (result : Int)
  | f_write (fp : Nat) (buff : List Char) (btw : Nat) (result : Int) (bw : Nat)
  | f_truncate (fp : Nat) (result : Int)
deriving DecidableEq, Repr

/-- The world without the record of calls. -/
def World.inner {τ : Type} (w : World (σ × τ)) : World σ :=
  { errno := w.errno, ext := w.ext.1 }

/-- The world `v` with the record of calls `log` put back. -/
def World.outer {τ : Type} (v : World σ) (log : τ) : World (σ × τ) :=
  { errno := v.errno, ext := (v.ext, log) }

/-- The calls recorded in a world. -/
def recorded (w : World (σ × List FatCall)) : List FatCall := w.ext.2

/-- The library `lib` made to record every call, with its result, behind the
state it works on. -/
def FatLib.logged (lib : FatLib σ) : FatLib (σ × List FatCall) :=
  { calloc := fun w =>
      let r := lib.calloc w.inner
      (r.1, r.2.outer (recorded w ++ [FatCall.calloc r.1]))
    free := fun ptr w => (lib.free ptr w.inner).outer (recorded w ++ [FatCall.free ptr])
    f_open := fun fp path mode w =>
      let r := lib.f_open fp path mode w.inner
      (r.1, r.2.outer (recorded w ++ [FatCall.f_open fp path mode r.1]))
    f_lseek := fun fp ofs w =>
      let r := lib.f_lseek fp ofs w.inner
      (r.1, r.2.outer (recorded w ++ [FatCall.f_lseek fp ofs r.1]))
    f_write := fun fp buff btw w =>
      let r := lib.f_write fp buff btw w.inner
      (r.1, r.2.outer (recorded w ++ [FatCall.f_write fp buff btw r.1.1 r.1.2]))
    f_truncate := fun fp w =>
      let r := lib.f_truncate fp w.inner
      (r.1, r.2.outer (recorded w ++ [FatCall.f_truncate fp r.1]))
    f_size := fun fp x => lib.f_size fp x.1
    f_tell := fun fp x => lib.f_tell fp x.1
    fatfs_error_to_posix := lib.fatfs_error_to_posix
    FD_FAT_PACK := lib.FD_FAT_PACK
    FD_FAT_UNPACK := lib.FD_FAT_UNPACK
    size_t_bits := lib.size_t_bits
    FSIZE_t_bits := lib.FSIZE_t_bits }

end Fat

section FatVocabulary

variable {σ : Type}

/-- The access bits of the flags of `open`: `flags & (O_RDONLY | O_WRONLY |
O_RDWR)`. -/
def accessBits (flags : Int) : Int :=
  Int.land flags ((O_RDONLY ||| O_WRONLY ||| O_RDWR : Nat) : Int)

/-- The test `flags & f` of the source: the flag `f` is set. -/
def hasFlag (flags : Int) (f : Nat) : Prop := Int.land flags (f : Int) ≠ 0

instance hasFlag.decidable (flags : Int) (f : Nat) : Decidable (hasFlag flags f) := by
  unfold hasFlag; infer_instance

/-- The call of `fat_open` fails with `EINVAL` and leaves the world as it was,
the record of calls included: no handle is allocated and the library is not
called. -/
def fat_open.Rejects (lib : FatLib σ) (p : CStr) (flags : Int)
    (w : World (σ × List FatCall)) : Prop :=
  fat_open lib.logged (some p) flags w = (-1, { w with errno := EINVAL })

/-- The call of `fat_open` allocates a handle and, when it gets one, opens the
path with the library in mode `mode`: these are its first calls. -/
def fat_open.Requests (lib : FatLib σ) (p : CStr) (flags : Int)
    (w : World (σ × List FatCall)) (mode : Nat) : Prop :=
  ∃ (r : Option Nat) (rest : List FatCall),
    recorded (fat_open lib.logged (some p) flags w).2
      = recorded w ++ FatCall.calloc r :: rest ∧
    ∀ fp : Nat, r = some fp →
      ∃ (res : Int) (rest' : List FatCall), rest = FatCall.f_open fp p mode res :: rest'

/-- A library for the examples: one file, given by its size and position, on a
volume of `cap` bytes.  A seek moves the position, a write stores what fits
below the capacity (it is short when the volume is full), a truncation cuts
the file at the position; `calloc` gives address 1. -/
def exampleLib (cap : Nat) : FatLib (Nat × Nat) :=
  { calloc := fun w => (some 1, w)
    free := fun _ w => w
    f_open := fun _ _ _ w => (FR_OK, w)
    f_lseek := fun _ ofs w => (FR_OK, { w with ext := (w.ext.1, ofs) })
    f_write := fun _ _ btw w =>
      let n := min btw (cap - w.ext.2)
      ((FR_OK, n), { w with ext := (max w.ext.1 (w.ext.2 + n), w.ext.2 + n) })
    f_truncate := fun _ w => (FR_OK, { w with ext := (w.ext.2, w.ext.2) })
    f_size := fun _ x => x.1
    f_tell := fun _ x => x.2
    fatfs_error_to_posix := fun r => if r = FR_OK then 0 else 5
    FD_FAT_PACK := fun fp => (fp : Int)
    FD_FAT_UNPACK := fun fd => fd.toNat
    size_t_bits := 32
    FSIZE_t_bits := 32 }

/-- The world of the examples: a file of `size` bytes at position `pos`, no
call recorded. -/
def exampleWorld (size pos : Nat) : World ((Nat × Nat) × List FatCall) :=
  { errno := 0, ext := ((size, pos), []) }

end FatVocabulary

section FatVocabulary2

/-- The library of the examples with another seek: a seek past the end of the
file extends the file to the offset. -/
def extendingLib (cap : Nat) : FatLib (Nat × Nat) :=
  { exampleLib cap with
    f_lseek := fun _ ofs w =>
      (FR_OK, { w with ext := (max w.ext.1 ofs, ofs) }) }

end FatVocabulary2

section RegistryVocabulary

variable {σ : Type}

/-- The default device is unset (`-1`) or the index of an occupied slot. -/
def DefaultValid (s : State σ) : Prop :=
  s.defaultDevice = -1 ∨
  ∃ i : Fin MAX_DEVICES, s.defaultDevice = (i.val : Int) ∧ (s.devoptab_list i).isSome = true

/-- The states reachable from the initial state by calls of `AddDevice`,
`RemoveDevice`, `SetDefaultDevice` and `chdir`. -/
inductive ReachableByCalls : State σ → Prop
  | initial (ext : σ) : ReachableByCalls (State.initial ext)
  | add (s : State σ) (device : Option (devoptab_posix_t σ)) :
      ReachableByCalls s → ReachableByCalls (AddDevice s device).2
  | remove (s : State σ) (name : Option CStr) :
      ReachableByCalls s → ReachableByCalls (RemoveDevice s name).2
  | setDefault (s : State σ) (index : Int) :
      ReachableByCalls s → ReachableByCalls (SetDefaultDevice s index).2
  | chdir (s : State σ) (name : Option CStr) :
      ReachableByCalls s → ReachableByCalls (chdir s name).2

end RegistryVocabulary

section ConsoleVocabulary2

/-- The indices of the two stores of `putc_buffered` into the array, on a
byte that is buffered: `buf[*buf_len] = c` and, after the increment of the
counter, `buf[*buf_len] = 0`. -/
def putc_buffered.stores (b : stream_buf) : List Nat :=
  [b.buf_len, (b.buf_len + 1) % 2 ^ 16]

/-- The bytes pending in the buffer of a stream. -/
def stream_buf.pending (b : stream_buf) : List Char := b.buf.take b.buf_len

/-- The payload of a call of a write entry: the first `len` bytes behind the
pointer. -/
def Call.payload (c : Call) : List Char :=
  match c.what with
  | Invoke.write_r _ ptr len => ptr.take len
  | _ => []

/-- The payloads of a list of calls, one after the other in call order. -/
def payloads : List Call → List Char
  | [] => []
  | c :: cs => c.payload ++ payloads cs

end ConsoleVocabulary2

/-- A posix-extended device named `x` whose chdir entry refuses every
directory: it returns -1 and sets `errno` to `EINVAL`. -/
def refusingDev : devoptab_posix_t Unit :=
  { dot := { name := some "x".toList
             flags := DEVOPTAB_IS_POSIX }
    chdir_r := some (fun _ w => (-1, { w with errno := EINVAL })) }

/-- The registry with the devices `fat` (slot 3, the default device) and
`refusingDev` (slot 4). -/
def refusingState : State Unit :=
  (AddDevice (AddDevice (State.initial ()) (some (posixDev "fat"))).2
    (some refusingDev)).2

/-! ## Lemmas -/

theorem strcmp_eq_zero_iff (a b : CStr) : strcmp a b = 0 ↔ a = b := by
  induction a generalizing b with
  | nil => cases b <;> simp [strcmp]
  | cons x xs ih =>
    cases b with
    | nil => simp [strcmp]
    | cons y ys =>
      by_cases hxy : x = y
      · simp [strcmp, hxy, ih]
      · by_cases hlt : x < y <;> simp [strcmp, hxy, hlt]

theorem strncmp_length_eq_zero_iff (a b : CStr) :
    strncmp a b a.length = 0 ↔ a = b.take a.length := by
  induction a generalizing b with
  | nil => simp [strncmp]
  | cons x xs ih =>
    cases b with
    | nil => simp [strncmp]
    | cons y ys =>
      by_cases hxy : x = y
      · simp [strncmp, hxy, ih]
      · by_cases hlt : x < y <;> simp [strncmp, hxy, hlt]

theorem strchr_eq_none_iff (s : CStr) (c : Char) : strchr s c = none ↔ c ∉ s := by
  induction s with
  | nil => simp [strchr]
  | cons x xs ih =>
    by_cases hx : x = c
    · simp [strchr, hx]
    · simp [strchr, hx, ih, Ne.symm hx]

theorem strchr_eq_some (s : CStr) (c : Char) (k : Nat) (h : strchr s c = some k) :
    k = (before c s).length ∧ s.take k = before c s := by
  induction s generalizing k with
  | nil => simp [strchr] at h
  | cons x xs ih =>
    by_cases hx : x = c
    · simp [strchr, hx] at h
      subst h
      simp [before, hx]
    · simp only [strchr, hx, if_false, Option.map_eq_some'] at h
      obtain ⟨j, hj, rfl⟩ := h
      obtain ⟨h1, h2⟩ := ih j hj
      simp only [before] at h1 h2 ⊢
      simp [List.takeWhile_cons, hx, h2, ← h1]

theorem slot?_val {n : Nat} (i : Fin n) : slot? n (i.val : Int) = some i := by
  unfold slot?
  have h1 : ¬ ((i.val : Int) < 0 ∨ (i.val : Int) ≥ (n : Int)) := by omega
  simp [h1]

theorem slot?_eq_some {n : Nat} {x : Int} {i : Fin n} (h : slot? n x = some i) :
    x = (i.val : Int) := by
  unfold slot? at h
  split at h
  · simp at h
  · simp only [Option.some.injEq] at h
    subst h
    simp; omega

theorem slot?_eq_none {n : Nat} {x : Int} : slot? n x = none ↔ (x < 0 ∨ (n : Int) ≤ x) := by
  unfold slot?
  split <;> simp_all

section FindDevice

variable {σ : Type}

theorem FindDevice.hit_iff (s : State σ) (path : CStr) (k : Nat)
    (hk : strchr path ':' = some k) (i : Fin MAX_DEVICES) :
    FindDevice.hit s path (k : Int) i = true ↔ slotName s i = some (before ':' path) := by
  obtain ⟨hlen, htake⟩ := strchr_eq_some path ':' k hk
  unfold FindDevice.hit slotName
  cases hl : s.devoptab_list i with
  | none => simp
  | some d =>
    cases hn : d.dot.name with
    | none => simp [hn]
    | some n =>
      simp only [hn, Option.some_bind, Option.some.injEq, Bool.and_eq_true, beq_iff_eq,
        strlen, strncmp_length_eq_zero_iff, Nat.cast_inj]
      constructor
      · rintro ⟨h1, h2⟩
        rw [h2, ← h1, htake]
      · intro h
        subst h
        refine ⟨hlen, ?_⟩
        rw [← hlen, htake]

/-- On a path with a separator, `FindDevice` yields the least slot whose
device is named by the text before the separator, and `-1` when there is
none. -/
theorem FindDevice_of_sep (s : State σ) (path : CStr) (h : ':' ∈ path) :
    (∃ i : Fin MAX_DEVICES, FindDevice s (some path) = (i.val : Int) ∧
        slotName s i = some (before ':' path) ∧
        ∀ j : Fin MAX_DEVICES, slotName s j = some (before ':' path) → i ≤ j) ∨
    (FindDevice s (some path) = -1 ∧
        ∀ j : Fin MAX_DEVICES, slotName s j ≠ some (before ':' path)) := by
  cases hk : strchr path ':' with
  | none => exact absurd h ((strchr_eq_none_iff path ':').1 hk)
  | some k =>
    simp only [FindDevice, hk]
    cases hf : Fin.find (fun index : Fin MAX_DEVICES =>
          FindDevice.hit s path (k : Int) index = true) with
    | none =>
      right
      rw [Fin.find_eq_none_iff] at hf
      refine ⟨rfl, fun j hj => hf j ((FindDevice.hit_iff s path k hk j).2 hj)⟩
    | some i =>
      left
      rw [Fin.find_eq_some_iff] at hf
      exact ⟨i, rfl, (FindDevice.hit_iff s path k hk i).1 hf.1,
        fun j hj => hf.2 j ((FindDevice.hit_iff s path k hk j).2 hj)⟩

theorem before_append (c : Char) (n rest : CStr) (h : c ∉ n) :
    before c (n ++ c :: rest) = n := by
  induction n with
  | nil => simp [before]
  | cons x xs ih =>
    have hx : x ≠ c := fun e => h (by simp [e])
    have hxs : c ∉ xs := fun e => h (by simp [e])
    have := ih hxs
    simp only [before] at this ⊢
    simp [List.takeWhile_cons, hx, this]

theorem isSome_of_slotName (s : State σ) (k : Fin MAX_DEVICES) (n : CStr)
    (hk : slotName s k = some n) : (s.devoptab_list k).isSome = true := by
  unfold slotName at hk
  cases hl : s.devoptab_list k with
  | none => simp [hl] at hk
  | some d => rfl

/-- C1 (amended): for every registry state and every path containing a colon,
if `FindDevice` returns an index `i >= 0` then slot `i` is occupied and its
device name is exactly the text of the path before its first colon; it
returns `-1` exactly when no occupied slot has that name.  In particular, for
a name `n1` that contains no colon and a registered device named `n2` other
than `n1`, `FindDevice` on `n1` followed by a colon and anything never returns
the slot whose device is named `n2`. -/
theorem FindDevice_resolves_by_name (s : State σ) (path : CStr) (h : ':' ∈ path) :
    (∀ i : Int, 0 ≤ i → FindDevice s (some path) = i →
        ∃ k : Fin MAX_DEVICES, (k.val : Int) = i ∧
          (s.devoptab_list k).isSome = true ∧
          slotName s k = some (before ':' path)) ∧
    (FindDevice s (some path) = -1 ↔
        ∀ k : Fin MAX_DEVICES, slotName s k ≠ some (before ':' path)) ∧
    (∀ (n1 n2 rest : CStr) (k2 : Fin MAX_DEVICES),
        path = n1 ++ ':' :: rest → ':' ∉ n1 → n1 ≠ n2 → slotName s k2 = some n2 →
        FindDevice s (some path) ≠ (k2.val : Int)) := by
  have key := FindDevice_of_sep s path h
  refine ⟨?_, ?_, ?_⟩
  · intro i hi hfi
    rcases key with ⟨k, hk, hn, _⟩ | ⟨hneg, _⟩
    · exact ⟨k, by rw [← hk, hfi], isSome_of_slotName s k _ hn, hn⟩
    · omega
  · constructor
    · intro hm
      rcases key with ⟨k, hk, _, _⟩ | ⟨_, hno⟩
      · omega
      · exact hno
    · intro hno
      rcases key with ⟨k, _, hn, _⟩ | ⟨hneg, _⟩
      · exact absurd hn (hno k)
      · exact hneg
  · intro n1 n2 rest k2 hp hc hne hk2 hfd
    rcases key with ⟨k, hk, hn, _⟩ | ⟨hneg, _⟩
    · have hkk : k = k2 := Fin.ext (by omega)
      subst hkk
      rw [hp, before_append ':' n1 rest hc, hk2] at hn
      exact hne (Option.some.inj hn).symm
    · omega

/-- Witness of C1 (amended): with `nand2` in slot 3 and `nand` in slot 4, the
path `nand:/x` contains a colon and the three parts hold of it. -/
theorem FindDevice_resolves_by_name_witness :
    ':' ∈ "nand:/x".toList ∧
    ((∀ i : Int, 0 ≤ i →
        FindDevice (registryOf ["nand2", "nand"]) (some "nand:/x".toList) = i →
        ∃ k : Fin MAX_DEVICES, (k.val : Int) = i ∧
          ((registryOf ["nand2", "nand"]).devoptab_list k).isSome = true ∧
          slotName (registryOf ["nand2", "nand"]) k
            = some (before ':' "nand:/x".toList)) ∧
    (FindDevice (registryOf ["nand2", "nand"]) (some "nand:/x".toList) = -1 ↔
        ∀ k : Fin MAX_DEVICES, slotName (registryOf ["nand2", "nand"]) k
          ≠ some (before ':' "nand:/x".toList)) ∧
    (∀ (n1 n2 rest : CStr) (k2 : Fin MAX_DEVICES),
        "nand:/x".toList = n1 ++ ':' :: rest → ':' ∉ n1 → n1 ≠ n2 →
        slotName (registryOf ["nand2", "nand"]) k2 = some n2 →
        FindDevice (registryOf ["nand2", "nand"]) (some "nand:/x".toList)
          ≠ (k2.val : Int))) :=
  ⟨by decide,
   FindDevice_resolves_by_name (registryOf ["nand2", "nand"]) "nand:/x".toList
      (by decide)⟩

/-- Counterexample to C1 as stated: with devices named `a:b` (slot 3) and `a`
(slot 4) registered, `FindDevice` on the path made of `a:b` followed by `:/x`
returns slot 4, the slot of the other name. -/
theorem FindDevice_colon_in_name :
    slotName (registryOf ["a:b", "a"]) 3 = some "a:b".toList ∧
    slotName (registryOf ["a:b", "a"]) 4 = some "a".toList ∧
    "a:b".toList ≠ "a".toList ∧
    FindDevice (registryOf ["a:b", "a"]) (some ("a:b".toList ++ ":/x".toList)) = 4 := by
  decide

end FindDevice

section AddDevice

variable {σ : Type}

theorem AddDevice.stop_eq_false (s : State σ) (name : CStr) (i : Fin MAX_DEVICES)
    (hocc : (s.devoptab_list i).isSome = true) (hname : slotName s i ≠ some name) :
    AddDevice.stop s name i = false := by
  unfold AddDevice.stop
  unfold slotName at hname
  cases hl : s.devoptab_list i with
  | none => simp [hl] at hocc
  | some d =>
    cases hn : d.dot.name with
    | none => simp [hn]
    | some n =>
      have hne : n ≠ name := by
        intro e
        apply hname
        simp [hl, hn, e]
      simp [hn, strcmp_eq_zero_iff, hne]

/-- The two outcomes of `AddDevice` on a device with a name: `-1` and no
change, or an index from 3 on, the device stored in that slot, and the
default device set to it when there was none. -/
theorem AddDevice_cases (s : State σ) (d : devoptab_posix_t σ) (name : CStr)
    (hd : d.dot.name = some name) :
    (AddDevice s (some d) = (-1, s) ∧
      ∀ i : Fin MAX_DEVICES, 3 ≤ i.val → AddDevice.stop s name i = false) ∨
    (∃ idx : Fin MAX_DEVICES, 3 ≤ idx.val ∧ AddDevice.stop s name idx = true ∧
      (∀ j : Fin MAX_DEVICES, 3 ≤ j.val → AddDevice.stop s name j = true → idx ≤ j) ∧
      AddDevice s (some d) = ((idx.val : Int),
        { s with
          devoptab_list := Function.update s.devoptab_list idx (some d)
          defaultDevice := if s.defaultDevice < 0 then (idx.val : Int)
                           else s.defaultDevice })) := by
  simp only [AddDevice, hd]
  cases hf : Fin.find (fun idx : Fin MAX_DEVICES =>
          3 ≤ idx.val ∧ AddDevice.stop s name idx = true) with
  | none =>
    left
    rw [Fin.find_eq_none_iff] at hf
    refine ⟨rfl, fun i hi => ?_⟩
    have := hf i
    simp only [not_and, Bool.not_eq_true] at this
    exact this hi
  | some idx =>
    right
    rw [Fin.find_eq_some_iff] at hf
    refine ⟨idx, hf.1.1, hf.1.2, fun j h1 h2 => hf.2 j ⟨h1, h2⟩, ?_⟩
    by_cases hdef : s.defaultDevice < 0 <;> simp [hdef]

/-- C3: when slots 3..15 are all occupied and none holds a device of the name
of `d`, `AddDevice` returns `-1` and leaves the whole state (every slot and
the default device) unchanged; a call of `AddDevice` that does not return `-1`
returns an index in 3..15 and stores into that slot only, so that at most 13
devices are registered besides the 3 reserved slots; and `AddDevice` returns
`-1` without any change when the device or its name is null. -/
theorem AddDevice_full_or_null (s : State σ) :
    (∀ (d : devoptab_posix_t σ) (name : CStr), d.dot.name = some name →
      (∀ i : Fin MAX_DEVICES, 3 ≤ i.val →
        (s.devoptab_list i).isSome = true ∧ slotName s i ≠ some name) →
      AddDevice s (some d) = (-1, s)) ∧
    (∀ device : Option (devoptab_posix_t σ), (AddDevice s device).1 ≠ -1 →
      ∃ idx : Fin MAX_DEVICES, 3 ≤ idx.val ∧ idx.val ≤ 15 ∧
        (AddDevice s device).1 = (idx.val : Int) ∧
        ∀ j : Fin MAX_DEVICES, j ≠ idx →
          (AddDevice s device).2.devoptab_list j = s.devoptab_list j) ∧
    AddDevice s none = (-1, s) ∧
    (∀ d : devoptab_posix_t σ, d.dot.name = none → AddDevice s (some d) = (-1, s)) := by
  refine ⟨?_, ?_, rfl, ?_⟩
  · intro d name hd hfull
    rcases AddDevice_cases s d name hd with ⟨h, _⟩ | ⟨idx, h3, hstop, _, _⟩
    · exact h
    · have := AddDevice.stop_eq_false s name idx (hfull idx h3).1 (hfull idx h3).2
      rw [this] at hstop
      exact absurd hstop (by simp)
  · intro device hne
    cases device with
    | none => exact absurd rfl hne
    | some d =>
      cases hd : d.dot.name with
      | none => simp [AddDevice, hd] at hne
      | some name =>
        rcases AddDevice_cases s d name hd with ⟨h, _⟩ | ⟨idx, h3, _, _, h⟩
        · rw [h] at hne
          exact absurd rfl hne
        · have hlt : idx.val < 16 := idx.isLt
          refine ⟨idx, h3, by omega, by rw [h], fun j hj => ?_⟩
          rw [h]
          simp [Function.update_noteq hj]
  · intro d hd
    simp [AddDevice, hd]

/-- Witness of C3: the registry with thirteen registered devices satisfies the
hypothesis of the first part for a device named `extra`. -/
theorem AddDevice_full_or_null_witness :
    (∀ i : Fin MAX_DEVICES, 3 ≤ i.val →
        (fullState.devoptab_list i).isSome = true ∧
        slotName fullState i ≠ some "extra".toList) ∧
    AddDevice fullState (some (plainDev "extra")) = (-1, fullState) :=
  ⟨by decide,
   (AddDevice_full_or_null fullState).1 (plainDev "extra") "extra".toList rfl
     (by decide)⟩

/-- C2, the code at a failing input: with slot 3 empty and a device named `fat`
in slot 4, `AddDevice` of a device named `fat` returns 3, not 4; the old
device stays in slot 4 and the number of occupied slots grows from 4 to 5. -/
theorem AddDevice_hole_before_match :
    holeState.devoptab_list 3 = none ∧
    slotName holeState 4 = some "fat".toList ∧
    (plainDev "fat").dot.name = some "fat".toList ∧
    (AddDevice holeState (some (plainDev "fat"))).1 = 3 ∧
    slotName (AddDevice holeState (some (plainDev "fat"))).2 4 = some "fat".toList ∧
    occupied holeState = 4 ∧
    occupied (AddDevice holeState (some (plainDev "fat"))).2 = 5 := by
  refine ⟨rfl, by decide, rfl, by decide, by decide, by decide, by decide⟩

/-- C4, the code at a failing input: the state reached from the initial state by
registering `a` and `fat`, unregistering `a` and registering `fat` again holds
devices named `fat` in both slot 3 and slot 4. -/
theorem duplicate_names_reachable :
    ∃ s : State Unit, Reachable s ∧
      ∃ i j : Fin MAX_DEVICES, 3 ≤ i.val ∧ 3 ≤ j.val ∧ i ≠ j ∧
        (s.devoptab_list i).isSome = true ∧ (s.devoptab_list j).isSome = true ∧
        slotName s i = slotName s j := by
  refine ⟨(AddDevice (RemoveDevice (AddDevice (AddDevice (State.initial ())
      (some (plainDev "a"))).2 (some (plainDev "fat"))).2 (some "a:".toList)).2
      (some (plainDev "fat"))).2, ?_, 3, 4, by decide, by decide, by decide,
      by decide, by decide, by decide⟩
  exact Reachable.add _ _ (Reachable.remove _ _ (Reachable.add _ _
    (Reachable.add _ _ (Reachable.initial ()))))

end AddDevice

section Dispatch

variable {σ : Type}

theorem GetDevice_neg (s : State σ) (i : Int) (h : i < 0) : GetDevice s i = none := by
  have : slot? MAX_DEVICES i = none := slot?_eq_none.2 (Or.inl h)
  simp [GetDevice, this]

theorem GetDevice_val (s : State σ) (k : Fin MAX_DEVICES) :
    GetDevice s (k.val : Int) = s.devoptab_list k := by
  simp [GetDevice, slot?_val]

theorem GetDevice_eq_some (s : State σ) (i : Int) (dev : devoptab_posix_t σ)
    (h : GetDevice s i = some dev) :
    ∃ k : Fin MAX_DEVICES, i = (k.val : Int) ∧ s.devoptab_list k = some dev := by
  unfold GetDevice at h
  cases hs : slot? MAX_DEVICES i with
  | none => simp [hs] at h
  | some k =>
    simp only [hs] at h
    exact ⟨k, slot?_eq_some hs, h⟩

theorem FindDevice_congr (s t : State σ) (h1 : t.devoptab_list = s.devoptab_list)
    (h2 : t.defaultDevice = s.defaultDevice) (path : Option CStr) :
    FindDevice t path = FindDevice s path := by
  unfold FindDevice FindDevice.hit
  rw [h1, h2]

theorem GetDevice_congr (s t : State σ) (h1 : t.devoptab_list = s.devoptab_list)
    (i : Int) : GetDevice t i = GetDevice s i := by
  unfold GetDevice
  rw [h1]

/-- A path that resolves to a registered device passes `path_get_device`
without any change of state. -/
theorem path_get_device_resolved (s : State σ) (path : Option CStr)
    (dev : devoptab_posix_t σ) (h : GetDevice s (FindDevice s path) = some dev) :
    path_get_device s path = (some (dev, FindDevice s path), s) := by
  have hnn : ¬ FindDevice s path < 0 := by
    intro hlt
    rw [GetDevice_neg s _ hlt] at h
    exact absurd h (by simp)
  cases path with
  | none => exact absurd (show FindDevice s none < 0 by simp [FindDevice]) hnn
  | some p => simp [path_get_device, hnn, h]

/-- A failing `path_get_device` changes `errno` only. -/
theorem path_get_device_none (s s1 : State σ) (path : Option CStr)
    (h : path_get_device s path = (none, s1)) :
    ∃ e : Int, s1 = { s with errno := e } := by
  unfold path_get_device at h
  cases path with
  | none =>
    simp only [Prod.mk.injEq, true_and] at h
    exact ⟨EINVAL, h.symm⟩
  | some p =>
    simp only at h
    split at h
    · simp only [Prod.mk.injEq, true_and] at h
      exact ⟨ENODEV, h.symm⟩
    · split at h
      · simp only [Prod.mk.injEq, true_and] at h
        exact ⟨ENODEV, h.symm⟩
      · simp at h

/-- A succeeding `path_get_device` changes nothing and yields the device that
`FindDevice` and `GetDevice` resolve the path to. -/
theorem path_get_device_some (s s1 : State σ) (path : Option CStr)
    (dev : devoptab_posix_t σ) (i : Int)
    (h : path_get_device s path = (some (dev, i), s1)) :
    s1 = s ∧ i = FindDevice s path ∧ GetDevice s (FindDevice s path) = some dev := by
  unfold path_get_device at h
  cases path with
  | none => simp at h
  | some p =>
    simp only at h
    split at h
    · simp at h
    · split at h
      · simp at h
      · rename_i d hd
        simp only [Prod.mk.injEq, Option.some.injEq] at h
        obtain ⟨⟨h1, h2⟩, h3⟩ := h
        subst h1 h2 h3
        exact ⟨rfl, rfl, hd⟩

/-- C5: when the two paths resolve to registered devices of different
indices, `link` and `rename` both return `-1`, set `errno` to `EXDEV` and
change nothing else; in particular no backend entry point is invoked (the
trace is unchanged), whatever the flags and entry points of the devices. -/
theorem link_rename_cross_device (s : State σ) (a b : Option CStr)
    (da db : devoptab_posix_t σ)
    (ha : GetDevice s (FindDevice s a) = some da)
    (hb : GetDevice s (FindDevice s b) = some db)
    (hne : FindDevice s a ≠ FindDevice s b) :
    link s a b = (-1, { s with errno := EXDEV }) ∧
    rename s a b = (-1, { s with errno := EXDEV }) ∧
    (link s a b).2.trace = s.trace ∧ (rename s a b).2.trace = s.trace := by
  have h1 : link s a b = (-1, { s with errno := EXDEV }) := by
    simp [link, path_get_device_resolved s a da ha, path_get_device_resolved s b db hb, hne]
  have h2 : rename s a b = (-1, { s with errno := EXDEV }) := by
    simp [rename, path_get_device_resolved s a da ha, path_get_device_resolved s b db hb, hne]
  exact ⟨h1, h2, by rw [h1], by rw [h2]⟩

/-- Witness of C5: `fat:/a` and `sd:/b` resolve to slots 3 and 4 of
`twoDrives`, both devices with link and rename entries. -/
theorem link_rename_cross_device_witness :
    (GetDevice twoDrives (FindDevice twoDrives (some "fat:/a".toList))
        = some (posixDev "fat") ∧
     GetDevice twoDrives (FindDevice twoDrives (some "sd:/b".toList))
        = some (posixDev "sd") ∧
     FindDevice twoDrives (some "fat:/a".toList)
        ≠ FindDevice twoDrives (some "sd:/b".toList)) ∧
    (link twoDrives (some "fat:/a".toList) (some "sd:/b".toList)
        = (-1, { twoDrives with errno := EXDEV }) ∧
     rename twoDrives (some "fat:/a".toList) (some "sd:/b".toList)
        = (-1, { twoDrives with errno := EXDEV }) ∧
     (link twoDrives (some "fat:/a".toList) (some "sd:/b".toList)).2.trace
        = twoDrives.trace ∧
     (rename twoDrives (some "fat:/a".toList) (some "sd:/b".toList)).2.trace
        = twoDrives.trace) :=
  ⟨⟨rfl, rfl, by decide⟩,
   link_rename_cross_device twoDrives (some "fat:/a".toList) (some "sd:/b".toList)
     (posixDev "fat") (posixDev "sd") rfl rfl (by decide)⟩

theorem as_posix_device_flag (s : State σ) (dev : devoptab_posix_t σ)
    (h : Nat.land dev.dot.flags DEVOPTAB_IS_POSIX ≠ 0) :
    as_posix_device s dev = (some dev, s) := by
  simp [as_posix_device, h]

theorem FindDevice_no_sep (s : State σ) (p : CStr) (h : ':' ∉ p) :
    FindDevice s (some p) = s.defaultDevice := by
  simp [FindDevice, (strchr_eq_none_iff p ':').2 h]

/-- The state after a `chdir` that reaches the backend and gets 0 from it. -/
theorem chdir_ok (s : State σ) (name : Option CStr) (dev : devoptab_posix_t σ)
    (chdir_r : Option CStr → World σ → Int × World σ)
    (hdev : GetDevice s (FindDevice s name) = some dev)
    (hflag : Nat.land dev.dot.flags DEVOPTAB_IS_POSIX ≠ 0)
    (hent : dev.chdir_r = some chdir_r)
    (hret : (chdir_r name s.world).1 = 0) :
    chdir s name = (0, { s with
      errno := (chdir_r name s.world).2.errno
      ext := (chdir_r name s.world).2.ext
      trace := s.trace ++ [{ device_idx := FindDevice s name
                             marker := s.callback_device_idx
                             what := Invoke.chdir_r name }]
      defaultDevice := FindDevice s name
      current_drive_is_nitrofs := chdir.is_nitro dev }) := by
  obtain ⟨k, hk, hl⟩ := GetDevice_eq_some s _ dev hdev
  simp only [chdir, path_get_device_resolved s name dev hdev,
    as_posix_device_flag s dev hflag, hent, State.invoke, hret, if_true]
  simp only [SetDefaultDevice, GetDevice, hk, slot?_val, hl]

end Dispatch

section Chdir
variable {σ : Type}

theorem as_posix_device_state (s s1 : State σ) (dev : devoptab_posix_t σ)
    (r : Option (devoptab_posix_t σ)) (h : as_posix_device s dev = (r, s1)) :
    (r = none ∧ s1 = { s with errno := ENOSYS }) ∨ (r = some dev ∧ s1 = s) := by
  unfold as_posix_device at h
  split at h
  · simp only [Prod.mk.injEq] at h
    exact Or.inl ⟨h.1.symm, h.2.symm⟩
  · simp only [Prod.mk.injEq] at h
    exact Or.inr ⟨h.1.symm, h.2.symm⟩

/-- A `chdir` whose result is not 0 leaves the default device as it was. -/
theorem chdir_fail_default (s : State σ) (name : Option CStr)
    (h : (chdir s name).1 ≠ 0) :
    (chdir s name).2.defaultDevice = s.defaultDevice := by
  unfold chdir at h ⊢
  rcases hp : path_get_device s name with ⟨_ | ⟨dev, i⟩, s1⟩
  · obtain ⟨e, rfl⟩ := path_get_device_none s s1 name hp
    rfl
  · obtain ⟨rfl, -, -⟩ := path_get_device_some s s1 name dev i hp
    simp only [hp] at h ⊢
    rcases ha : as_posix_device s1 dev with ⟨r, s2⟩
    rcases as_posix_device_state s1 s2 dev r ha with ⟨rfl, rfl⟩ | ⟨rfl, rfl⟩
    · rfl
    · simp only [ha] at h ⊢
      cases hc : dev.chdir_r with
      | none => rfl
      | some chdir_r =>
        simp only [hc, State.invoke] at h ⊢
        split
        · rename_i h0
          simp [h0] at h
        · rfl

end Chdir

section Open
variable {σ : Type}

/-- The two outcomes of `fd_alloc`: `ENFILE` when every descriptor above the
standard streams is in use, or else the lowest free one, marked in use. -/
theorem fd_alloc_cases (s : State σ) :
    (fd_alloc s = (none, { s with errno := ENFILE }) ∧
      ∀ i : Fin DEVOPTAB_MAX_FDS, 3 ≤ i.val → (s.fd_table i).used = true) ∨
    (∃ fd : Fin DEVOPTAB_MAX_FDS, 3 ≤ fd.val ∧ (s.fd_table fd).used = false ∧
      (∀ j : Fin DEVOPTAB_MAX_FDS, 3 ≤ j.val → (s.fd_table j).used = false → fd ≤ j) ∧
      fd_alloc s = (some fd, { s with
        fd_table := Function.update s.fd_table fd
          { s.fd_table fd with used := true } })) := by
  unfold fd_alloc
  cases hf : Fin.find (fun fd : Fin DEVOPTAB_MAX_FDS =>
      STDERR_FILENO + 1 ≤ fd.val ∧ (s.fd_table fd).used = false) with
  | none =>
    left
    rw [Fin.find_eq_none_iff] at hf
    refine ⟨rfl, fun i hi => ?_⟩
    have := hf i
    simp only [not_and, Bool.not_eq_false] at this
    exact this hi
  | some fd =>
    right
    rw [Fin.find_eq_some_iff] at hf
    exact ⟨fd, hf.1.1, hf.1.2, fun j h1 h2 => hf.2 j ⟨h1, h2⟩, rfl⟩

theorem fd_release_val (s : State σ) (fd : Fin DEVOPTAB_MAX_FDS) :
    fd_release s (fd.val : Int) = { s with
      fd_table := Function.update s.fd_table fd
        { s.fd_table fd with used := false } } := by
  simp [fd_release, slot?_val]

/-- Taking a free entry and releasing it again restores the table. -/
theorem update_used_roundtrip (t : Fin DEVOPTAB_MAX_FDS → devoptab_fd_entry_t)
    (fd : Fin DEVOPTAB_MAX_FDS) (h : (t fd).used = false) :
    Function.update (Function.update t fd { t fd with used := true }) fd
      { (Function.update t fd { t fd with used := true }) fd with used := false } = t := by
  funext j
  by_cases hj : j = fd
  · subst hj
    simp only [Function.update_same]
    cases hj2 : t j with
    | mk u a b =>
      rw [hj2] at h
      simp only at h
      subst h
      rfl
  · simp [Function.update_noteq hj]

/-- The result of `open` on a path that resolves to a registered device with an
open entry: `ENFILE` when no descriptor above 2 is free; otherwise the backend
is called once on the unchanged state with the lowest free descriptor taken,
and the descriptor is bound on a non-negative handle and released on a
negative one. -/
theorem sys_open_resolved (s : State σ) (path : Option CStr) (flags : Int)
    (dev : devoptab_posix_t σ)
    (open_r : Option CStr → Int → World σ → Int × World σ)
    (hdev : GetDevice s (FindDevice s path) = some dev)
    (hent : dev.dot.open_r = some open_r) :
    (sys_open s path flags = (-1, { s with errno := ENFILE }) ∧
      ∀ i : Fin DEVOPTAB_MAX_FDS, 3 ≤ i.val → (s.fd_table i).used = true) ∨
    (∃ fd : Fin DEVOPTAB_MAX_FDS, 3 ≤ fd.val ∧ (s.fd_table fd).used = false ∧
      (∀ j : Fin DEVOPTAB_MAX_FDS, 3 ≤ j.val → (s.fd_table j).used = false → fd ≤ j) ∧
      sys_open s path flags =
        if (open_r path flags s.world).1 < 0 then
          (-1, { s with
            errno := (open_r path flags s.world).2.errno
            ext := (open_r path flags s.world).2.ext
            trace := s.trace ++ [{ device_idx := FindDevice s path
                                   marker := s.callback_device_idx
                                   what := Invoke.open_r path flags }] })
        else
          ((fd.val : Int), { s with
            errno := (open_r path flags s.world).2.errno
            ext := (open_r path flags s.world).2.ext
            trace := s.trace ++ [{ device_idx := FindDevice s path
                                   marker := s.callback_device_idx
                                   what := Invoke.open_r path flags }]
            fd_table := Function.update s.fd_table fd
              { used := true
                device_idx := FindDevice s path
                device_fd := (open_r path flags s.world).1 } })) := by
  rcases fd_alloc_cases s with ⟨ha, hall⟩ | ⟨fd, h3, hfree, hmin, ha⟩
  · left
    refine ⟨?_, hall⟩
    simp [sys_open, path_get_device_resolved s path dev hdev, hent, ha]
  · right
    refine ⟨fd, h3, hfree, hmin, ?_⟩
    simp only [sys_open, path_get_device_resolved s path dev hdev, hent, ha,
      State.invoke, State.world, fd_release_val]
    split
    · congr 1
      simp only [update_used_roundtrip s.fd_table fd hfree]
    · simp

end Open

section OpenResult
variable {σ : Type}

/-- The descriptor table after a call of `open`: unchanged, or changed at one
entry that was free. -/
theorem sys_open_table (s : State σ) (path : Option CStr) (flags : Int) :
    ((sys_open s path flags).1 = -1 ∧ (sys_open s path flags).2.fd_table = s.fd_table) ∨
    (∃ fd : Fin DEVOPTAB_MAX_FDS, 3 ≤ fd.val ∧ (s.fd_table fd).used = false ∧
      (∀ j : Fin DEVOPTAB_MAX_FDS, 3 ≤ j.val → (s.fd_table j).used = false → fd ≤ j) ∧
      (sys_open s path flags).1 = (fd.val : Int) ∧
      ((sys_open s path flags).2.fd_table fd).used = true ∧
      ∀ j : Fin DEVOPTAB_MAX_FDS, j ≠ fd →
        (sys_open s path flags).2.fd_table j = s.fd_table j) := by
  rcases hp : path_get_device s path with ⟨_ | ⟨dev, i⟩, s1⟩
  · obtain ⟨e, rfl⟩ := path_get_device_none s s1 path hp
    left
    simp [sys_open, hp]
  · obtain ⟨rfl, rfl, hdev⟩ := path_get_device_some s s1 path dev i hp
    cases hent : dev.dot.open_r with
    | none =>
      left
      simp [sys_open, hp, hent]
    | some open_r =>
      rcases sys_open_resolved s1 path flags dev open_r hdev hent with
        ⟨h, _⟩ | ⟨fd, h3, hfree, hmin, h⟩
      · left
        rw [h]
        exact ⟨rfl, rfl⟩
      · by_cases hneg : (open_r path flags s1.world).1 < 0
        · left
          rw [h, if_pos hneg]
          exact ⟨rfl, rfl⟩
        · right
          rw [h, if_neg hneg]
          refine ⟨fd, h3, hfree, hmin, rfl, by simp, fun j hj => ?_⟩
          simp [Function.update_noteq hj]

/-- C9: whenever `open` returns `-1` (null path, no device resolved, device
without an open entry, descriptor table exhausted, or a negative handle from
the backend, after which the allocated entry is released again), the
descriptor table after the call equals the table before it. -/
theorem sys_open_failure_keeps_table (s : State σ) (path : Option CStr)
    (flags : Int) (h : (sys_open s path flags).1 = -1) :
    (sys_open s path flags).2.fd_table = s.fd_table := by
  rcases sys_open_table s path flags with ⟨_, ht⟩ | ⟨fd, h3, _, _, hr, _⟩
  · exact ht
  · rw [hr] at h
    omega

/-- Witness of C9: the open entry of `failDev` returns `-1`, so `open` does. -/
theorem sys_open_failure_keeps_table_witness :
    (sys_open failState (some "ro:/f".toList) 0).1 = -1 ∧
    (sys_open failState (some "ro:/f".toList) 0).2.fd_table = failState.fd_table :=
  ⟨by decide,
   sys_open_failure_keeps_table failState (some "ro:/f".toList) 0 (by decide)⟩

/-- C10: when the path resolves to a registered device with an open entry, some
descriptor from 3 on is free and the backend returns a handle `h >= 0`,
`open` returns the lowest free descriptor `fd >= 3`; the open entry is invoked
exactly once, with the path and the flags as given (one record is added to the
trace); entry `fd` becomes in use and bound to the device index found by
`FindDevice` and to `h`; every other entry of the table is unchanged. -/
theorem sys_open_success (s : State σ) (path : Option CStr) (flags : Int)
    (dev : devoptab_posix_t σ)
    (open_r : Option CStr → Int → World σ → Int × World σ)
    (hdev : GetDevice s (FindDevice s path) = some dev)
    (hent : dev.dot.open_r = some open_r)
    (hfree : ∃ i : Fin DEVOPTAB_MAX_FDS, 3 ≤ i.val ∧ (s.fd_table i).used = false)
    (hh : 0 ≤ (open_r path flags s.world).1) :
    ∃ fd : Fin DEVOPTAB_MAX_FDS,
      3 ≤ fd.val ∧ (s.fd_table fd).used = false ∧
      (∀ j : Fin DEVOPTAB_MAX_FDS, 3 ≤ j.val → (s.fd_table j).used = false → fd ≤ j) ∧
      (sys_open s path flags).1 = (fd.val : Int) ∧
      (sys_open s path flags).2.trace =
        s.trace ++ [{ device_idx := FindDevice s path
                      marker := s.callback_device_idx
                      what := Invoke.open_r path flags }] ∧
      (sys_open s path flags).2.fd_table fd =
        { used := true
          device_idx := FindDevice s path
          device_fd := (open_r path flags s.world).1 } ∧
      ∀ j : Fin DEVOPTAB_MAX_FDS, j ≠ fd →
        (sys_open s path flags).2.fd_table j = s.fd_table j := by
  rcases sys_open_resolved s path flags dev open_r hdev hent with
    ⟨_, hall⟩ | ⟨fd, h3, hf, hmin, h⟩
  · obtain ⟨i, hi, hu⟩ := hfree
    rw [hall i hi] at hu
    exact absurd hu (by simp)
  · have hneg : ¬ (open_r path flags s.world).1 < 0 := by omega
    rw [if_neg hneg] at h
    refine ⟨fd, h3, hf, hmin, by rw [h], by rw [h], by rw [h]; simp, fun j hj => ?_⟩
    rw [h]
    simp [Function.update_noteq hj]

/-- Witness of C10: in `twoDrives` the path `sd:/f` resolves to slot 4, whose
open entry returns handle 7; descriptor 3 is free. -/
theorem sys_open_success_witness :
    (GetDevice twoDrives (FindDevice twoDrives (some "sd:/f".toList))
        = some (posixDev "sd") ∧
     (posixDev "sd").dot.open_r = some (fun _ _ w => (7, w)) ∧
     (∃ i : Fin DEVOPTAB_MAX_FDS, 3 ≤ i.val ∧ (twoDrives.fd_table i).used = false) ∧
     (0 : Int) ≤ 7) ∧
    ∃ fd : Fin DEVOPTAB_MAX_FDS,
      3 ≤ fd.val ∧ (twoDrives.fd_table fd).used = false ∧
      (∀ j : Fin DEVOPTAB_MAX_FDS, 3 ≤ j.val →
        (twoDrives.fd_table j).used = false → fd ≤ j) ∧
      (sys_open twoDrives (some "sd:/f".toList) 1).1 = (fd.val : Int) ∧
      (sys_open twoDrives (some "sd:/f".toList) 1).2.trace =
        twoDrives.trace ++ [{ device_idx := FindDevice twoDrives (some "sd:/f".toList)
                              marker := twoDrives.callback_device_idx
                              what := Invoke.open_r (some "sd:/f".toList) 1 }] ∧
      (sys_open twoDrives (some "sd:/f".toList) 1).2.fd_table fd =
        { used := true
          device_idx := FindDevice twoDrives (some "sd:/f".toList)
          device_fd := 7 } ∧
      ∀ j : Fin DEVOPTAB_MAX_FDS, j ≠ fd →
        (sys_open twoDrives (some "sd:/f".toList) 1).2.fd_table j
          = twoDrives.fd_table j :=
  ⟨⟨rfl, rfl, ⟨3, by decide, by decide⟩, by decide⟩,
   sys_open_success twoDrives (some "sd:/f".toList) 1 (posixDev "sd")
     (fun _ _ w => (7, w)) rfl rfl ⟨3, by decide, by decide⟩ (by decide)⟩

end OpenResult

section OpenRun
variable {σ : Type}

/-- No call of `open` changes the registry or the default device. -/
theorem sys_open_registry (s : State σ) (path : Option CStr) (flags : Int) :
    (sys_open s path flags).2.devoptab_list = s.devoptab_list ∧
    (sys_open s path flags).2.defaultDevice = s.defaultDevice := by
  rcases hp : path_get_device s path with ⟨_ | ⟨dev, i⟩, s1⟩
  · obtain ⟨e, rfl⟩ := path_get_device_none s s1 path hp
    simp [sys_open, hp]
  · obtain ⟨rfl, rfl, hdev⟩ := path_get_device_some s s1 path dev i hp
    cases hent : dev.dot.open_r with
    | none => simp [sys_open, hp, hent]
    | some open_r =>
      rcases sys_open_resolved s1 path flags dev open_r hdev hent with
        ⟨h, _⟩ | ⟨fd, _, _, _, h⟩
      · rw [h]
        exact ⟨rfl, rfl⟩
      · rw [h]
        split <;> exact ⟨rfl, rfl⟩

theorem OpensOk_congr (s t : State σ) (h1 : t.devoptab_list = s.devoptab_list)
    (h2 : t.defaultDevice = s.defaultDevice) (path : Option CStr)
    (h : OpensOk s path) : OpensOk t path := by
  obtain ⟨dev, open_r, hd, he, hall⟩ := h
  refine ⟨dev, open_r, ?_, he, hall⟩
  rw [FindDevice_congr s t h1 h2, GetDevice_congr s t h1]
  exact hd

/-- With every descriptor from 3 on in use, `open` on a path that resolves to a
device with an open entry returns `-1` and changes `errno`, to `ENFILE`,
and nothing else. -/
theorem sys_open_full (s : State σ) (path : Option CStr) (flags : Int)
    (dev : devoptab_posix_t σ)
    (open_r : Option CStr → Int → World σ → Int × World σ)
    (hall : ∀ i : Fin DEVOPTAB_MAX_FDS, 3 ≤ i.val → (s.fd_table i).used = true)
    (hdev : GetDevice s (FindDevice s path) = some dev)
    (hent : dev.dot.open_r = some open_r) :
    sys_open s path flags = (-1, { s with errno := ENFILE }) := by
  rcases sys_open_resolved s path flags dev open_r hdev hent with
    ⟨h, _⟩ | ⟨fd, h3, hf, _, _⟩
  · exact h
  · rw [hall fd h3] at hf
    exact absurd hf (by simp)

/-- With exactly the descriptors below `m` in use, a succeeding `open` returns
`m` and leaves exactly the descriptors below `m + 1` in use. -/
theorem sys_open_step (s : State σ) (m : Nat) (hm3 : 3 ≤ m)
    (hm : m < DEVOPTAB_MAX_FDS)
    (hinv : ∀ i : Fin DEVOPTAB_MAX_FDS, (s.fd_table i).used = true ↔ i.val < m)
    (path : Option CStr) (flags : Int) (hok : OpensOk s path) :
    (sys_open s path flags).1 = (m : Int) ∧
    (∀ i : Fin DEVOPTAB_MAX_FDS,
      ((sys_open s path flags).2.fd_table i).used = true ↔ i.val < m + 1) := by
  obtain ⟨dev, open_r, hdev, hent, hsucc⟩ := hok
  have hmfree : (s.fd_table ⟨m, hm⟩).used = false := by
    have := (hinv ⟨m, hm⟩).not
    simpa using this
  rcases sys_open_resolved s path flags dev open_r hdev hent with
    ⟨_, hall⟩ | ⟨fd, h3, hf, hmin, h⟩
  · rw [hall ⟨m, hm⟩ hm3] at hmfree
    exact absurd hmfree (by simp)
  · have hge : m ≤ fd.val := by
      by_contra hlt
      have := (hinv fd).2 (by omega)
      rw [this] at hf
      exact absurd hf (by simp)
    have hle : fd ≤ ⟨m, hm⟩ := hmin ⟨m, hm⟩ hm3 hmfree
    have hfd : fd = ⟨m, hm⟩ := Fin.ext (le_antisymm hle hge)
    have hneg : ¬ (open_r path flags s.world).1 < 0 := by
      have := hsucc path flags s.world
      omega
    rw [h, if_neg hneg, hfd]
    refine ⟨rfl, fun i => ?_⟩
    by_cases hi : i = ⟨m, hm⟩
    · subst hi
      simp
    · have hne : i.val ≠ m := fun e => hi (Fin.ext e)
      simp only [Function.update_noteq hi, hinv i]
      omega

/-- A run of succeeding `open` calls from a table with exactly the
descriptors below `m` in use returns `m`, `m + 1`, ... in order. -/
theorem openAll_run (reqs : List (Option CStr × Int)) (s : State σ) (m : Nat)
    (hm3 : 3 ≤ m) (hcap : m + reqs.length ≤ DEVOPTAB_MAX_FDS)
    (hinv : ∀ i : Fin DEVOPTAB_MAX_FDS, (s.fd_table i).used = true ↔ i.val < m)
    (hok : ∀ r ∈ reqs, OpensOk s r.1) :
    (openAll s reqs).1 = (List.range reqs.length).map (fun k : Nat => (k : Int) + (m : Int)) ∧
    (∀ i : Fin DEVOPTAB_MAX_FDS,
      ((openAll s reqs).2.fd_table i).used = true ↔ i.val < m + reqs.length) ∧
    (openAll s reqs).2.devoptab_list = s.devoptab_list ∧
    (openAll s reqs).2.defaultDevice = s.defaultDevice := by
  induction reqs generalizing s m with
  | nil => exact ⟨rfl, by simpa using hinv, rfl, rfl⟩
  | cons r rest ih =>
    obtain ⟨path, flags⟩ := r
    simp only [List.length_cons] at hcap
    have hstep := sys_open_step s m hm3 (by omega) hinv path flags
      (hok (path, flags) (List.mem_cons_self _ _))
    have hreg := sys_open_registry s path flags
    have hrec := ih (sys_open s path flags).2 (m + 1) (by omega) (by omega) hstep.2
      (fun r hr => OpensOk_congr s _ hreg.1 hreg.2 r.1
        (hok r (List.mem_cons_of_mem _ hr)))
    simp only [openAll, List.length_cons]
    refine ⟨?_, ?_, ?_, ?_⟩
    · rw [hrec.1, hstep.1, List.range_succ_eq_map]
      simp only [List.map_cons, List.map_map, Nat.cast_zero, zero_add, List.cons.injEq,
        true_and]
      apply List.map_congr_left
      intro k _
      show (k : Int) + ((m + 1 : Nat) : Int) = ((k + 1 : Nat) : Int) + (m : Int)
      omega
    · intro i
      rw [hrec.2.1 i]
      omega
    · rw [hrec.2.2.1, hreg.1]
    · rw [hrec.2.2.2, hreg.2]

/-- C7: from the initial descriptor table, 125 consecutive `open` calls on
paths resolving to devices whose open entry always succeeds return the
descriptors 3, 4, ..., 127 in this order, and the 126th call returns `-1` with
`errno` set to `ENFILE` and nothing else changed: the trace is the same, so
the open entry of the backend is not invoked. -/
theorem open_until_full (s : State σ) (reqs : List (Option CStr × Int))
    (path : Option CStr) (flags : Int)
    (htab : s.fd_table = (State.initial s.ext).fd_table)
    (hlen : reqs.length = 125)
    (hok : ∀ r ∈ reqs, OpensOk s r.1) (hlast : OpensOk s path) :
    (openAll s reqs).1 = (List.range 125).map (fun k : Nat => (k : Int) + 3) ∧
    sys_open (openAll s reqs).2 path flags
      = (-1, { (openAll s reqs).2 with errno := ENFILE }) ∧
    (sys_open (openAll s reqs).2 path flags).2.trace = (openAll s reqs).2.trace := by
  have hinv : ∀ i : Fin DEVOPTAB_MAX_FDS, (s.fd_table i).used = true ↔ i.val < 3 := by
    intro i
    rw [htab]
    by_cases hi : i.val < 3 <;> simp [State.initial, hi]
  have hrun := openAll_run reqs s 3 (le_refl 3) (by rw [hlen]) hinv hok
  obtain ⟨dev, open_r, hdev, hent, _⟩ :=
    OpensOk_congr s (openAll s reqs).2 hrun.2.2.1 hrun.2.2.2 path hlast
  have hfull := sys_open_full (openAll s reqs).2 path flags dev open_r
    (fun i _ => (hrun.2.1 i).2 (by rw [hlen]; have hlt : i.val < 128 := i.isLt; omega))
    hdev hent
  refine ⟨?_, hfull, by rw [hfull]⟩
  rw [hrun.1, hlen]
  rfl

/-- Witness of C7: 125 opens of `fat:/f` in `twoDrives`, then one of `sd:/g`. -/
theorem open_until_full_witness :
    (twoDrives.fd_table = (State.initial twoDrives.ext).fd_table ∧
     (List.replicate 125 (some "fat:/f".toList, (0 : Int))).length = 125 ∧
     (∀ r ∈ List.replicate 125 (some "fat:/f".toList, (0 : Int)),
        OpensOk twoDrives r.1) ∧
     OpensOk twoDrives (some "sd:/g".toList)) ∧
    ((openAll twoDrives (List.replicate 125 (some "fat:/f".toList, 0))).1
        = (List.range 125).map (fun k : Nat => (k : Int) + 3) ∧
     sys_open (openAll twoDrives (List.replicate 125 (some "fat:/f".toList, 0))).2
        (some "sd:/g".toList) 0
      = (-1, { (openAll twoDrives
                (List.replicate 125 (some "fat:/f".toList, 0))).2 with
               errno := ENFILE }) ∧
     (sys_open (openAll twoDrives (List.replicate 125 (some "fat:/f".toList, 0))).2
        (some "sd:/g".toList) 0).2.trace
      = (openAll twoDrives (List.replicate 125 (some "fat:/f".toList, 0))).2.trace) :=
  have hfat : OpensOk twoDrives (some "fat:/f".toList) :=
    ⟨posixDev "fat", fun _ _ w => (7, w), rfl, rfl, fun _ _ _ => by show (0 : Int) ≤ 7; decide⟩
  have hsd : OpensOk twoDrives (some "sd:/g".toList) :=
    ⟨posixDev "sd", fun _ _ w => (7, w), rfl, rfl, fun _ _ _ => by show (0 : Int) ≤ 7; decide⟩
  have hall : ∀ r ∈ List.replicate 125 (some "fat:/f".toList, (0 : Int)),
      OpensOk twoDrives r.1 := fun r hr => by
    rw [List.eq_of_mem_replicate hr]
    exact hfat
  ⟨⟨rfl, List.length_replicate _ _, hall, hsd⟩,
   open_until_full twoDrives (List.replicate 125 (some "fat:/f".toList, 0))
     (some "sd:/g".toList) 0 rfl (List.length_replicate _ _) hall hsd⟩

end OpenRun

section Close
variable {σ : Type}


/-- The effect of `close` on an in-use descriptor whose device is registered:
entry `fd` is marked free, and neither another entry nor the registry nor the
default device changes. -/
theorem close_resolved (s : State σ) (fd : Fin DEVOPTAB_MAX_FDS)
    (dev : devoptab_posix_t σ)
    (hused : (s.fd_table fd).used = true)
    (hdev : GetDevice s (s.fd_table fd).device_idx = some dev) :
    (close s (fd.val : Int)).2.fd_table
      = Function.update s.fd_table fd { s.fd_table fd with used := false } ∧
    (close s (fd.val : Int)).2.devoptab_list = s.devoptab_list ∧
    (close s (fd.val : Int)).2.defaultDevice = s.defaultDevice := by
  have h1 : fd_get_const s (fd.val : Int) = (some fd, s) := by
    simp [fd_get_const, slot?_val, hused]
  have h2 : fd_get_device s fd = (some dev, s) := by
    simp [fd_get_device, hdev]
  cases hc : dev.dot.close_r with
  | none => simp [close, h1, h2, hc, fd_release_val]
  | some close_r => simp [close, h1, h2, hc, State.invoke, fd_release_val]

/-- C8: in a descriptor table with all of 3..127 in use, `close` of a
descriptor `fd` in 3..127 whose device is still registered marks exactly
entry `fd` free and leaves every other entry unchanged; an `open` that
succeeds next returns that same `fd`; and one further `open` returns `-1`,
with `errno` set to `ENFILE` when its path resolves to a device with an open
entry. -/
theorem close_frees_one (s : State σ) (fd : Fin DEVOPTAB_MAX_FDS)
    (dev : devoptab_posix_t σ)
    (hall : ∀ i : Fin DEVOPTAB_MAX_FDS, 3 ≤ i.val → (s.fd_table i).used = true)
    (hfd : 3 ≤ fd.val)
    (hdev : GetDevice s (s.fd_table fd).device_idx = some dev) :
    ((close s (fd.val : Int)).2.fd_table fd).used = false ∧
    (∀ j : Fin DEVOPTAB_MAX_FDS, j ≠ fd →
      (close s (fd.val : Int)).2.fd_table j = s.fd_table j) ∧
    (∀ (path : Option CStr) (flags : Int),
      (sys_open (close s (fd.val : Int)).2 path flags).1 ≠ -1 →
      (sys_open (close s (fd.val : Int)).2 path flags).1 = (fd.val : Int) ∧
      ∀ (path2 : Option CStr) (flags2 : Int),
        (sys_open (sys_open (close s (fd.val : Int)).2 path flags).2 path2 flags2).1 = -1 ∧
        ∀ (dev2 : devoptab_posix_t σ)
          (open2 : Option CStr → Int → World σ → Int × World σ),
          GetDevice (sys_open (close s (fd.val : Int)).2 path flags).2
            (FindDevice (sys_open (close s (fd.val : Int)).2 path flags).2 path2)
            = some dev2 →
          dev2.dot.open_r = some open2 →
          (sys_open (sys_open (close s (fd.val : Int)).2 path flags).2
            path2 flags2).2.errno = ENFILE) := by
  obtain ⟨htab, -, -⟩ := close_resolved s fd dev (hall fd hfd) hdev
  have hother : ∀ j : Fin DEVOPTAB_MAX_FDS, j ≠ fd →
      (close s (fd.val : Int)).2.fd_table j = s.fd_table j := by
    intro j hj
    rw [htab, Function.update_noteq hj]
  refine ⟨by rw [htab]; simp, hother, ?_⟩
  intro path flags hsucc
  rcases sys_open_table (close s (fd.val : Int)).2 path flags with
    ⟨hm, _⟩ | ⟨g, hg3, hgfree, _, hres, hgused, hrest⟩
  · exact absurd hm hsucc
  · have hgfd : g = fd := by
      by_contra hne
      rw [hother g hne, hall g hg3] at hgfree
      exact absurd hgfree (by simp)
    subst hgfd
    refine ⟨hres, ?_⟩
    have hfull : ∀ i : Fin DEVOPTAB_MAX_FDS, 3 ≤ i.val →
        ((sys_open (close s (g.val : Int)).2 path flags).2.fd_table i).used = true := by
      intro i hi
      by_cases hig : i = g
      · rw [hig]
        exact hgused
      · rw [hrest i hig, hother i hig]
        exact hall i hi
    intro path2 flags2
    refine ⟨?_, fun dev2 open2 hd2 he2 => ?_⟩
    · rcases sys_open_table (sys_open (close s (g.val : Int)).2 path flags).2
          path2 flags2 with ⟨hm, _⟩ | ⟨k, hk3, hkfree, _, _, _, _⟩
      · exact hm
      · rw [hfull k hk3] at hkfree
        exact absurd hkfree (by simp)
    · rw [sys_open_full _ path2 flags2 dev2 open2 hfull hd2 he2]

set_option maxRecDepth 4000 in
/-- Witness of C8: descriptor 5 of `fullTable` is bound to the registered
device `sd`; after closing it, `open` of `fat:/f` returns 5 and one more
`open` fails with `ENFILE`. -/
theorem close_frees_one_witness :
    ((∀ i : Fin DEVOPTAB_MAX_FDS, 3 ≤ i.val → (fullTable.fd_table i).used = true) ∧
     3 ≤ (5 : Fin DEVOPTAB_MAX_FDS).val ∧
     GetDevice fullTable (fullTable.fd_table 5).device_idx = some (posixDev "sd")) ∧
    (((close fullTable 5).2.fd_table 5).used = false ∧
     (sys_open (close fullTable 5).2 (some "fat:/f".toList) 0).1 = 5 ∧
     (sys_open (sys_open (close fullTable 5).2 (some "fat:/f".toList) 0).2
        (some "sd:/g".toList) 0).1 = -1 ∧
     (sys_open (sys_open (close fullTable 5).2 (some "fat:/f".toList) 0).2
        (some "sd:/g".toList) 0).2.errno = ENFILE) :=
  have hall : ∀ i : Fin DEVOPTAB_MAX_FDS, 3 ≤ i.val →
      (fullTable.fd_table i).used = true := fun i _ => by
    by_cases hi : i.val < 3 <;> simp [fullTable, hi]
  have h := close_frees_one fullTable 5 (posixDev "sd") hall (by decide) rfl
  have h2 := h.2.2 (some "fat:/f".toList) 0 (by decide)
  ⟨⟨hall, by decide, rfl⟩, h.1, h2.1, (h2.2 (some "sd:/g".toList) 0).1,
    (h2.2 (some "sd:/g".toList) 0).2 (posixDev "sd") (fun _ _ w => (7, w)) rfl rfl⟩

end Close

section CloseContract
variable {σ : Type}

theorem BadFd_or_inUse (s : State σ) (fd : Int) :
    BadFd s fd ∨ ∃ i : Fin DEVOPTAB_MAX_FDS, fd = (i.val : Int) ∧ (s.fd_table i).used = true := by
  cases hs : slot? DEVOPTAB_MAX_FDS fd with
  | none =>
    rcases slot?_eq_none.1 hs with h | h
    · exact Or.inl (Or.inl h)
    · exact Or.inl (Or.inr (Or.inl h))
  | some i =>
    have hfd := slot?_eq_some hs
    cases hu : (s.fd_table i).used with
    | false => exact Or.inl (Or.inr (Or.inr ⟨i, hfd, hu⟩))
    | true => exact Or.inr ⟨i, hfd, hu⟩

theorem fd_get_const_bad (s : State σ) (fd : Int) (h : BadFd s fd) :
    fd_get_const s fd = (none, { s with errno := EBADF }) := by
  unfold fd_get_const
  rcases h with h | h | ⟨i, rfl, hu⟩
  · simp [slot?_eq_none.2 (Or.inl h)]
  · simp [slot?_eq_none.2 (Or.inr h)]
  · simp [slot?_val, hu]

theorem fd_get_const_val (s : State σ) (i : Fin DEVOPTAB_MAX_FDS)
    (h : (s.fd_table i).used = true) :
    fd_get_const s (i.val : Int) = (some i, s) := by
  simp [fd_get_const, slot?_val, h]

theorem fd_get_device_none (s : State σ) (i : Fin DEVOPTAB_MAX_FDS)
    (h : GetDevice s (s.fd_table i).device_idx = none) :
    fd_get_device s i = (none, { s with errno := ENODEV }) := by
  simp [fd_get_device, h]

theorem fd_get_device_some (s : State σ) (i : Fin DEVOPTAB_MAX_FDS)
    (dev : devoptab_posix_t σ)
    (h : GetDevice s (s.fd_table i).device_idx = some dev) :
    fd_get_device s i = (some dev, s) := by
  simp [fd_get_device, h]

/-- On an in-use descriptor whose registry slot is empty `close` returns `-1`
with `ENODEV` before it reaches `fd_release`: the state changes in `errno`
only. -/
theorem close_vacated (s : State σ) (i : Fin DEVOPTAB_MAX_FDS)
    (hused : (s.fd_table i).used = true)
    (hdev : GetDevice s (s.fd_table i).device_idx = none) :
    close s (i.val : Int) = (-1, { s with errno := ENODEV }) := by
  simp [close, fd_get_const_val s i hused, fd_get_device_none s i hdev]

/-- C11: for an in-use descriptor whose device is registered, `close` returns 0
without any backend call when the device has no close entry; otherwise it
calls the close entry once, with the device-local handle, and returns its
result as it is; in both cases entry `fd` is free afterwards, whatever the
backend returned.  For a descriptor out of 0..127 or not in use, `close`
returns `-1`, sets `errno` to `EBADF` and changes nothing else. -/
theorem close_contract (s : State σ) :
    (∀ (fd : Fin DEVOPTAB_MAX_FDS) (dev : devoptab_posix_t σ),
      (s.fd_table fd).used = true →
      GetDevice s (s.fd_table fd).device_idx = some dev →
      (dev.dot.close_r = none →
        close s (fd.val : Int) = (0, { s with
          fd_table := Function.update s.fd_table fd
            { s.fd_table fd with used := false } })) ∧
      (∀ close_r : Int → World σ → Int × World σ, dev.dot.close_r = some close_r →
        close s (fd.val : Int) =
          ((close_r (s.fd_table fd).device_fd s.world).1, { s with
            callback_device_idx := -1
            errno := (close_r (s.fd_table fd).device_fd s.world).2.errno
            ext := (close_r (s.fd_table fd).device_fd s.world).2.ext
            trace := s.trace ++ [{ device_idx := (s.fd_table fd).device_idx
                                   marker := (s.fd_table fd).device_idx
                                   what := Invoke.close_r (s.fd_table fd).device_fd }]
            fd_table := Function.update s.fd_table fd
              { s.fd_table fd with used := false } })) ∧
      ((close s (fd.val : Int)).2.fd_table fd).used = false) ∧
    (∀ fd : Int, BadFd s fd → close s fd = (-1, { s with errno := EBADF })) := by
  refine ⟨fun fd dev hused hdev => ?_, fun fd hbad => ?_⟩
  · have h1 := fd_get_const_val s fd hused
    have h2 := fd_get_device_some s fd dev hdev
    refine ⟨fun hc => ?_, fun close_r hc => ?_, ?_⟩
    · simp [close, h1, h2, hc, fd_release_val]
    · simp [close, h1, h2, hc, State.invoke, State.world, fd_release_val]
    · rw [(close_resolved s fd dev hused hdev).1]
      simp
  · simp [close, fd_get_const_bad s fd hbad]

/-- Witness of C11: descriptor 5 of `fullTable` is in use and bound to the
registered device `sd`, which has a close entry; descriptor 200 is out of
range. -/
theorem close_contract_witness :
    ((fullTable.fd_table 5).used = true ∧
     GetDevice fullTable (fullTable.fd_table 5).device_idx = some (posixDev "sd") ∧
     (posixDev "sd").dot.close_r = some (fun _ w => (0, w)) ∧
     BadFd fullTable 200) ∧
    ((close fullTable 5).1 = 0 ∧
     (close fullTable 5).2.trace =
        fullTable.trace ++ [{ device_idx := 4, marker := 4, what := Invoke.close_r 7 }] ∧
     ((close fullTable 5).2.fd_table 5).used = false ∧
     close fullTable 200 = (-1, { fullTable with errno := EBADF })) :=
  have h := (close_contract fullTable).1 5 (posixDev "sd") rfl rfl
  have hbad : BadFd fullTable 200 := Or.inr (Or.inl (by decide))
  ⟨⟨rfl, rfl, rfl, hbad⟩,
   congrArg Prod.fst (h.2.1 (fun _ w => (0, w)) rfl),
   congrArg (fun r => r.2.trace) (h.2.1 (fun _ w => (0, w)) rfl),
   h.2.2,
   (close_contract fullTable).2 200 hbad⟩

/-- C12, the code at a failing input: descriptor 3 of `vacatedState` is in use
and its registry slot is empty; `close` returns `-1` with `ENODEV` and entry 3
is still in use afterwards. -/
theorem close_vacated_keeps_entry :
    (vacatedState.fd_table 3).used = true ∧
    GetDevice vacatedState (vacatedState.fd_table 3).device_idx = none ∧
    (close vacatedState 3).1 = -1 ∧
    (close vacatedState 3).2.errno = ENODEV ∧
    ((close vacatedState 3).2.fd_table 3).used = true := by
  have hu : (vacatedState.fd_table 3).used = true := by decide
  have hd : GetDevice vacatedState (vacatedState.fd_table 3).device_idx = none := by rfl
  have h := close_vacated vacatedState 3 hu hd
  have h3 : ((3 : Fin DEVOPTAB_MAX_FDS).val : Int) = 3 := rfl
  rw [h3] at h
  refine ⟨hu, hd, ?_, ?_, ?_⟩
  · rw [h]
  · rw [h]
  · rw [h]
    exact hu

end CloseContract

section FdForward
variable {σ : Type}

theorem fd_forward_bad (s : State σ) (fd : Int)
    (entry_r : devoptab_posix_t σ → Option (Int → World σ → Int × World σ))
    (what : Int → Invoke) (h : BadFd s fd) :
    fd_forward s fd entry_r what = (-1, { s with errno := EBADF }) := by
  simp [fd_forward, fd_get_const_bad s fd h]

theorem fd_forward_nodev (s : State σ) (i : Fin DEVOPTAB_MAX_FDS)
    (entry_r : devoptab_posix_t σ → Option (Int → World σ → Int × World σ))
    (what : Int → Invoke) (hused : (s.fd_table i).used = true)
    (hdev : GetDevice s (s.fd_table i).device_idx = none) :
    fd_forward s (i.val : Int) entry_r what = (-1, { s with errno := ENODEV }) := by
  simp [fd_forward, fd_get_const_val s i hused, fd_get_device_none s i hdev]

theorem fd_forward_nosys (s : State σ) (i : Fin DEVOPTAB_MAX_FDS)
    (entry_r : devoptab_posix_t σ → Option (Int → World σ → Int × World σ))
    (what : Int → Invoke) (dev : devoptab_posix_t σ)
    (hused : (s.fd_table i).used = true)
    (hdev : GetDevice s (s.fd_table i).device_idx = some dev)
    (hent : entry_r dev = none) :
    fd_forward s (i.val : Int) entry_r what = (-1, { s with errno := ENOSYS }) := by
  simp [fd_forward, fd_get_const_val s i hused, fd_get_device_some s i dev hdev, hent]

theorem fd_forward_call (s : State σ) (i : Fin DEVOPTAB_MAX_FDS)
    (entry_r : devoptab_posix_t σ → Option (Int → World σ → Int × World σ))
    (what : Int → Invoke) (dev : devoptab_posix_t σ)
    (f : Int → World σ → Int × World σ)
    (hused : (s.fd_table i).used = true)
    (hdev : GetDevice s (s.fd_table i).device_idx = some dev)
    (hent : entry_r dev = some f) :
    fd_forward s (i.val : Int) entry_r what =
      ((f (s.fd_table i).device_fd s.world).1, { s with
        callback_device_idx := -1
        errno := (f (s.fd_table i).device_fd s.world).2.errno
        ext := (f (s.fd_table i).device_fd s.world).2.ext
        trace := s.trace ++ [{ device_idx := (s.fd_table i).device_idx
                               marker := (s.fd_table i).device_idx
                               what := what (s.fd_table i).device_fd }] }) := by
  simp [fd_forward, fd_get_const_val s i hused, fd_get_device_some s i dev hdev, hent,
    State.invoke, State.world]

/-- The calls built on `fd_forward` leave the descriptor table, the registry
and the default device as they were. -/
theorem fd_forward_frame (s : State σ) (fd : Int)
    (entry_r : devoptab_posix_t σ → Option (Int → World σ → Int × World σ))
    (what : Int → Invoke) :
    (fd_forward s fd entry_r what).2.fd_table = s.fd_table ∧
    (fd_forward s fd entry_r what).2.devoptab_list = s.devoptab_list ∧
    (fd_forward s fd entry_r what).2.defaultDevice = s.defaultDevice := by
  rcases BadFd_or_inUse s fd with hbad | ⟨i, rfl, hused⟩
  · rw [fd_forward_bad s fd entry_r what hbad]
    exact ⟨rfl, rfl, rfl⟩
  · cases hdev : GetDevice s (s.fd_table i).device_idx with
    | none =>
      rw [fd_forward_nodev s i entry_r what hused hdev]
      exact ⟨rfl, rfl, rfl⟩
    | some dev =>
      cases hent : entry_r dev with
      | none =>
        rw [fd_forward_nosys s i entry_r what dev hused hdev hent]
        exact ⟨rfl, rfl, rfl⟩
      | some f =>
        rw [fd_forward_call s i entry_r what dev f hused hdev hent]
        exact ⟨rfl, rfl, rfl⟩

/-- C13: each of `write`, `read` and `lseek` returns `-1` with `EBADF` on a
descriptor out of 0..127 or not in use; otherwise `-1` with `ENODEV` when the
registry slot the descriptor is bound to is empty; otherwise `-1` with
`ENOSYS` when the entry point of the device is null; otherwise it calls the
entry point once, with the device-local handle and the remaining arguments of
the caller, and returns its result as it is.  The descriptor table is
unchanged in all cases. -/
theorem read_write_lseek_contract (s : State σ) (ptr : List Char) (buf len : Nat)
    (pos dir : Int) :
    (∀ fd : Int, BadFd s fd →
      write s fd ptr len = (-1, { s with errno := EBADF }) ∧
      read s fd buf len = (-1, { s with errno := EBADF }) ∧
      lseek s fd pos dir = (-1, { s with errno := EBADF })) ∧
    (∀ i : Fin DEVOPTAB_MAX_FDS, (s.fd_table i).used = true →
      (GetDevice s (s.fd_table i).device_idx = none →
        write s (i.val : Int) ptr len = (-1, { s with errno := ENODEV }) ∧
        read s (i.val : Int) buf len = (-1, { s with errno := ENODEV }) ∧
        lseek s (i.val : Int) pos dir = (-1, { s with errno := ENODEV })) ∧
      (∀ dev : devoptab_posix_t σ,
        GetDevice s (s.fd_table i).device_idx = some dev →
        (dev.dot.write_r = none →
          write s (i.val : Int) ptr len = (-1, { s with errno := ENOSYS })) ∧
        (dev.dot.read_r = none →
          read s (i.val : Int) buf len = (-1, { s with errno := ENOSYS })) ∧
        (dev.dot.seek_r = none →
          lseek s (i.val : Int) pos dir = (-1, { s with errno := ENOSYS })) ∧
        (∀ write_r : Int → List Char → Nat → World σ → Int × World σ,
          dev.dot.write_r = some write_r →
          write s (i.val : Int) ptr len =
            ((write_r (s.fd_table i).device_fd ptr len s.world).1, { s with
              callback_device_idx := -1
              errno := (write_r (s.fd_table i).device_fd ptr len s.world).2.errno
              ext := (write_r (s.fd_table i).device_fd ptr len s.world).2.ext
              trace := s.trace ++
                [{ device_idx := (s.fd_table i).device_idx
                   marker := (s.fd_table i).device_idx
                   what := Invoke.write_r (s.fd_table i).device_fd ptr len }] })) ∧
        (∀ read_r : Int → Nat → Nat → World σ → Int × World σ,
          dev.dot.read_r = some read_r →
          read s (i.val : Int) buf len =
            ((read_r (s.fd_table i).device_fd buf len s.world).1, { s with
              callback_device_idx := -1
              errno := (read_r (s.fd_table i).device_fd buf len s.world).2.errno
              ext := (read_r (s.fd_table i).device_fd buf len s.world).2.ext
              trace := s.trace ++
                [{ device_idx := (s.fd_table i).device_idx
                   marker := (s.fd_table i).device_idx
                   what := Invoke.read_r (s.fd_table i).device_fd buf len }] })) ∧
        (∀ seek_r : Int → Int → Int → World σ → Int × World σ,
          dev.dot.seek_r = some seek_r →
          lseek s (i.val : Int) pos dir =
            ((seek_r (s.fd_table i).device_fd pos dir s.world).1, { s with
              callback_device_idx := -1
              errno := (seek_r (s.fd_table i).device_fd pos dir s.world).2.errno
              ext := (seek_r (s.fd_table i).device_fd pos dir s.world).2.ext
              trace := s.trace ++
                [{ device_idx := (s.fd_table i).device_idx
                   marker := (s.fd_table i).device_idx
                   what := Invoke.seek_r (s.fd_table i).device_fd pos dir }] })))) ∧
    (∀ fd : Int,
      (write s fd ptr len).2.fd_table = s.fd_table ∧
      (read s fd buf len).2.fd_table = s.fd_table ∧
      (lseek s fd pos dir).2.fd_table = s.fd_table) := by
  refine ⟨fun fd hbad => ?_, fun i hused => ⟨fun hdev => ?_, fun dev hdev => ?_⟩,
    fun fd => ?_⟩
  · exact ⟨fd_forward_bad s fd _ _ hbad, fd_forward_bad s fd _ _ hbad,
      fd_forward_bad s fd _ _ hbad⟩
  · exact ⟨fd_forward_nodev s i _ _ hused hdev, fd_forward_nodev s i _ _ hused hdev,
      fd_forward_nodev s i _ _ hused hdev⟩
  · refine ⟨fun h => ?_, fun h => ?_, fun h => ?_, fun f h => ?_, fun f h => ?_,
      fun f h => ?_⟩
    · exact fd_forward_nosys s i _ _ dev hused hdev (by simp [h])
    · exact fd_forward_nosys s i _ _ dev hused hdev (by simp [h])
    · exact fd_forward_nosys s i _ _ dev hused hdev (by simp [h])
    · exact fd_forward_call s i _ _ dev (fun device_fd => f device_fd ptr len)
        hused hdev (by simp [h])
    · exact fd_forward_call s i _ _ dev (fun device_fd => f device_fd buf len)
        hused hdev (by simp [h])
    · exact fd_forward_call s i _ _ dev (fun device_fd => f device_fd pos dir)
        hused hdev (by simp [h])
  · exact ⟨(fd_forward_frame s fd _ _).1, (fd_forward_frame s fd _ _).1,
      (fd_forward_frame s fd _ _).1⟩

/-- Witness of C13: descriptor 3 of `ioState` is bound to `ioDev` with handle
7; `write` of three bytes returns 3 and the backend saw handle 7, not 3; the
descriptors 1 and 500 give `ENOSYS` (the null device has no read entry) and
`EBADF`. -/
theorem read_write_lseek_contract_witness :
    ((ioState.fd_table 3).used = true ∧
     GetDevice ioState (ioState.fd_table 3).device_idx = some ioDev ∧
     BadFd ioState 500) ∧
    ((write ioState 3 "abc".toList 3).1 = 3 ∧
     (write ioState 3 "abc".toList 3).2.errno = 7 ∧
     (lseek ioState 3 40 0).1 = 40 ∧
     (read ioState 1 0 1).2.errno = ENOSYS ∧
     read ioState 500 0 1 = (-1, { ioState with errno := EBADF })) :=
  have h := ((read_write_lseek_contract ioState "abc".toList 0 3 40 0).2.1 3 rfl).2
    ioDev rfl
  have h1 := ((read_write_lseek_contract ioState "abc".toList 0 1 40 0).2.1 1 rfl).2
    dot_null rfl
  have hbad : BadFd ioState 500 := Or.inr (Or.inl (by decide))
  ⟨⟨rfl, rfl, hbad⟩,
   congrArg Prod.fst (h.2.2.2.1 _ rfl),
   congrArg (fun r => r.2.errno) (h.2.2.2.1 _ rfl),
   congrArg Prod.fst (h.2.2.2.2.2 _ rfl),
   congrArg (fun r => r.2.errno) (h1.2.1 rfl),
   ((read_write_lseek_contract ioState "abc".toList 0 1 40 0).1 500 hbad).2.1⟩

end FdForward

section Extended
variable {σ : Type}

theorem as_posix_device_noflag (s : State σ) (dev : devoptab_posix_t σ)
    (h : Nat.land dev.dot.flags DEVOPTAB_IS_POSIX = 0) :
    as_posix_device s dev = (none, { s with errno := ENOSYS }) := by
  simp [as_posix_device, h]

theorem fd_posix_forward_bad (s : State σ) (fd : Int)
    (entry_r : devoptab_posix_t σ → Option (Int → World σ → Int × World σ))
    (what : Int → Invoke) (h : BadFd s fd) :
    fd_posix_forward s fd entry_r what = (-1, { s with errno := EBADF }) := by
  simp [fd_posix_forward, fd_get_const_bad s fd h]

theorem fd_posix_forward_nodev (s : State σ) (i : Fin DEVOPTAB_MAX_FDS)
    (entry_r : devoptab_posix_t σ → Option (Int → World σ → Int × World σ))
    (what : Int → Invoke) (hused : (s.fd_table i).used = true)
    (hdev : GetDevice s (s.fd_table i).device_idx = none) :
    fd_posix_forward s (i.val : Int) entry_r what = (-1, { s with errno := ENODEV }) := by
  simp [fd_posix_forward, fd_get_const_val s i hused, fd_get_device_none s i hdev]

theorem fd_posix_forward_nosys (s : State σ) (i : Fin DEVOPTAB_MAX_FDS)
    (entry_r : devoptab_posix_t σ → Option (Int → World σ → Int × World σ))
    (what : Int → Invoke) (dev : devoptab_posix_t σ)
    (hused : (s.fd_table i).used = true)
    (hdev : GetDevice s (s.fd_table i).device_idx = some dev)
    (hno : NoExtended dev (entry_r dev)) :
    fd_posix_forward s (i.val : Int) entry_r what = (-1, { s with errno := ENOSYS }) := by
  by_cases hflag : Nat.land dev.dot.flags DEVOPTAB_IS_POSIX = 0
  · simp [fd_posix_forward, fd_get_const_val s i hused, fd_get_device_some s i dev hdev,
      as_posix_device_noflag s dev hflag]
  · have hent : entry_r dev = none := hno.resolve_left hflag
    simp [fd_posix_forward, fd_get_const_val s i hused, fd_get_device_some s i dev hdev,
      as_posix_device_flag s dev hflag, hent]

theorem fd_posix_forward_call (s : State σ) (i : Fin DEVOPTAB_MAX_FDS)
    (entry_r : devoptab_posix_t σ → Option (Int → World σ → Int × World σ))
    (what : Int → Invoke) (dev : devoptab_posix_t σ)
    (f : Int → World σ → Int × World σ)
    (hused : (s.fd_table i).used = true)
    (hdev : GetDevice s (s.fd_table i).device_idx = some dev)
    (hflag : Nat.land dev.dot.flags DEVOPTAB_IS_POSIX ≠ 0)
    (hent : entry_r dev = some f) :
    fd_posix_forward s (i.val : Int) entry_r what =
      ((f (s.fd_table i).device_fd s.world).1, { s with
        callback_device_idx := -1
        errno := (f (s.fd_table i).device_fd s.world).2.errno
        ext := (f (s.fd_table i).device_fd s.world).2.ext
        trace := s.trace ++ [{ device_idx := (s.fd_table i).device_idx
                               marker := (s.fd_table i).device_idx
                               what := what (s.fd_table i).device_fd }] }) := by
  simp [fd_posix_forward, fd_get_const_val s i hused, fd_get_device_some s i dev hdev,
    as_posix_device_flag s dev hflag, hent, State.invoke, State.world]

theorem path_posix_forward_nosys (s : State σ) (path : Option CStr)
    (entry_r : devoptab_posix_t σ → Option (World σ → Int × World σ))
    (what : Invoke) (dev : devoptab_posix_t σ)
    (hdev : GetDevice s (FindDevice s path) = some dev)
    (hno : NoExtended dev (entry_r dev)) :
    path_posix_forward s path entry_r what = (-1, { s with errno := ENOSYS }) := by
  by_cases hflag : Nat.land dev.dot.flags DEVOPTAB_IS_POSIX = 0
  · simp [path_posix_forward, path_get_device_resolved s path dev hdev,
      as_posix_device_noflag s dev hflag]
  · have hent : entry_r dev = none := hno.resolve_left hflag
    simp [path_posix_forward, path_get_device_resolved s path dev hdev,
      as_posix_device_flag s dev hflag, hent]

theorem path_posix_forward_call (s : State σ) (path : Option CStr)
    (entry_r : devoptab_posix_t σ → Option (World σ → Int × World σ))
    (what : Invoke) (dev : devoptab_posix_t σ) (f : World σ → Int × World σ)
    (hdev : GetDevice s (FindDevice s path) = some dev)
    (hflag : Nat.land dev.dot.flags DEVOPTAB_IS_POSIX ≠ 0)
    (hent : entry_r dev = some f) :
    path_posix_forward s path entry_r what =
      ((f s.world).1, { s with
        errno := (f s.world).2.errno
        ext := (f s.world).2.ext
        trace := s.trace ++ [{ device_idx := FindDevice s path
                               marker := s.callback_device_idx
                               what := what }] }) := by
  simp [path_posix_forward, path_get_device_resolved s path dev hdev,
    as_posix_device_flag s dev hflag, hent, State.invoke]

theorem path_posix_forward_unresolved (s : State σ) (path : Option CStr)
    (entry_r : devoptab_posix_t σ → Option (World σ → Int × World σ))
    (what : Invoke) (hdev : GetDevice s (FindDevice s path) = none) :
    ∃ e : Int, path_posix_forward s path entry_r what = (-1, { s with errno := e }) := by
  rcases hp : path_get_device s path with ⟨_ | ⟨dev, i⟩, s1⟩
  · obtain ⟨e, rfl⟩ := path_get_device_none s s1 path hp
    exact ⟨e, by simp [path_posix_forward, hp]⟩
  · obtain ⟨-, -, h⟩ := path_get_device_some s s1 path dev i hp
    rw [hdev] at h
    exact absurd h (by simp)

theorem NoExtended_map {α β : Type} (dev : devoptab_posix_t σ) (entry : Option α)
    (g : α → β) (h : NoExtended dev entry) : NoExtended dev (entry.map g) := by
  rcases h with h | h
  · exact Or.inl h
  · exact Or.inr (by simp [h])

theorem link_nosys (s : State σ) (existing newLink : Option CStr)
    (dev : devoptab_posix_t σ)
    (hdev : GetDevice s (FindDevice s existing) = some dev)
    (hsame : FindDevice s newLink = FindDevice s existing)
    (hno : NoExtended dev dev.link_r) :
    link s existing newLink = (-1, { s with errno := ENOSYS }) := by
  have hdev2 : GetDevice s (FindDevice s newLink) = some dev := by rw [hsame]; exact hdev
  by_cases hflag : Nat.land dev.dot.flags DEVOPTAB_IS_POSIX = 0
  · simp [link, path_get_device_resolved s existing dev hdev,
      path_get_device_resolved s newLink dev hdev2, hsame,
      as_posix_device_noflag s dev hflag]
  · have hent : dev.link_r = none := hno.resolve_left hflag
    simp [link, path_get_device_resolved s existing dev hdev,
      path_get_device_resolved s newLink dev hdev2, hsame,
      as_posix_device_flag s dev hflag, hent]

theorem rename_nosys (s : State σ) (oldName newName : Option CStr)
    (dev : devoptab_posix_t σ)
    (hdev : GetDevice s (FindDevice s oldName) = some dev)
    (hsame : FindDevice s newName = FindDevice s oldName)
    (hno : NoExtended dev dev.rename_r) :
    rename s oldName newName = (-1, { s with errno := ENOSYS }) := by
  have hdev2 : GetDevice s (FindDevice s newName) = some dev := by rw [hsame]; exact hdev
  by_cases hflag : Nat.land dev.dot.flags DEVOPTAB_IS_POSIX = 0
  · simp [rename, path_get_device_resolved s oldName dev hdev,
      path_get_device_resolved s newName dev hdev2, hsame,
      as_posix_device_noflag s dev hflag]
  · have hent : dev.rename_r = none := hno.resolve_left hflag
    simp [rename, path_get_device_resolved s oldName dev hdev,
      path_get_device_resolved s newName dev hdev2, hsame,
      as_posix_device_flag s dev hflag, hent]

theorem chdir_nosys (s : State σ) (name : Option CStr) (dev : devoptab_posix_t σ)
    (hdev : GetDevice s (FindDevice s name) = some dev)
    (hno : NoExtended dev dev.chdir_r) :
    chdir s name = (-1, { s with errno := ENOSYS }) := by
  by_cases hflag : Nat.land dev.dot.flags DEVOPTAB_IS_POSIX = 0
  · simp [chdir, path_get_device_resolved s name dev hdev,
      as_posix_device_noflag s dev hflag]
  · have hent : dev.chdir_r = none := hno.resolve_left hflag
    simp [chdir, path_get_device_resolved s name dev hdev,
      as_posix_device_flag s dev hflag, hent]

end Extended

section ExtendedClaim
variable {σ : Type}

/-- C14: every extended operation of the dispatcher returns `-1` with `ENOSYS`
and invokes no backend entry point (the state changes in `errno` only) when
the device its descriptor or path resolves to lacks the flag
`DEVOPTAB_IS_POSIX`, or has it with a null entry pointer for the operation;
for `link` and `rename` both paths resolve to that device.  Instances: `fstat`
on descriptors 0..2 of the initial state, `chmod` and `fchmod` on the FAT
devices, `fsync` and `statvfs` on the ROM-image device. -/
theorem extended_ops_not_supported (s : State σ) (dev : devoptab_posix_t σ) :
    (∀ (i : Fin DEVOPTAB_MAX_FDS) (st mode : Nat) (len : Int),
      (s.fd_table i).used = true →
      GetDevice s (s.fd_table i).device_idx = some dev →
      (NoExtended dev dev.fstat_r →
        fstat s (i.val : Int) st = (-1, { s with errno := ENOSYS })) ∧
      (NoExtended dev dev.ftruncate_r →
        ftruncate s (i.val : Int) len = (-1, { s with errno := ENOSYS })) ∧
      (NoExtended dev dev.fsync_r →
        fsync s (i.val : Int) = (-1, { s with errno := ENOSYS })) ∧
      (NoExtended dev dev.fchmod_r →
        fchmod s (i.val : Int) mode = (-1, { s with errno := ENOSYS }))) ∧
    (∀ (path : Option CStr) (st buf mode times : Nat) (imode : Int),
      GetDevice s (FindDevice s path) = some dev →
      (NoExtended dev dev.stat_r →
        stat s path st = (-1, { s with errno := ENOSYS })) ∧
      (NoExtended dev dev.unlink_r →
        unlink s path = (-1, { s with errno := ENOSYS })) ∧
      (NoExtended dev dev.chdir_r →
        chdir s path = (-1, { s with errno := ENOSYS })) ∧
      (NoExtended dev dev.mkdir_r →
        mkdir s path imode = (-1, { s with errno := ENOSYS })) ∧
      (NoExtended dev dev.statvfs_r →
        statvfs s path buf = (-1, { s with errno := ENOSYS })) ∧
      (NoExtended dev dev.chmod_r →
        chmod s path mode = (-1, { s with errno := ENOSYS })) ∧
      (NoExtended dev dev.rmdir_r →
        rmdir s path = (-1, { s with errno := ENOSYS })) ∧
      (NoExtended dev dev.lstat_r →
        lstat s path st = (-1, { s with errno := ENOSYS })) ∧
      (NoExtended dev dev.utimes_r →
        utimes s path times = (-1, { s with errno := ENOSYS })) ∧
      (∀ other : Option CStr, FindDevice s other = FindDevice s path →
        (NoExtended dev dev.link_r →
          link s path other = (-1, { s with errno := ENOSYS })) ∧
        (NoExtended dev dev.rename_r →
          rename s path other = (-1, { s with errno := ENOSYS })))) ∧
    (∀ (ext : σ) (i : Fin DEVOPTAB_MAX_FDS) (st : Nat), i.val < 3 →
      fstat (State.initial ext) (i.val : Int) st
        = (-1, { State.initial ext with errno := ENOSYS })) ∧
    (∀ (name : String) (fat : FatEntries σ) (path : Option CStr)
        (i : Fin DEVOPTAB_MAX_FDS) (mode : Nat),
      (GetDevice s (FindDevice s path) = some (fat_table name fat) →
        chmod s path mode = (-1, { s with errno := ENOSYS })) ∧
      ((s.fd_table i).used = true →
        GetDevice s (s.fd_table i).device_idx = some (fat_table name fat) →
        fchmod s (i.val : Int) mode = (-1, { s with errno := ENOSYS }))) ∧
    (∀ (lib : NitroLib σ) (path : Option CStr) (i : Fin DEVOPTAB_MAX_FDS)
        (buf : Nat),
      (GetDevice s (FindDevice s path) = some (dot_nitrofs lib) →
        statvfs s path buf = (-1, { s with errno := ENOSYS })) ∧
      ((s.fd_table i).used = true →
        GetDevice s (s.fd_table i).device_idx = some (dot_nitrofs lib) →
        fsync s (i.val : Int) = (-1, { s with errno := ENOSYS }))) := by
  refine ⟨?_, ?_, ?_, ?_, ?_⟩
  · intro i st mode len hused hdev
    exact ⟨fun h => fd_posix_forward_nosys s i _ _ dev hused hdev (NoExtended_map dev _ _ h),
      fun h => fd_posix_forward_nosys s i _ _ dev hused hdev (NoExtended_map dev _ _ h),
      fun h => fd_posix_forward_nosys s i _ _ dev hused hdev h,
      fun h => fd_posix_forward_nosys s i _ _ dev hused hdev (NoExtended_map dev _ _ h)⟩
  · intro path st buf mode times imode hdev
    refine ⟨fun h => ?_, fun h => ?_, fun h => ?_, fun h => ?_, fun h => ?_, fun h => ?_,
      fun h => ?_, fun h => ?_, fun h => ?_, fun other hsame => ⟨fun h => ?_, fun h => ?_⟩⟩
    · exact path_posix_forward_nosys s path _ _ dev hdev (NoExtended_map dev _ _ h)
    · exact path_posix_forward_nosys s path _ _ dev hdev (NoExtended_map dev _ _ h)
    · exact chdir_nosys s path dev hdev h
    · exact path_posix_forward_nosys s path _ _ dev hdev (NoExtended_map dev _ _ h)
    · exact path_posix_forward_nosys s path _ _ dev hdev (NoExtended_map dev _ _ h)
    · exact path_posix_forward_nosys s path _ _ dev hdev (NoExtended_map dev _ _ h)
    · exact path_posix_forward_nosys s path _ _ dev hdev (NoExtended_map dev _ _ h)
    · exact path_posix_forward_nosys s path _ _ dev hdev (NoExtended_map dev _ _ h)
    · exact path_posix_forward_nosys s path _ _ dev hdev (NoExtended_map dev _ _ h)
    · exact link_nosys s path other dev hdev hsame h
    · exact rename_nosys s path other dev hdev hsame h
  · intro ext i st hi
    have hused : ((State.initial ext).fd_table i).used = true := by
      simp [State.initial, hi]
    have hlt : i.val < MAX_DEVICES := by
      show i.val < 16
      omega
    have hdev : GetDevice (State.initial ext) ((State.initial ext).fd_table i).device_idx
        = some dot_null := by
      have hidx : ((State.initial ext).fd_table i).device_idx
          = ((⟨i.val, hlt⟩ : Fin MAX_DEVICES).val : Int) := by
        simp [State.initial, hi]
      rw [hidx, GetDevice_val]
      simp [State.initial, hi]
    have hnull : NoExtended (dot_null : devoptab_posix_t σ)
        ((dot_null : devoptab_posix_t σ).fstat_r.map (fun f device_fd => f device_fd st)) :=
      Or.inl (by show Nat.land 0 1 = 0; decide)
    exact fd_posix_forward_nosys _ i _ _ dot_null hused hdev hnull
  · intro name fat path i mode
    exact ⟨fun hdev => path_posix_forward_nosys s path _ _ _ hdev (Or.inr rfl),
      fun hused hdev => fd_posix_forward_nosys s i _ _ _ hused hdev (Or.inr rfl)⟩
  · intro lib path i buf
    exact ⟨fun hdev => path_posix_forward_nosys s path _ _ _ hdev (Or.inr rfl),
      fun hused hdev => fd_posix_forward_nosys s i _ _ _ hused hdev (Or.inr rfl)⟩

/-- Witness of C14: in `nitroState` descriptor 3 and the path `nitro:/f`
resolve to the ROM-image device, whose `fsync` and `statvfs` entries are
null. -/
theorem extended_ops_not_supported_witness :
    ((nitroState.fd_table 3).used = true ∧
     GetDevice nitroState (nitroState.fd_table 3).device_idx
        = some (dot_nitrofs nitroLib0) ∧
     GetDevice nitroState (FindDevice nitroState (some "nitro:/f".toList))
        = some (dot_nitrofs nitroLib0) ∧
     NoExtended (dot_nitrofs nitroLib0) (dot_nitrofs nitroLib0).fsync_r ∧
     NoExtended (dot_nitrofs nitroLib0) (dot_nitrofs nitroLib0).statvfs_r) ∧
    (fsync nitroState 3 = (-1, { nitroState with errno := ENOSYS }) ∧
     statvfs nitroState (some "nitro:/f".toList) 0
        = (-1, { nitroState with errno := ENOSYS })) :=
  have h := extended_ops_not_supported nitroState (dot_nitrofs nitroLib0)
  ⟨⟨rfl, rfl, rfl, Or.inr rfl, Or.inr rfl⟩,
   (h.1 3 0 0 0 rfl rfl).2.2.1 (Or.inr rfl),
   (h.2.1 (some "nitro:/f".toList) 0 0 0 0 0 rfl).2.2.2.2.1 (Or.inr rfl)⟩

end ExtendedClaim

section DeviceData
variable {σ : Type}

/-- With a device index in the marker, `GetDeviceDataByFd` answers from that
registry slot, whatever the descriptor. -/
theorem GetDeviceDataByFd_marked (s : State σ) (fd : Int)
    (h : 0 ≤ s.callback_device_idx) :
    GetDeviceDataByFd s fd =
      match GetDevice s s.callback_device_idx with
      | none => (0, { s with errno := ENODEV })
      | some device => (device.dot.deviceData, s) := by
  have h' : s.callback_device_idx ≥ 0 := h
  simp [GetDeviceDataByFd, h']

/-- C17: when the callback marker holds a device index `d >= 0`,
`GetDeviceDataByFd` returns the device data of registry slot `d` for every
descriptor argument, and null with `ENODEV` when slot `d` is empty; when the
marker is `-1` it returns the device data of the device bound to `fd` if `fd`
is an in-use descriptor in 0..127, null with `ENODEV` if that registry slot is
empty, and null with `EBADF` otherwise. -/
theorem GetDeviceDataByFd_contract (s : State σ) (fd : Int) :
    (0 ≤ s.callback_device_idx →
      (∀ dev : devoptab_posix_t σ, GetDevice s s.callback_device_idx = some dev →
        GetDeviceDataByFd s fd = (dev.dot.deviceData, s)) ∧
      (GetDevice s s.callback_device_idx = none →
        GetDeviceDataByFd s fd = (0, { s with errno := ENODEV }))) ∧
    (s.callback_device_idx = -1 →
      (∀ i : Fin DEVOPTAB_MAX_FDS, fd = (i.val : Int) → (s.fd_table i).used = true →
        (∀ dev : devoptab_posix_t σ,
          GetDevice s (s.fd_table i).device_idx = some dev →
          GetDeviceDataByFd s fd = (dev.dot.deviceData, s)) ∧
        (GetDevice s (s.fd_table i).device_idx = none →
          GetDeviceDataByFd s fd = (0, { s with errno := ENODEV }))) ∧
      (BadFd s fd → GetDeviceDataByFd s fd = (0, { s with errno := EBADF }))) := by
  refine ⟨fun hm => ⟨fun dev hdev => ?_, fun hdev => ?_⟩,
    fun hm => ⟨fun i hfd hused => ⟨fun dev hdev => ?_, fun hdev => ?_⟩, fun hbad => ?_⟩⟩
  · rw [GetDeviceDataByFd_marked s fd hm, hdev]
  · rw [GetDeviceDataByFd_marked s fd hm, hdev]
  · subst hfd
    simp [GetDeviceDataByFd, hm, slot?_val, hused, hdev]
  · subst hfd
    simp [GetDeviceDataByFd, hm, slot?_val, hused, hdev]
  · rcases hbad with h | h | ⟨i, rfl, hu⟩
    · simp [GetDeviceDataByFd, hm, slot?_eq_none.2 (Or.inl h)]
    · simp [GetDeviceDataByFd, hm, slot?_eq_none.2 (Or.inr h)]
    · simp [GetDeviceDataByFd, hm, slot?_val, hu]

/-- Witness of C17: in `dataState` (marker `-1`) descriptor 3 is bound to
`dataDev`, whose data is 42; with the marker set to 3 every descriptor
argument gives 42. -/
theorem GetDeviceDataByFd_contract_witness :
    (dataState.callback_device_idx = -1 ∧
     (dataState.fd_table 3).used = true ∧
     GetDevice dataState (dataState.fd_table 3).device_idx = some dataDev ∧
     BadFd dataState 9) ∧
    (GetDeviceDataByFd dataState 3 = (42, dataState) ∧
     GetDeviceDataByFd dataState 9 = (0, { dataState with errno := EBADF }) ∧
     GetDeviceDataByFd { dataState with callback_device_idx := 3 } 9
        = (42, { dataState with callback_device_idx := 3 })) :=
  have hbad : BadFd dataState 9 := Or.inr (Or.inr ⟨9, rfl, rfl⟩)
  ⟨⟨rfl, rfl, rfl, hbad⟩,
   ((GetDeviceDataByFd_contract dataState 3).2 rfl).1 3 rfl rfl |>.1 dataDev rfl,
   ((GetDeviceDataByFd_contract dataState 9).2 rfl).2 hbad,
   ((GetDeviceDataByFd_contract { dataState with callback_device_idx := 3 } 9).1
      (by decide)).1 dataDev rfl⟩

end DeviceData

section Marker
variable {σ : Type}

theorem newCalls_same (s s' : State σ) (h : s'.trace = s.trace) : newCalls s s' = [] := by
  simp [newCalls, h]

theorem newCalls_append (s s' : State σ) (l : List Call) (h : s'.trace = s.trace ++ l) :
    newCalls s s' = l := by
  simp [newCalls, h]

theorem markedStep_calls {s s' : State σ} {d : Int} (h : MarkedStep s s' d) :
    MarkedCalls s s' d := by
  intro c hc
  rcases h with ⟨ht, _⟩ | ⟨dev, w, hdev, ht, _⟩
  · rw [newCalls_same s s' ht] at hc
    exact absurd hc (List.not_mem_nil c)
  · rw [newCalls_append s s' _ ht, List.mem_singleton] at hc
    subst hc
    refine ⟨rfl, rfl, dev, hdev, fun fd => ?_⟩
    obtain ⟨k, hk, _⟩ := GetDevice_eq_some s d dev hdev
    have h0 : 0 ≤ ({ s with callback_device_idx := d } : State σ).callback_device_idx := by
      show 0 ≤ d
      omega
    rw [GetDeviceDataByFd_marked _ fd h0]
    have hg : GetDevice ({ s with callback_device_idx := d } : State σ) d = some dev :=
      (GetDevice_congr s _ rfl d).trans hdev
    simp [hg]

theorem markedStep_kept {s s' : State σ} {d : Int} (h : MarkedStep s s' d)
    (hm : s.callback_device_idx = -1) : s'.callback_device_idx = -1 := by
  rcases h with ⟨_, hk⟩ | ⟨_, _, _, _, hk⟩
  · rw [hk, hm]
  · exact hk

theorem unmarkedStep_calls {s s' : State σ} (h : UnmarkedStep s s') :
    UnmarkedCalls s s' := by
  intro c hc
  rcases h.2 with ht | ⟨d, w, ht⟩
  · rw [newCalls_same s s' ht] at hc
    exact absurd hc (List.not_mem_nil c)
  · rw [newCalls_append s s' _ ht, List.mem_singleton] at hc
    subst hc
    rfl

theorem unmarkedStep_kept {s s' : State σ} (h : UnmarkedStep s s')
    (hm : s.callback_device_idx = -1) : s'.callback_device_idx = -1 := by
  rw [h.1, hm]

theorem markedStep_errno (s : State σ) (e d : Int) :
    MarkedStep s { s with errno := e } d := Or.inl ⟨rfl, rfl⟩

theorem unmarkedStep_errno (s : State σ) (e : Int) :
    UnmarkedStep s { s with errno := e } := ⟨rfl, Or.inl rfl⟩

theorem fd_forward_markedStep (s : State σ) (i : Fin DEVOPTAB_MAX_FDS)
    (entry_r : devoptab_posix_t σ → Option (Int → World σ → Int × World σ))
    (what : Int → Invoke) :
    MarkedStep s (fd_forward s (i.val : Int) entry_r what).2 (s.fd_table i).device_idx := by
  cases hused : (s.fd_table i).used with
  | false =>
    rw [fd_forward_bad s _ entry_r what (Or.inr (Or.inr ⟨i, rfl, hused⟩))]
    exact markedStep_errno s _ _
  | true =>
    cases hdev : GetDevice s (s.fd_table i).device_idx with
    | none =>
      rw [fd_forward_nodev s i entry_r what hused hdev]
      exact markedStep_errno s _ _
    | some dev =>
      cases hent : entry_r dev with
      | none =>
        rw [fd_forward_nosys s i entry_r what dev hused hdev hent]
        exact markedStep_errno s _ _
      | some f =>
        rw [fd_forward_call s i entry_r what dev f hused hdev hent]
        exact Or.inr ⟨dev, _, hdev, rfl, rfl⟩

theorem fd_posix_forward_markedStep (s : State σ) (i : Fin DEVOPTAB_MAX_FDS)
    (entry_r : devoptab_posix_t σ → Option (Int → World σ → Int × World σ))
    (what : Int → Invoke) :
    MarkedStep s (fd_posix_forward s (i.val : Int) entry_r what).2
      (s.fd_table i).device_idx := by
  cases hused : (s.fd_table i).used with
  | false =>
    rw [fd_posix_forward_bad s _ entry_r what (Or.inr (Or.inr ⟨i, rfl, hused⟩))]
    exact markedStep_errno s _ _
  | true =>
    cases hdev : GetDevice s (s.fd_table i).device_idx with
    | none =>
      rw [fd_posix_forward_nodev s i entry_r what hused hdev]
      exact markedStep_errno s _ _
    | some dev =>
      by_cases hflag : Nat.land dev.dot.flags DEVOPTAB_IS_POSIX = 0
      · rw [fd_posix_forward_nosys s i entry_r what dev hused hdev (Or.inl hflag)]
        exact markedStep_errno s _ _
      · cases hent : entry_r dev with
        | none =>
          rw [fd_posix_forward_nosys s i entry_r what dev hused hdev (Or.inr hent)]
          exact markedStep_errno s _ _
        | some f =>
          rw [fd_posix_forward_call s i entry_r what dev f hused hdev hflag hent]
          exact Or.inr ⟨dev, _, hdev, rfl, rfl⟩

theorem path_posix_forward_unmarkedStep (s : State σ) (path : Option CStr)
    (entry_r : devoptab_posix_t σ → Option (World σ → Int × World σ))
    (what : Invoke) :
    UnmarkedStep s (path_posix_forward s path entry_r what).2 := by
  cases hdev : GetDevice s (FindDevice s path) with
  | none =>
    obtain ⟨e, he⟩ := path_posix_forward_unresolved s path entry_r what hdev
    rw [he]
    exact unmarkedStep_errno s e
  | some dev =>
    by_cases hflag : Nat.land dev.dot.flags DEVOPTAB_IS_POSIX = 0
    · rw [path_posix_forward_nosys s path entry_r what dev hdev (Or.inl hflag)]
      exact unmarkedStep_errno s _
    · cases hent : entry_r dev with
      | none =>
        rw [path_posix_forward_nosys s path entry_r what dev hdev (Or.inr hent)]
        exact unmarkedStep_errno s _
      | some f =>
        rw [path_posix_forward_call s path entry_r what dev f hdev hflag hent]
        exact ⟨rfl, Or.inr ⟨_, _, rfl⟩⟩

theorem close_markedStep (s : State σ) (i : Fin DEVOPTAB_MAX_FDS) :
    MarkedStep s (close s (i.val : Int)).2 (s.fd_table i).device_idx := by
  cases hused : (s.fd_table i).used with
  | false =>
    have h : close s (i.val : Int) = (-1, { s with errno := EBADF }) := by
      simp [close, fd_get_const_bad s _ (Or.inr (Or.inr ⟨i, rfl, hused⟩))]
    rw [h]
    exact markedStep_errno s _ _
  | true =>
    cases hdev : GetDevice s (s.fd_table i).device_idx with
    | none =>
      rw [close_vacated s i hused hdev]
      exact markedStep_errno s _ _
    | some dev =>
      have h1 := fd_get_const_val s i hused
      have h2 := fd_get_device_some s i dev hdev
      cases hc : dev.dot.close_r with
      | none =>
        have h : close s (i.val : Int) = (0, fd_release s (i.val : Int)) := by
          simp [close, h1, h2, hc]
        rw [h, fd_release_val]
        exact Or.inl ⟨rfl, rfl⟩
      | some close_r =>
        refine Or.inr ⟨dev, Invoke.close_r (s.fd_table i).device_fd, hdev, ?_, ?_⟩
        · simp [close, h1, h2, hc, State.invoke, fd_release_val]
        · simp [close, h1, h2, hc, State.invoke, fd_release_val]

theorem get_default_posix_device_cases (s : State σ) :
    (∃ e : Int, get_default_posix_device s = (none, { s with errno := e })) ∨
    (∃ dev : devoptab_posix_t σ, GetDevice s s.defaultDevice = some dev ∧
      get_default_posix_device s = (some (dev, s.defaultDevice), s)) := by
  unfold get_default_posix_device GetDefaultDevice
  by_cases hneg : s.defaultDevice < 0
  · exact Or.inl ⟨ENODEV, by simp [hneg]⟩
  · cases hdev : GetDevice s s.defaultDevice with
    | none => exact Or.inl ⟨ENODEV, by simp [hneg, hdev]⟩
    | some dev =>
      by_cases hflag : Nat.land dev.dot.flags DEVOPTAB_IS_POSIX = 0
      · exact Or.inl ⟨ENOSYS, by simp [hneg, hdev, as_posix_device_noflag s dev hflag]⟩
      · exact Or.inr ⟨dev, rfl, by simp [hneg, hdev, as_posix_device_flag s dev hflag]⟩

theorem getcwd_markedStep (s : State σ) (buf size : Nat) :
    MarkedStep s (getcwd s buf size).2 s.defaultDevice := by
  rcases get_default_posix_device_cases s with ⟨e, he⟩ | ⟨dev, hdev, he⟩
  · simp only [getcwd, he]
    exact markedStep_errno s e _
  · cases hg : dev.getcwd_r with
    | none =>
      simp only [getcwd, he, hg]
      exact markedStep_errno s _ _
    | some f =>
      refine Or.inr ⟨dev, Invoke.getcwd_r buf size, hdev, ?_, ?_⟩
      · simp [getcwd, he, hg, State.invoke]
      · simp [getcwd, he, hg, State.invoke]

end Marker

section Marker2
variable {σ : Type}

theorem sys_open_unmarkedStep (s : State σ) (path : Option CStr) (flags : Int) :
    UnmarkedStep s (sys_open s path flags).2 := by
  rcases hp : path_get_device s path with ⟨_ | ⟨dev, i⟩, s1⟩
  · obtain ⟨e, rfl⟩ := path_get_device_none s s1 path hp
    simp only [sys_open, hp]
    exact unmarkedStep_errno s e
  · obtain ⟨rfl, rfl, hdev⟩ := path_get_device_some s s1 path dev i hp
    cases hent : dev.dot.open_r with
    | none =>
      simp only [sys_open, hp, hent]
      exact unmarkedStep_errno s1 _
    | some open_r =>
      rcases sys_open_resolved s1 path flags dev open_r hdev hent with
        ⟨h, _⟩ | ⟨fd, _, _, _, h⟩
      · rw [h]
        exact unmarkedStep_errno s1 _
      · rw [h]
        split
        · exact ⟨rfl, Or.inr ⟨_, _, rfl⟩⟩
        · exact ⟨rfl, Or.inr ⟨_, _, rfl⟩⟩

theorem link_unmarkedStep (s : State σ) (existing newLink : Option CStr) :
    UnmarkedStep s (link s existing newLink).2 := by
  rcases hp : path_get_device s existing with ⟨_ | ⟨d1, i1⟩, s1⟩
  · obtain ⟨e, rfl⟩ := path_get_device_none s s1 existing hp
    simp only [link, hp]
    exact unmarkedStep_errno s e
  · obtain ⟨rfl, rfl, hdev1⟩ := path_get_device_some s s1 existing d1 i1 hp
    rcases hp2 : path_get_device s1 newLink with ⟨_ | ⟨d2, i2⟩, s2⟩
    · obtain ⟨e, rfl⟩ := path_get_device_none s1 s2 newLink hp2
      simp only [link, hp, hp2]
      exact unmarkedStep_errno s1 e
    · obtain ⟨rfl, rfl, hdev2⟩ := path_get_device_some s1 s2 newLink d2 i2 hp2
      simp only [link, hp, hp2]
      split
      · exact unmarkedStep_errno s2 _
      · by_cases hflag : Nat.land d2.dot.flags DEVOPTAB_IS_POSIX = 0
        · simp only [as_posix_device_noflag s2 d2 hflag]
          exact unmarkedStep_errno s2 _
        · simp only [as_posix_device_flag s2 d2 hflag]
          cases hent : d2.link_r with
          | none => exact unmarkedStep_errno s2 _
          | some f => exact ⟨rfl, Or.inr ⟨_, _, rfl⟩⟩

theorem rename_unmarkedStep (s : State σ) (oldName newName : Option CStr) :
    UnmarkedStep s (rename s oldName newName).2 := by
  rcases hp : path_get_device s oldName with ⟨_ | ⟨d1, i1⟩, s1⟩
  · obtain ⟨e, rfl⟩ := path_get_device_none s s1 oldName hp
    simp only [rename, hp]
    exact unmarkedStep_errno s e
  · obtain ⟨rfl, rfl, hdev1⟩ := path_get_device_some s s1 oldName d1 i1 hp
    rcases hp2 : path_get_device s1 newName with ⟨_ | ⟨d2, i2⟩, s2⟩
    · obtain ⟨e, rfl⟩ := path_get_device_none s1 s2 newName hp2
      simp only [rename, hp, hp2]
      exact unmarkedStep_errno s1 e
    · obtain ⟨rfl, rfl, hdev2⟩ := path_get_device_some s1 s2 newName d2 i2 hp2
      simp only [rename, hp, hp2]
      split
      · exact unmarkedStep_errno s2 _
      · by_cases hflag : Nat.land d2.dot.flags DEVOPTAB_IS_POSIX = 0
        · simp only [as_posix_device_noflag s2 d2 hflag]
          exact unmarkedStep_errno s2 _
        · simp only [as_posix_device_flag s2 d2 hflag]
          cases hent : d2.rename_r with
          | none => exact unmarkedStep_errno s2 _
          | some f => exact ⟨rfl, Or.inr ⟨_, _, rfl⟩⟩

theorem chdir_unmarkedStep (s : State σ) (name : Option CStr) :
    UnmarkedStep s (chdir s name).2 := by
  cases hdev : GetDevice s (FindDevice s name) with
  | none =>
    rcases hp : path_get_device s name with ⟨_ | ⟨dev, i⟩, s1⟩
    · obtain ⟨e, rfl⟩ := path_get_device_none s s1 name hp
      simp only [chdir, hp]
      exact unmarkedStep_errno s e
    · obtain ⟨-, -, h⟩ := path_get_device_some s s1 name dev i hp
      rw [hdev] at h
      exact absurd h (by simp)
  | some dev =>
    by_cases hflag : Nat.land dev.dot.flags DEVOPTAB_IS_POSIX = 0
    · rw [chdir_nosys s name dev hdev (Or.inl hflag)]
      exact unmarkedStep_errno s _
    · cases hent : dev.chdir_r with
      | none =>
        rw [chdir_nosys s name dev hdev (Or.inr hent)]
        exact unmarkedStep_errno s _
      | some chdir_r =>
        by_cases hret : (chdir_r name s.world).1 = 0
        · rw [chdir_ok s name dev chdir_r hdev hflag hent hret]
          exact ⟨rfl, Or.inr ⟨_, _, rfl⟩⟩
        · have h : chdir s name = ((chdir_r name s.world).1, { s with
              errno := (chdir_r name s.world).2.errno
              ext := (chdir_r name s.world).2.ext
              trace := s.trace ++ [{ device_idx := FindDevice s name
                                     marker := s.callback_device_idx
                                     what := Invoke.chdir_r name }] }) := by
            simp only [chdir, path_get_device_resolved s name dev hdev,
              as_posix_device_flag s dev hflag, hent, State.invoke]
            rw [if_neg hret]
          rw [h]
          exact ⟨rfl, Or.inr ⟨_, _, rfl⟩⟩

theorem getwd_markedStep (s : State σ) (buf : Nat) :
    MarkedStep s (getwd s buf).2 s.defaultDevice := by
  rcases get_default_posix_device_cases s with ⟨e, he⟩ | ⟨dev, hdev, he⟩
  · simp only [getwd, he]
    exact markedStep_errno s e _
  · cases hg : dev.getwd_r with
    | none =>
      simp only [getwd, he, hg]
      exact getcwd_markedStep s buf PATH_MAX
    | some f =>
      refine Or.inr ⟨dev, Invoke.getwd_r buf, hdev, ?_, ?_⟩
      · simp [getwd, he, hg, State.invoke]
      · simp [getwd, he, hg, State.invoke]

theorem get_current_dir_name_markedStep (s : State σ) :
    MarkedStep s (get_current_dir_name s).2 s.defaultDevice := by
  rcases get_default_posix_device_cases s with ⟨e, he⟩ | ⟨dev, hdev, he⟩
  · simp only [get_current_dir_name, he]
    exact markedStep_errno s e _
  · cases hg : dev.get_current_dir_name_r with
    | none =>
      simp only [get_current_dir_name, he, hg]
      exact getcwd_markedStep s 0 0
    | some f =>
      refine Or.inr ⟨dev, Invoke.get_current_dir_name_r, hdev, ?_, ?_⟩
      · simp [get_current_dir_name, he, hg, State.invoke]
      · simp [get_current_dir_name, he, hg, State.invoke]

theorem fd_forward_kept (s : State σ) (fd : Int)
    (entry_r : devoptab_posix_t σ → Option (Int → World σ → Int × World σ))
    (what : Int → Invoke) (hm : s.callback_device_idx = -1) :
    (fd_forward s fd entry_r what).2.callback_device_idx = -1 := by
  rcases BadFd_or_inUse s fd with hbad | ⟨i, rfl, _⟩
  · rw [fd_forward_bad s fd entry_r what hbad]
    exact hm
  · exact markedStep_kept (fd_forward_markedStep s i entry_r what) hm

theorem fd_posix_forward_kept (s : State σ) (fd : Int)
    (entry_r : devoptab_posix_t σ → Option (Int → World σ → Int × World σ))
    (what : Int → Invoke) (hm : s.callback_device_idx = -1) :
    (fd_posix_forward s fd entry_r what).2.callback_device_idx = -1 := by
  rcases BadFd_or_inUse s fd with hbad | ⟨i, rfl, _⟩
  · rw [fd_posix_forward_bad s fd entry_r what hbad]
    exact hm
  · exact markedStep_kept (fd_posix_forward_markedStep s i entry_r what) hm

theorem close_kept (s : State σ) (fd : Int) (hm : s.callback_device_idx = -1) :
    (close s fd).2.callback_device_idx = -1 := by
  rcases BadFd_or_inUse s fd with hbad | ⟨i, rfl, _⟩
  · have h : close s fd = (-1, { s with errno := EBADF }) := by
      simp [close, fd_get_const_bad s fd hbad]
    rw [h]
    exact hm
  · exact markedStep_kept (close_markedStep s i) hm

theorem truncate_kept (s : State σ) (path : Option CStr) (len : Int)
    (hm : s.callback_device_idx = -1) :
    (truncate s path len).2.callback_device_idx = -1 := by
  cases path with
  | none => exact hm
  | some p =>
    have h1 := unmarkedStep_kept (sys_open_unmarkedStep s (some p) (O_WRONLY : Int)) hm
    have h2 := fd_posix_forward_kept (sys_open s (some p) (O_WRONLY : Int)).2
      (sys_open s (some p) (O_WRONLY : Int)).1
      (fun posix => posix.ftruncate_r.map (fun f device_fd => f device_fd len))
      (fun device_fd => Invoke.ftruncate_r device_fd len) h1
    have h3 := close_kept _ (sys_open s (some p) (O_WRONLY : Int)).1 h2
    simp only [truncate]
    split
    · exact h1
    · simp only [ftruncate]
      split
      · exact h3
      · split
        · exact h3
        · exact h3

end Marker2

section MarkerClaims
variable {σ : Type}

/-- C15 (amended): during every backend invocation made by a descriptor-based
forwarding call (`close`, `read`, `write`, `lseek`, `fstat`, `ftruncate`,
`fsync`, `fchmod`) and by `getcwd`, the callback marker equals the index of
the device the call resolved to (the device the descriptor is bound to, the
default device for `getcwd`), so that `GetDeviceDataByFd` called from inside
the backend returns the data of that device; the path-based calls (`open`,
`stat`, `lstat`, `link`, `unlink`, `chdir`, `rename`, `mkdir`, `statvfs`,
`chmod`, `rmdir`, `utimes`) invoke the backend with the marker left as it was
when the call was made. -/
theorem marker_during_backend_calls (s : State σ) :
    (∀ (i : Fin DEVOPTAB_MAX_FDS) (ptr : List Char) (buf len st mode : Nat)
        (pos dir tlen : Int),
      MarkedCalls s (close s (i.val : Int)).2 (s.fd_table i).device_idx ∧
      MarkedCalls s (read s (i.val : Int) buf len).2 (s.fd_table i).device_idx ∧
      MarkedCalls s (write s (i.val : Int) ptr len).2 (s.fd_table i).device_idx ∧
      MarkedCalls s (lseek s (i.val : Int) pos dir).2 (s.fd_table i).device_idx ∧
      MarkedCalls s (fstat s (i.val : Int) st).2 (s.fd_table i).device_idx ∧
      MarkedCalls s (ftruncate s (i.val : Int) tlen).2 (s.fd_table i).device_idx ∧
      MarkedCalls s (fsync s (i.val : Int)).2 (s.fd_table i).device_idx ∧
      MarkedCalls s (fchmod s (i.val : Int) mode).2 (s.fd_table i).device_idx) ∧
    (∀ buf size : Nat, MarkedCalls s (getcwd s buf size).2 s.defaultDevice) ∧
    (∀ (path other : Option CStr) (flags imode : Int) (st buf mode times : Nat),
      UnmarkedCalls s (sys_open s path flags).2 ∧
      UnmarkedCalls s (stat s path st).2 ∧
      UnmarkedCalls s (lstat s path st).2 ∧
      UnmarkedCalls s (link s path other).2 ∧
      UnmarkedCalls s (unlink s path).2 ∧
      UnmarkedCalls s (chdir s path).2 ∧
      UnmarkedCalls s (rename s path other).2 ∧
      UnmarkedCalls s (mkdir s path imode).2 ∧
      UnmarkedCalls s (statvfs s path buf).2 ∧
      UnmarkedCalls s (chmod s path mode).2 ∧
      UnmarkedCalls s (rmdir s path).2 ∧
      UnmarkedCalls s (utimes s path times).2) := by
  refine ⟨fun i ptr buf len st mode pos dir tlen => ?_, fun buf size => ?_,
    fun path other flags imode st buf mode times => ?_⟩
  · exact ⟨markedStep_calls (close_markedStep s i),
      markedStep_calls (fd_forward_markedStep s i _ _),
      markedStep_calls (fd_forward_markedStep s i _ _),
      markedStep_calls (fd_forward_markedStep s i _ _),
      markedStep_calls (fd_posix_forward_markedStep s i _ _),
      markedStep_calls (fd_posix_forward_markedStep s i _ _),
      markedStep_calls (fd_posix_forward_markedStep s i _ _),
      markedStep_calls (fd_posix_forward_markedStep s i _ _)⟩
  · exact markedStep_calls (getcwd_markedStep s buf size)
  · exact ⟨unmarkedStep_calls (sys_open_unmarkedStep s path flags),
      unmarkedStep_calls (path_posix_forward_unmarkedStep s path _ _),
      unmarkedStep_calls (path_posix_forward_unmarkedStep s path _ _),
      unmarkedStep_calls (link_unmarkedStep s path other),
      unmarkedStep_calls (path_posix_forward_unmarkedStep s path _ _),
      unmarkedStep_calls (chdir_unmarkedStep s path),
      unmarkedStep_calls (rename_unmarkedStep s path other),
      unmarkedStep_calls (path_posix_forward_unmarkedStep s path _ _),
      unmarkedStep_calls (path_posix_forward_unmarkedStep s path _ _),
      unmarkedStep_calls (path_posix_forward_unmarkedStep s path _ _),
      unmarkedStep_calls (path_posix_forward_unmarkedStep s path _ _),
      unmarkedStep_calls (path_posix_forward_unmarkedStep s path _ _)⟩

/-- Counterexample to C15 as stated: `open` of `sd:/f` in `twoDrives` resolves
to device 4 and invokes its open entry while the callback marker is `-1`. -/
theorem sys_open_marker_unset :
    twoDrives.trace = [] ∧
    FindDevice twoDrives (some "sd:/f".toList) = 4 ∧
    (sys_open twoDrives (some "sd:/f".toList) 0).2.trace
      = [{ device_idx := 4, marker := -1,
           what := Invoke.open_r (some "sd:/f".toList) 0 }] := by
  decide

/-- C16: if the callback marker is `-1` when a dispatcher entry point is
called, it is `-1` again when the call returns, whatever the arguments and
whatever path the call takes. -/
theorem marker_restored (s : State σ) (hm : s.callback_device_idx = -1) :
    (∀ (path other : Option CStr) (flags imode tlen : Int)
        (st buf mode times : Nat),
      (sys_open s path flags).2.callback_device_idx = -1 ∧
      (stat s path st).2.callback_device_idx = -1 ∧
      (link s path other).2.callback_device_idx = -1 ∧
      (unlink s path).2.callback_device_idx = -1 ∧
      (chdir s path).2.callback_device_idx = -1 ∧
      (rename s path other).2.callback_device_idx = -1 ∧
      (mkdir s path imode).2.callback_device_idx = -1 ∧
      (statvfs s path buf).2.callback_device_idx = -1 ∧
      (chmod s path mode).2.callback_device_idx = -1 ∧
      (rmdir s path).2.callback_device_idx = -1 ∧
      (lstat s path st).2.callback_device_idx = -1 ∧
      (utimes s path times).2.callback_device_idx = -1 ∧
      (truncate s path tlen).2.callback_device_idx = -1) ∧
    (∀ (fd : Int) (ptr : List Char) (buf len st mode : Nat) (pos dir tlen : Int),
      (close s fd).2.callback_device_idx = -1 ∧
      (read s fd buf len).2.callback_device_idx = -1 ∧
      (write s fd ptr len).2.callback_device_idx = -1 ∧
      (lseek s fd pos dir).2.callback_device_idx = -1 ∧
      (fstat s fd st).2.callback_device_idx = -1 ∧
      (ftruncate s fd tlen).2.callback_device_idx = -1 ∧
      (fsync s fd).2.callback_device_idx = -1 ∧
      (fchmod s fd mode).2.callback_device_idx = -1) ∧
    (∀ buf size : Nat,
      (getcwd s buf size).2.callback_device_idx = -1 ∧
      (getwd s buf).2.callback_device_idx = -1 ∧
      (get_current_dir_name s).2.callback_device_idx = -1) := by
  refine ⟨fun path other flags imode tlen st buf mode times => ?_,
    fun fd ptr buf len st mode pos dir tlen => ?_, fun buf size => ?_⟩
  · exact ⟨unmarkedStep_kept (sys_open_unmarkedStep s path flags) hm,
      unmarkedStep_kept (path_posix_forward_unmarkedStep s path _ _) hm,
      unmarkedStep_kept (link_unmarkedStep s path other) hm,
      unmarkedStep_kept (path_posix_forward_unmarkedStep s path _ _) hm,
      unmarkedStep_kept (chdir_unmarkedStep s path) hm,
      unmarkedStep_kept (rename_unmarkedStep s path other) hm,
      unmarkedStep_kept (path_posix_forward_unmarkedStep s path _ _) hm,
      unmarkedStep_kept (path_posix_forward_unmarkedStep s path _ _) hm,
      unmarkedStep_kept (path_posix_forward_unmarkedStep s path _ _) hm,
      unmarkedStep_kept (path_posix_forward_unmarkedStep s path _ _) hm,
      unmarkedStep_kept (path_posix_forward_unmarkedStep s path _ _) hm,
      unmarkedStep_kept (path_posix_forward_unmarkedStep s path _ _) hm,
      truncate_kept s path tlen hm⟩
  · exact ⟨close_kept s fd hm, fd_forward_kept s fd _ _ hm, fd_forward_kept s fd _ _ hm,
      fd_forward_kept s fd _ _ hm, fd_posix_forward_kept s fd _ _ hm,
      fd_posix_forward_kept s fd _ _ hm, fd_posix_forward_kept s fd _ _ hm,
      fd_posix_forward_kept s fd _ _ hm⟩
  · exact ⟨markedStep_kept (getcwd_markedStep s buf size) hm, markedStep_kept (getwd_markedStep s buf) hm,
      markedStep_kept (get_current_dir_name_markedStep s) hm⟩

/-- Witness of C16: the marker of `fullTable` is `-1`; it is `-1` after a
`close` that reaches the backend and after a `getcwd`. -/
theorem marker_restored_witness :
    fullTable.callback_device_idx = -1 ∧
    ((close fullTable 5).2.callback_device_idx = -1 ∧
     (getcwd fullTable 0 64).2.callback_device_idx = -1) :=
  have h := marker_restored fullTable rfl
  ⟨rfl, (h.2.1 5 [] 0 0 0 0 0 0 0).1, (h.2.2 0 64).1⟩

end MarkerClaims

section NitroOpen
variable {σ : Type}

theorem land_natCast_nonneg (x : Int) (m : Nat) : ∃ n : Nat, Int.land x (m : Int) = (n : Int) := by
  cases x with
  | ofNat a => exact ⟨Nat.land a m, rfl⟩
  | negSucc a => exact ⟨Nat.ldiff m a, rfl⟩

/-- The test `(x & m) != 0` holds exactly when `x` and `m` share a bit. -/
theorem land_ne_zero_iff (x : Int) (m : Nat) :
    Int.land x (m : Int) ≠ 0 ↔ ∃ k : Nat, Int.testBit x k = true ∧ Nat.testBit m k = true := by
  obtain ⟨n, hn⟩ := land_natCast_nonneg x m
  have hbit : ∀ k : Nat, Nat.testBit n k = (Int.testBit x k && Nat.testBit m k) := by
    intro k
    have h := Int.testBit_land x (m : Int) k
    rw [hn] at h
    exact h
  rw [hn]
  constructor
  · intro hne
    have hn0 : n ≠ 0 := fun e => hne (by simp [e])
    obtain ⟨k, hk⟩ := Nat.ne_zero_implies_bit_true hn0
    rw [hbit k, Bool.and_eq_true] at hk
    exact ⟨k, hk⟩
  · rintro ⟨k, h1, h2⟩ h0
    have hn0 : n = 0 := by exact_mod_cast h0
    have := hbit k
    rw [hn0, h1, h2] at this
    simp at this

/-- The mask test of `nitro_open` holds exactly when one of the five flag bits
is set. -/
theorem nitro_open.mask_iff (flags : Int) :
    Int.land flags (nitro_open.mask : Int) ≠ 0 ↔
      (Int.land flags (O_WRONLY : Int) ≠ 0 ∨ Int.land flags (O_RDWR : Int) ≠ 0 ∨
       Int.land flags (O_CREAT : Int) ≠ 0 ∨ Int.land flags (O_TRUNC : Int) ≠ 0 ∨
       Int.land flags (O_APPEND : Int) ≠ 0) := by
  simp only [land_ne_zero_iff, nitro_open.mask, Nat.testBit_or, Bool.or_eq_true]
  constructor
  · rintro ⟨k, hk, ((((h | h) | h) | h) | h)⟩
    · exact Or.inl ⟨k, hk, h⟩
    · exact Or.inr (Or.inl ⟨k, hk, h⟩)
    · exact Or.inr (Or.inr (Or.inl ⟨k, hk, h⟩))
    · exact Or.inr (Or.inr (Or.inr (Or.inl ⟨k, hk, h⟩)))
    · exact Or.inr (Or.inr (Or.inr (Or.inr ⟨k, hk, h⟩)))
  · rintro (⟨k, hk, h⟩ | ⟨k, hk, h⟩ | ⟨k, hk, h⟩ | ⟨k, hk, h⟩ | ⟨k, hk, h⟩)
    · exact ⟨k, hk, Or.inl (Or.inl (Or.inl (Or.inl h)))⟩
    · exact ⟨k, hk, Or.inl (Or.inl (Or.inl (Or.inr h)))⟩
    · exact ⟨k, hk, Or.inl (Or.inl (Or.inr h))⟩
    · exact ⟨k, hk, Or.inl (Or.inr h)⟩
    · exact ⟨k, hk, Or.inr h⟩

/-- C20: on a non-null path, `nitro_open` returns `-1` with `EROFS`, whatever
the image library is (it is not called), when at least one of the write-only,
read-write, create, truncate or append flag bits is set, and otherwise it
returns exactly what the image library's open returns for that path (so that
the rejection happens if and only if one of the bits is set); a null path
fails with `EINVAL` before the flags are looked at. -/
theorem nitro_open_contract (lib : NitroLib σ) (path : CStr) (flags : Int)
    (w : World σ) :
    ((Int.land flags (O_WRONLY : Int) ≠ 0 ∨ Int.land flags (O_RDWR : Int) ≠ 0 ∨
      Int.land flags (O_CREAT : Int) ≠ 0 ∨ Int.land flags (O_TRUNC : Int) ≠ 0 ∨
      Int.land flags (O_APPEND : Int) ≠ 0) →
      ∀ lib' : NitroLib σ,
        nitro_open lib' (some path) flags w = (-1, { w with errno := EROFS })) ∧
    (¬ (Int.land flags (O_WRONLY : Int) ≠ 0 ∨ Int.land flags (O_RDWR : Int) ≠ 0 ∨
      Int.land flags (O_CREAT : Int) ≠ 0 ∨ Int.land flags (O_TRUNC : Int) ≠ 0 ∨
      Int.land flags (O_APPEND : Int) ≠ 0) →
      nitro_open lib (some path) flags w = lib.nitrofs_open path w) ∧
    (∀ lib' : NitroLib σ,
      nitro_open lib' none flags w = (-1, { w with errno := EINVAL })) := by
  refine ⟨fun h lib' => ?_, fun h => ?_, fun lib' => rfl⟩
  · have hm := (nitro_open.mask_iff flags).2 h
    simp only [nitro_open]
    rw [if_pos hm]
  · have hm : ¬ Int.land flags (nitro_open.mask : Int) ≠ 0 :=
      fun hc => h ((nitro_open.mask_iff flags).1 hc)
    simp only [nitro_open]
    rw [if_neg hm]

/-- Witness of C20: the flags `O_CREAT | O_WRONLY` are rejected, the flags 0
(read-only) go to the library. -/
theorem nitro_open_contract_witness :
    ((Int.land 0x201 (O_WRONLY : Int) ≠ 0 ∨ Int.land 0x201 (O_RDWR : Int) ≠ 0 ∨
      Int.land 0x201 (O_CREAT : Int) ≠ 0 ∨ Int.land 0x201 (O_TRUNC : Int) ≠ 0 ∨
      Int.land 0x201 (O_APPEND : Int) ≠ 0) ∧
     ¬ (Int.land 0 (O_WRONLY : Int) ≠ 0 ∨ Int.land 0 (O_RDWR : Int) ≠ 0 ∨
      Int.land 0 (O_CREAT : Int) ≠ 0 ∨ Int.land 0 (O_TRUNC : Int) ≠ 0 ∨
      Int.land 0 (O_APPEND : Int) ≠ 0)) ∧
    (nitro_open nitroLib0 (some "nitro:/f".toList) 0x201 { errno := 0, ext := () }
        = (-1, { errno := EROFS, ext := () }) ∧
     nitro_open nitroLib0 (some "nitro:/f".toList) 0 { errno := 0, ext := () }
        = nitroLib0.nitrofs_open "nitro:/f".toList { errno := 0, ext := () }) :=
  ⟨⟨by decide, by decide⟩,
   (nitro_open_contract nitroLib0 "nitro:/f".toList 0x201 { errno := 0, ext := () }).1
      (by decide) nitroLib0,
   (nitro_open_contract nitroLib0 "nitro:/f".toList 0 { errno := 0, ext := () }).2.1
      (by decide)⟩

end NitroOpen

section NitroReadOnly
variable {σ : Type}

theorem path_isSome_of_resolved (s : State σ) (path : Option CStr)
    (dev : devoptab_posix_t σ) (h : GetDevice s (FindDevice s path) = some dev) :
    ∃ p : CStr, path = some p := by
  cases path with
  | none =>
    rw [GetDevice_neg s _ (by simp [FindDevice])] at h
    exact absurd h (by simp)
  | some p => exact ⟨p, rfl⟩

/-- The result of `open` for writing on a path that resolves to the ROM-image
device while a descriptor is free: `-1`, `errno` set to `EROFS` by
`nitro_open`, one record in the trace, nothing else changed. -/
theorem sys_open_nitro_wronly (s : State σ) (lib : NitroLib σ) (path : Option CStr)
    (hdev : GetDevice s (FindDevice s path) = some (dot_nitrofs lib))
    (hfree : ∃ j : Fin DEVOPTAB_MAX_FDS, 3 ≤ j.val ∧ (s.fd_table j).used = false) :
    sys_open s path (O_WRONLY : Int) = (-1, { s with
      errno := EROFS
      trace := s.trace ++ [{ device_idx := FindDevice s path
                             marker := s.callback_device_idx
                             what := Invoke.open_r path (O_WRONLY : Int) }] }) := by
  obtain ⟨p, rfl⟩ := path_isSome_of_resolved s path _ hdev
  have hmask : Int.land (O_WRONLY : Int) (nitro_open.mask : Int) ≠ 0 := by decide
  have hopen : ∀ w : World σ, nitro_open lib (some p) (O_WRONLY : Int) w
      = (-1, { w with errno := EROFS }) := by
    intro w
    simp only [nitro_open]
    rw [if_pos hmask]
  rcases sys_open_resolved s (some p) (O_WRONLY : Int) (dot_nitrofs lib) (nitro_open lib)
      hdev rfl with ⟨_, hall⟩ | ⟨fd, _, _, _, h⟩
  · obtain ⟨j, hj, hu⟩ := hfree
    rw [hall j hj] at hu
    exact absurd hu (by simp)
  · rw [h, hopen]
    simp [State.world]

/-- C19 (amended): the entry points `nitro_write`, `nitro_link`,
`nitro_unlink`, `nitro_rename`, `nitro_mkdir`, `nitro_ftruncate`,
`nitro_chmod`, `nitro_fchmod`, `nitro_rmdir` and `nitro_utimes` return `-1`
with `errno` set to `EROFS` for every argument and call no function of the
image library (they do not depend on it and leave the external state as it
is); through the dispatcher, on a descriptor or on paths that resolve to the
registered ROM-image device, `write`, `unlink`, `mkdir`, `chmod`, `rename` and
`utimes` fail with `EROFS`, and so does `truncate` when a descriptor from 3 on
is free for its internal `open`. -/
theorem nitro_read_only (lib : NitroLib σ) (s : State σ) :
    (∀ (w : World σ) (fd len : Int) (ptr : List Char) (n mode times : Nat)
        (p q : Option CStr) (imode : Int),
      nitro_write fd ptr n w = (-1, { w with errno := EROFS }) ∧
      nitro_link p q w = (-1, { w with errno := EROFS }) ∧
      nitro_unlink p w = (-1, { w with errno := EROFS }) ∧
      nitro_rename p q w = (-1, { w with errno := EROFS }) ∧
      nitro_mkdir p imode w = (-1, { w with errno := EROFS }) ∧
      nitro_ftruncate fd len w = (-1, { w with errno := EROFS }) ∧
      nitro_chmod p mode w = (-1, { w with errno := EROFS }) ∧
      nitro_fchmod fd mode w = (-1, { w with errno := EROFS }) ∧
      nitro_rmdir p w = (-1, { w with errno := EROFS }) ∧
      nitro_utimes p times w = (-1, { w with errno := EROFS })) ∧
    (∀ (i : Fin DEVOPTAB_MAX_FDS) (ptr : List Char) (n : Nat),
      (s.fd_table i).used = true →
      GetDevice s (s.fd_table i).device_idx = some (dot_nitrofs lib) →
      (write s (i.val : Int) ptr n).1 = -1 ∧
      (write s (i.val : Int) ptr n).2.errno = EROFS ∧
      (write s (i.val : Int) ptr n).2.ext = s.ext) ∧
    (∀ (path other : Option CStr) (imode tlen : Int) (mode times : Nat),
      GetDevice s (FindDevice s path) = some (dot_nitrofs lib) →
      ((unlink s path).1 = -1 ∧ (unlink s path).2.errno = EROFS ∧
        (unlink s path).2.ext = s.ext) ∧
      ((mkdir s path imode).1 = -1 ∧ (mkdir s path imode).2.errno = EROFS ∧
        (mkdir s path imode).2.ext = s.ext) ∧
      ((chmod s path mode).1 = -1 ∧ (chmod s path mode).2.errno = EROFS ∧
        (chmod s path mode).2.ext = s.ext) ∧
      ((utimes s path times).1 = -1 ∧ (utimes s path times).2.errno = EROFS ∧
        (utimes s path times).2.ext = s.ext) ∧
      (FindDevice s other = FindDevice s path →
        (rename s path other).1 = -1 ∧ (rename s path other).2.errno = EROFS ∧
        (rename s path other).2.ext = s.ext) ∧
      ((∃ j : Fin DEVOPTAB_MAX_FDS, 3 ≤ j.val ∧ (s.fd_table j).used = false) →
        (truncate s path tlen).1 = -1 ∧ (truncate s path tlen).2.errno = EROFS ∧
        (truncate s path tlen).2.ext = s.ext ∧
        (truncate s path tlen).2.fd_table = s.fd_table)) := by
  have hflag : Nat.land (dot_nitrofs lib).dot.flags DEVOPTAB_IS_POSIX ≠ 0 := by
    show Nat.land 1 1 ≠ 0
    decide
  refine ⟨fun w fd len ptr n mode times p q imode =>
      ⟨rfl, rfl, rfl, rfl, rfl, rfl, rfl, rfl, rfl, rfl⟩, ?_, ?_⟩
  · intro i ptr n hused hdev
    have hw : write s (i.val : Int) ptr n = (-1, { s with
        callback_device_idx := -1
        errno := EROFS
        trace := s.trace ++ [{ device_idx := (s.fd_table i).device_idx
                               marker := (s.fd_table i).device_idx
                               what := Invoke.write_r (s.fd_table i).device_fd ptr n }] }) :=
      fd_forward_call s i _ _ (dot_nitrofs lib)
        (fun device_fd => nitro_write device_fd ptr n) hused hdev rfl
    rw [hw]
    exact ⟨rfl, rfl, rfl⟩
  · intro path other imode tlen mode times hdev
    refine ⟨?_, ?_, ?_, ?_, ?_, ?_⟩
    · have hw : unlink s path = (-1, { s with
          errno := EROFS
          trace := s.trace ++ [{ device_idx := FindDevice s path
                                 marker := s.callback_device_idx
                                 what := Invoke.unlink_r path }] }) :=
        path_posix_forward_call s path _ _ (dot_nitrofs lib)
          (nitro_unlink path) hdev hflag rfl
      rw [hw]
      exact ⟨rfl, rfl, rfl⟩
    · have hw : mkdir s path imode = (-1, { s with
          errno := EROFS
          trace := s.trace ++ [{ device_idx := FindDevice s path
                                 marker := s.callback_device_idx
                                 what := Invoke.mkdir_r path imode }] }) :=
        path_posix_forward_call s path _ _ (dot_nitrofs lib)
          (nitro_mkdir path imode) hdev hflag rfl
      rw [hw]
      exact ⟨rfl, rfl, rfl⟩
    · have hw : chmod s path mode = (-1, { s with
          errno := EROFS
          trace := s.trace ++ [{ device_idx := FindDevice s path
                                 marker := s.callback_device_idx
                                 what := Invoke.chmod_r path mode }] }) :=
        path_posix_forward_call s path _ _ (dot_nitrofs lib)
          (nitro_chmod path mode) hdev hflag rfl
      rw [hw]
      exact ⟨rfl, rfl, rfl⟩
    · have hw : utimes s path times = (-1, { s with
          errno := EROFS
          trace := s.trace ++ [{ device_idx := FindDevice s path
                                 marker := s.callback_device_idx
                                 what := Invoke.utimes_r path times }] }) :=
        path_posix_forward_call s path _ _ (dot_nitrofs lib)
          (nitro_utimes path times) hdev hflag rfl
      rw [hw]
      exact ⟨rfl, rfl, rfl⟩
    · intro hsame
      have hdev2 : GetDevice s (FindDevice s other) = some (dot_nitrofs lib) := by
        rw [hsame]
        exact hdev
      have hw : rename s path other = ((nitro_rename path other s.world).1, { s with
          errno := (nitro_rename path other s.world).2.errno
          ext := (nitro_rename path other s.world).2.ext
          trace := s.trace ++ [{ device_idx := FindDevice s other
                                 marker := s.callback_device_idx
                                 what := Invoke.rename_r path other }] }) := by
        simp only [rename, path_get_device_resolved s path _ hdev,
          path_get_device_resolved s other _ hdev2, hsame, ne_eq, not_true_eq_false,
          if_false, as_posix_device_flag s _ hflag, State.invoke]
        rfl
      rw [hw]
      exact ⟨rfl, rfl, rfl⟩
    · intro hfree
      obtain ⟨p, hp⟩ := path_isSome_of_resolved s path _ hdev
      have ho := sys_open_nitro_wronly s lib path hdev hfree
      subst hp
      simp only [truncate, ho]
      exact ⟨rfl, rfl, rfl, rfl⟩

/-- Witness of C19 (amended): in `nitroState` descriptor 3 and the path
`nitro:/f` resolve to the ROM-image device and descriptor 4 is free. -/
theorem nitro_read_only_witness :
    ((nitroState.fd_table 3).used = true ∧
     GetDevice nitroState (nitroState.fd_table 3).device_idx
        = some (dot_nitrofs nitroLib0) ∧
     GetDevice nitroState (FindDevice nitroState (some "nitro:/f".toList))
        = some (dot_nitrofs nitroLib0) ∧
     (∃ j : Fin DEVOPTAB_MAX_FDS, 3 ≤ j.val ∧ (nitroState.fd_table j).used = false)) ∧
    ((write nitroState 3 "x".toList 1).1 = -1 ∧
     (write nitroState 3 "x".toList 1).2.errno = EROFS ∧
     (unlink nitroState (some "nitro:/f".toList)).2.errno = EROFS ∧
     (truncate nitroState (some "nitro:/f".toList) 0).1 = -1 ∧
     (truncate nitroState (some "nitro:/f".toList) 0).2.errno = EROFS) :=
  have hfree : ∃ j : Fin DEVOPTAB_MAX_FDS, 3 ≤ j.val ∧ (nitroState.fd_table j).used = false :=
    ⟨4, by decide, by decide⟩
  have h := nitro_read_only nitroLib0 nitroState
  have hp := h.2.2 (some "nitro:/f".toList) none 0 0 0 0 rfl
  ⟨⟨rfl, rfl, rfl, hfree⟩,
   (h.2.1 3 "x".toList 1 rfl rfl).1, (h.2.1 3 "x".toList 1 rfl rfl).2.1,
   hp.1.2.1, (hp.2.2.2.2.2 hfree).1, (hp.2.2.2.2.2 hfree).2.1⟩

/-- Counterexample to C19 as stated: in `nitroFull` the path `nitro:/f`
resolves to the ROM-image device and every descriptor is in use; `truncate`
fails with `ENFILE`, not `EROFS`, because its internal `open` finds no free
descriptor before the backend is reached. -/
theorem truncate_nitro_full_table :
    GetDevice nitroFull (FindDevice nitroFull (some "nitro:/f".toList))
      = some (dot_nitrofs nitroLib0) ∧
    truncate nitroFull (some "nitro:/f".toList) 0
      = (-1, { nitroFull with errno := ENFILE }) ∧
    ENFILE ≠ EROFS := by
  have hall : ∀ i : Fin DEVOPTAB_MAX_FDS, 3 ≤ i.val →
      (nitroFull.fd_table i).used = true := fun i _ => by
    by_cases hi : i.val < 3 <;> simp [nitroFull, hi]
  have ho := sys_open_full nitroFull (some "nitro:/f".toList) (O_WRONLY : Int)
    (dot_nitrofs nitroLib0) (nitro_open nitroLib0) hall rfl rfl
  refine ⟨rfl, ?_, by decide⟩
  simp only [truncate, ho]
  rfl

end NitroReadOnly

section Truncate
variable {σ : Type}

/-- C18: when the internal `open(path, O_WRONLY)` of `truncate` succeeds: if
`ftruncate` fails, `truncate` returns the negative result of `ftruncate` and
`errno` is the value it had when `ftruncate` returned, whatever `close` did
to it afterwards; if `ftruncate` returns 0 and `close` fails, `truncate`
returns `-1` with `errno` as `close` left it; if `ftruncate` returns 0 and
`close` does not fail, it returns 0.  When the internal `open` fails,
`truncate` returns `-1` in the very state `open` left, so that neither
`ftruncate` nor `close` has run; a null path fails with `EINVAL`. -/
theorem truncate_error_composition (s : State σ) (path : CStr) (len : Int) :
    (0 ≤ (truncate.opened s (some path)).1 →
      ((truncate.truncated s (some path) len).1 < 0 →
        truncate s (some path) len =
          ((truncate.truncated s (some path) len).1,
           { (truncate.closed s (some path) len).2 with
             errno := (truncate.truncated s (some path) len).2.errno })) ∧
      ((truncate.truncated s (some path) len).1 = 0 →
        (truncate.closed s (some path) len).1 < 0 →
        truncate s (some path) len = (-1, (truncate.closed s (some path) len).2)) ∧
      ((truncate.truncated s (some path) len).1 = 0 →
        0 ≤ (truncate.closed s (some path) len).1 →
        truncate s (some path) len = (0, (truncate.closed s (some path) len).2))) ∧
    ((truncate.opened s (some path)).1 < 0 →
      truncate s (some path) len = (-1, (truncate.opened s (some path)).2)) ∧
    truncate s none len = (-1, { s with errno := EINVAL }) := by
  refine ⟨fun hopen => ⟨fun htr => ?_, fun htr hcl => ?_, fun htr hcl => ?_⟩,
    fun hopen => ?_, rfl⟩
  · have h1 : ¬ (sys_open s (some path) (O_WRONLY : Int)).1 < 0 := by
      have := hopen
      simp only [truncate.opened] at this
      omega
    have h2 : ¬ ((truncate.truncated s (some path) len).1 = 0 ∧
        (truncate.closed s (some path) len).1 < 0) := by
      intro hc
      omega
    simp only [truncate.truncated, truncate.closed, truncate.opened] at htr h2 ⊢
    simp only [truncate, h1, if_false, h2, htr, if_true]
  · have h1 : ¬ (sys_open s (some path) (O_WRONLY : Int)).1 < 0 := by
      have := hopen
      simp only [truncate.opened] at this
      omega
    simp only [truncate.truncated, truncate.closed, truncate.opened] at htr hcl ⊢
    simp only [truncate, h1, if_false, htr, hcl, and_self, if_true]
  · have h1 : ¬ (sys_open s (some path) (O_WRONLY : Int)).1 < 0 := by
      have := hopen
      simp only [truncate.opened] at this
      omega
    have h2 : ¬ (truncate.closed s (some path) len).1 < 0 := by omega
    simp only [truncate.truncated, truncate.closed, truncate.opened] at htr h2 ⊢
    simp only [truncate, h1, if_false, htr, h2, and_false, lt_self_iff_false]
  · simp only [truncate.opened] at hopen ⊢
    simp only [truncate, hopen, if_true]

/-- Witness of C18: on `truncDev`, `truncate` to a negative length meets a
failing `ftruncate` (errno 22) and then a failing `close` (errno 9) and
reports `-1` with errno 22; to length 10 it meets only the failing `close`
and reports `-1` with errno 9. -/
theorem truncate_error_composition_witness :
    (0 ≤ (truncate.opened truncState (some "t:/f".toList)).1 ∧
     (truncate.truncated truncState (some "t:/f".toList) (-5)).1 < 0 ∧
     (truncate.closed truncState (some "t:/f".toList) (-5)).2.errno = 9 ∧
     (truncate.truncated truncState (some "t:/f".toList) 10).1 = 0 ∧
     (truncate.closed truncState (some "t:/f".toList) 10).1 < 0) ∧
    ((truncate truncState (some "t:/f".toList) (-5)).1 = -1 ∧
     (truncate truncState (some "t:/f".toList) (-5)).2.errno = 22 ∧
     (truncate truncState (some "t:/f".toList) 10).1 = -1 ∧
     (truncate truncState (some "t:/f".toList) 10).2.errno = 9) :=
  have h5 := (truncate_error_composition truncState "t:/f".toList (-5)).1 (by decide!)
  have h10 := (truncate_error_composition truncState "t:/f".toList 10).1 (by decide!)
  ⟨⟨by decide!, by decide!, by decide!, by decide!, by decide!⟩,
   by rw [h5.1 (by decide!)]; decide!,
   by rw [h5.1 (by decide!)]; decide!,
   by rw [h10.2.1 (by decide!) (by decide!)],
   by rw [h10.2.1 (by decide!) (by decide!)]; decide!⟩

end Truncate

section Reserved

variable {σ : Type}

/-- The value `RemoveDevice` computes once `FindDevice` has given the index of
a slot: that slot is cleared, and the default device with it when it was the
default. -/
theorem RemoveDevice_of_slot (s : State σ) (name : Option CStr) (i : Fin MAX_DEVICES)
    (h : FindDevice s name = (i.val : Int)) :
    (RemoveDevice s name).1 = 0 ∧
    (RemoveDevice s name).2.devoptab_list = Function.update s.devoptab_list i none ∧
    (RemoveDevice s name).2.defaultDevice
      = if s.defaultDevice = (i.val : Int) then -1 else s.defaultDevice := by
  have hnn : ¬ ((i.val : Int) < 0) := by omega
  simp only [RemoveDevice, h, hnn, if_false, slot?_val]
  by_cases hd : s.defaultDevice = (i.val : Int) <;> simp [hd]

/-- When `FindDevice` gives a negative index `RemoveDevice` changes nothing. -/
theorem RemoveDevice_of_neg (s : State σ) (name : Option CStr)
    (h : FindDevice s name < 0) : RemoveDevice s name = (-1, s) := by
  simp [RemoveDevice, h]

/-- No call of `AddDevice` stores into one of the slots 0, 1 and 2. -/
theorem AddDevice_reserved (s : State σ) (device : Option (devoptab_posix_t σ))
    (i : Fin MAX_DEVICES) (hi : i.val < 3) :
    (AddDevice s device).2.devoptab_list i = s.devoptab_list i := by
  cases device with
  | none => rfl
  | some d =>
    cases hn : d.dot.name with
    | none => simp [AddDevice, hn]
    | some name =>
      rcases AddDevice_cases s d name hn with ⟨h, _⟩ | ⟨idx, h3, _, _, h⟩
      · rw [h]
      · rw [h]
        have hne : i ≠ idx := fun e => by rw [e] at hi; omega
        simp [Function.update_noteq hne]

/-- A call of `RemoveDevice` leaves each slot as it was or empty. -/
theorem RemoveDevice_slot (s : State σ) (name : Option CStr) (i : Fin MAX_DEVICES) :
    (RemoveDevice s name).2.devoptab_list i = s.devoptab_list i ∨
    (RemoveDevice s name).2.devoptab_list i = none := by
  unfold RemoveDevice
  by_cases hneg : FindDevice s name < 0
  · simp [hneg]
  · simp only [hneg, if_false]
    cases hs : slot? MAX_DEVICES (FindDevice s name) with
    | none => split <;> simp
    | some k =>
      by_cases hk : i = k
      · right
        subst hk
        split <;> simp
      · left
        split <;> simp [Function.update_noteq hk]

theorem SetDefaultDevice_registry (s : State σ) (index : Int) :
    (SetDefaultDevice s index).2.devoptab_list = s.devoptab_list := by
  unfold SetDefaultDevice
  cases slot? MAX_DEVICES index with
  | none => rfl
  | some i => cases hl : s.devoptab_list i <;> simp [hl]

/-- C29 (amended): in every registry state reachable from the initial state by
calls of `AddDevice`, `RemoveDevice` and `SetDefaultDevice`, each of the slots
0, 1 and 2 holds the null descriptor or is empty, and no call of `AddDevice`
stores into it. -/
theorem reserved_slots_null_or_empty (s : State σ) (h : Reachable s)
    (i : Fin MAX_DEVICES) (hi : i.val < 3) :
    (s.devoptab_list i = some dot_null ∨ s.devoptab_list i = none) ∧
    ∀ device : Option (devoptab_posix_t σ),
      (AddDevice s device).2.devoptab_list i = s.devoptab_list i := by
  refine ⟨?_, fun device => AddDevice_reserved s device i hi⟩
  induction h with
  | initial ext => left; simp [State.initial, hi]
  | add s device _ ih => rw [AddDevice_reserved s device i hi]; exact ih
  | remove s name _ ih =>
    rcases RemoveDevice_slot s name i with h | h
    · rw [h]; exact ih
    · exact Or.inr h
  | setDefault s index _ ih => rw [SetDefaultDevice_registry]; exact ih

/-- Witness of C29 (amended): slot 0 of the initial state. -/
theorem reserved_slots_null_or_empty_witness :
    ((State.initial ()).devoptab_list 0 = some dot_null ∨
      (State.initial ()).devoptab_list 0 = none) ∧
    ∀ device : Option (devoptab_posix_t Unit),
      (AddDevice (State.initial ()) device).2.devoptab_list 0
        = (State.initial ()).devoptab_list 0 :=
  reserved_slots_null_or_empty (State.initial ()) (Reachable.initial ()) 0 (by decide)

/-- Counterexample to C29 as stated: from the initial state the call
`RemoveDevice("null:")` returns 0 and leaves slot 0 empty, so that a reachable
state has a reserved slot that does not hold the null descriptor. -/
theorem RemoveDevice_vacates_reserved :
    Reachable (RemoveDevice (State.initial ()) (some "null:".toList)).2 ∧
    (RemoveDevice (State.initial ()) (some "null:".toList)).1 = 0 ∧
    (RemoveDevice (State.initial ()) (some "null:".toList)).2.devoptab_list 0 = none ∧
    (RemoveDevice (State.initial ()) (some "null:".toList)).2.devoptab_list 0
      ≠ some dot_null := by
  have hf : FindDevice (State.initial ()) (some "null:".toList) = ((0 : Fin MAX_DEVICES).val : Int) := by
    decide
  obtain ⟨h1, h2, _⟩ := RemoveDevice_of_slot (State.initial ()) (some "null:".toList) 0 hf
  have h0 : (RemoveDevice (State.initial ()) (some "null:".toList)).2.devoptab_list 0 = none := by
    rw [h2]; simp
  refine ⟨Reachable.remove _ _ (Reachable.initial ()), h1, h0, ?_⟩
  rw [h0]; simp

end Reserved

section Remove

variable {σ : Type}

/-- C30 (amended): for every registry state and every name that contains a
colon, `RemoveDevice` returns 0 only if some slot holds a device whose name is
the text of the name before its first colon, the slot it clears is such a
slot, and it returns -1 and changes nothing when no registered device has that
name.  A name without a colon stands for the default device: `RemoveDevice`
returns -1 when there is none, and otherwise returns 0 and clears the slot of
the default device, whatever its name. -/
theorem RemoveDevice_by_name (s : State σ) (name : CStr) :
    (':' ∈ name →
      ((RemoveDevice s (some name)).1 = 0 →
        ∃ i : Fin MAX_DEVICES, slotName s i = some (before ':' name) ∧
          (RemoveDevice s (some name)).2.devoptab_list
            = Function.update s.devoptab_list i none) ∧
      ((∀ j : Fin MAX_DEVICES, slotName s j ≠ some (before ':' name)) →
        RemoveDevice s (some name) = (-1, s))) ∧
    (':' ∉ name →
      (s.defaultDevice < 0 → RemoveDevice s (some name) = (-1, s)) ∧
      (∀ i : Fin MAX_DEVICES, s.defaultDevice = (i.val : Int) →
        (RemoveDevice s (some name)).1 = 0 ∧
        (RemoveDevice s (some name)).2.devoptab_list
          = Function.update s.devoptab_list i none)) := by
  constructor
  · intro hc
    rcases FindDevice_of_sep s name hc with ⟨i, hi, hn, _⟩ | ⟨hneg, hno⟩
    · obtain ⟨_, h2, _⟩ := RemoveDevice_of_slot s (some name) i hi
      exact ⟨fun _ => ⟨i, hn, h2⟩, fun hall => absurd hn (hall i)⟩
    · have hr := RemoveDevice_of_neg s (some name) (by rw [hneg]; decide)
      refine ⟨fun h0 => ?_, fun _ => hr⟩
      rw [hr] at h0
      have h1 : (-1 : Int) = 0 := h0
      omega
  · intro hc
    have hf := FindDevice_no_sep s name hc
    refine ⟨fun hneg => RemoveDevice_of_neg s (some name) (by rw [hf]; exact hneg),
      fun i hi => ?_⟩
    obtain ⟨h1, h2, _⟩ := RemoveDevice_of_slot s (some name) i (by rw [hf, hi])
    exact ⟨h1, h2⟩

/-- Witness of C30 (amended): with `a` in slot 3 and `fat` in slot 4, the call
`RemoveDevice("fat:")` returns 0 and clears a slot whose device is named
`fat`. -/
theorem RemoveDevice_by_name_witness :
    ':' ∈ "fat:".toList ∧
    (RemoveDevice (registryOf ["a", "fat"]) (some "fat:".toList)).1 = 0 ∧
    ∃ i : Fin MAX_DEVICES,
      slotName (registryOf ["a", "fat"]) i = some (before ':' "fat:".toList) ∧
      (RemoveDevice (registryOf ["a", "fat"]) (some "fat:".toList)).2.devoptab_list
        = Function.update (registryOf ["a", "fat"]).devoptab_list i none :=
  ⟨by decide, by decide,
   ((RemoveDevice_by_name (registryOf ["a", "fat"]) "fat:".toList).1 (by decide)).1
     (by decide)⟩

/-- Counterexample to C30 as stated: with `a` in slot 3 (the default device)
and `fat` in slot 4, the call `RemoveDevice("sd")` returns 0 although no slot
holds a device named `sd`, and the slot it clears is slot 3, whose device is
named `a`. -/
theorem RemoveDevice_default_by_other_name :
    (∀ j : Fin MAX_DEVICES, slotName (registryOf ["a", "fat"]) j ≠ some "sd".toList) ∧
    (RemoveDevice (registryOf ["a", "fat"]) (some "sd".toList)).1 = 0 ∧
    slotName (registryOf ["a", "fat"]) 3 = some "a".toList ∧
    ((RemoveDevice (registryOf ["a", "fat"]) (some "sd".toList)).2.devoptab_list 3).isSome
      = false ∧
    (∀ j : Fin MAX_DEVICES, j ≠ 3 →
      ((RemoveDevice (registryOf ["a", "fat"]) (some "sd".toList)).2.devoptab_list j).isSome
        = ((registryOf ["a", "fat"]).devoptab_list j).isSome) := by
  decide

end Remove

section Console

variable {σ : Type}

theorem putc_buffered.flush_iff (n : Nat) (c : Char) :
    putc_buffered.flush n c = true ↔ n = OUTPUT_BUFFER_SIZE ∨ isTerminator c := by
  simp only [putc_buffered.flush, isTerminator, isLetter, Bool.or_eq_true, Bool.and_eq_true,
    beq_iff_eq, decide_eq_true_eq]
  tauto

/-- Storing `c` at index `n` and a terminator behind it leaves the first `n`
chars and puts `c` after them. -/
theorem take_set_set (l : List Char) (n : Nat) (c z : Char) (h : n < l.length) :
    ((l.set n c).set (n + 1) z).take (n + 1) = l.take n ++ [c] := by
  induction l generalizing n with
  | nil => simp at h
  | cons x xs ih =>
    cases n with
    | zero => simp
    | succ m =>
      have hm : m < xs.length := by simpa using h
      simp [ih m hm]

/-- A byte other than the escape character that arrives at an empty buffer is
passed to the write entry at once. -/
theorem putc_buffered_through (s : State σ) (c : Char) (b : stream_buf)
    (fd : Fin MAX_DEVICES) (dev : devoptab_posix_t σ)
    (wr : Int → List Char → Nat → World σ → Int × World σ)
    (hdev : s.devoptab_list fd = some dev) (hwr : dev.dot.write_r = some wr)
    (hc : c ≠ ESC) (hb : b.buf_len = 0) :
    putc_buffered s c b fd = ((c.toNat : Int), b,
      (s.invoke (fd.val : Int) (Invoke.write_r (fd.val : Int) [c] 1)
        (wr (fd.val : Int) [c] 1)).2) := by
  simp [putc_buffered, hdev, hwr, hc, hb]

/-- A byte that is stored and does not meet the flush test: no call. -/
theorem putc_buffered_keep (s : State σ) (c : Char) (b : stream_buf)
    (fd : Fin MAX_DEVICES) (dev : devoptab_posix_t σ)
    (wr : Int → List Char → Nat → World σ → Int × World σ)
    (hdev : s.devoptab_list fd = some dev) (hwr : dev.dot.write_r = some wr)
    (hc : c = ESC ∨ b.buf_len > 0) (hlen : b.buf_len + 1 < OUTPUT_BUFFER_SIZE)
    (ht : ¬ isTerminator c) :
    putc_buffered s c b fd = ((c.toNat : Int),
      { buf := (b.buf.set b.buf_len c).set (b.buf_len + 1) (Char.ofNat 0)
        buf_len := b.buf_len + 1 }, s) := by
  have h16 : OUTPUT_BUFFER_SIZE = 16 := rfl
  have hmod : (b.buf_len + 1) % 2 ^ 16 = b.buf_len + 1 := Nat.mod_eq_of_lt (by omega)
  have hf : putc_buffered.flush (b.buf_len + 1) c = false := by
    rw [← Bool.not_eq_true, putc_buffered.flush_iff]
    rintro (h | h)
    · omega
    · exact ht h
  simp only [putc_buffered, hdev, hwr, hmod, hf, if_pos hc]
  simp

/-- A byte that is stored and meets the flush test: one call, with the array
and the number of bytes stored, and the counter back at 0. -/
theorem putc_buffered_flushed (s : State σ) (c : Char) (b : stream_buf)
    (fd : Fin MAX_DEVICES) (dev : devoptab_posix_t σ)
    (wr : Int → List Char → Nat → World σ → Int × World σ)
    (hdev : s.devoptab_list fd = some dev) (hwr : dev.dot.write_r = some wr)
    (hc : c = ESC ∨ b.buf_len > 0) (hlen : b.buf_len + 1 ≤ OUTPUT_BUFFER_SIZE)
    (ht : b.buf_len + 1 = OUTPUT_BUFFER_SIZE ∨ isTerminator c) :
    putc_buffered s c b fd = ((c.toNat : Int),
      { buf := (b.buf.set b.buf_len c).set (b.buf_len + 1) (Char.ofNat 0)
        buf_len := 0 },
      (s.invoke (fd.val : Int)
        (Invoke.write_r (fd.val : Int)
          ((b.buf.set b.buf_len c).set (b.buf_len + 1) (Char.ofNat 0)) (b.buf_len + 1))
        (wr (fd.val : Int)
          ((b.buf.set b.buf_len c).set (b.buf_len + 1) (Char.ofNat 0)) (b.buf_len + 1))).2) := by
  have h16 : OUTPUT_BUFFER_SIZE = 16 := rfl
  have hmod : (b.buf_len + 1) % 2 ^ 16 = b.buf_len + 1 := Nat.mod_eq_of_lt (by omega)
  have hf : putc_buffered.flush (b.buf_len + 1) c = true :=
    (putc_buffered.flush_iff _ _).2 ht
  simp only [putc_buffered, hdev, hwr, hmod, hf, if_pos hc]
  simp

/-- Bytes that do not end an escape run, arriving at a buffer that is in use
and has room for them, are all stored, in order, and no call is made. -/
theorem run_keep (s : State σ) (fd : Fin MAX_DEVICES) (dev : devoptab_posix_t σ)
    (wr : Int → List Char → Nat → World σ → Int × World σ)
    (hdev : s.devoptab_list fd = some dev) (hwr : dev.dot.write_r = some wr)
    (bytes : List Char) (hnt : ∀ x ∈ bytes, ¬ isTerminator x)
    (b : stream_buf) (hsize : b.buf.length = OUTPUT_BUFFER_SIZE + 1)
    (hpos : 0 < b.buf_len) (hroom : b.buf_len + bytes.length < OUTPUT_BUFFER_SIZE) :
    (putc_buffered.run s b fd bytes).2 = s ∧
    (putc_buffered.run s b fd bytes).1.buf_len = b.buf_len + bytes.length ∧
    (putc_buffered.run s b fd bytes).1.buf.length = OUTPUT_BUFFER_SIZE + 1 ∧
    (putc_buffered.run s b fd bytes).1.buf.take (b.buf_len + bytes.length)
      = b.buf.take b.buf_len ++ bytes := by
  induction bytes generalizing b with
  | nil => simp [putc_buffered.run, hsize]
  | cons x xs ih =>
    simp only [List.length_cons] at hroom
    have hx : ¬ isTerminator x := hnt x (List.mem_cons_self _ _)
    have hstep := putc_buffered_keep s x b fd dev wr hdev hwr (Or.inr hpos) (by omega) hx
    simp only [putc_buffered.run, hstep]
    obtain ⟨h1, h2, h3, h4⟩ := ih (fun y hy => hnt y (List.mem_cons_of_mem _ hy))
      { buf := (b.buf.set b.buf_len x).set (b.buf_len + 1) (Char.ofNat 0)
        buf_len := b.buf_len + 1 }
      (by simp [hsize]) (by simp) (by simp only []; omega)
    refine ⟨h1, ?_, h3, ?_⟩
    · rw [h2]; simp only [List.length_cons]; omega
    · have e : b.buf_len + (xs.length + 1) = b.buf_len + 1 + xs.length := by omega
      simp only [List.length_cons, e]
      rw [h4]
      simp only []
      rw [take_set_set b.buf b.buf_len x _ (by omega)]
      simp

theorem putc_buffered.run_append (s : State σ) (b : stream_buf) (fd : Fin MAX_DEVICES)
    (xs ys : List Char) :
    putc_buffered.run s b fd (xs ++ ys)
      = putc_buffered.run (putc_buffered.run s b fd xs).2 (putc_buffered.run s b fd xs).1
          fd ys := by
  induction xs generalizing s b with
  | nil => rfl
  | cons x xs ih => exact ih _ _

theorem not_isTerminator_ESC : ¬ isTerminator ESC := by
  unfold isTerminator isLetter
  decide

/-- C27: starting from an empty stream buffer on a device with a write entry,
writing the escape character, then `k` bytes (`0 <= k <= 14`) none of which is
an ASCII letter, newline or carriage return, then one ASCII letter makes
exactly one call of the write entry, whose first `k + 2` bytes are the bytes
written, in order, with length `k + 2`, and leaves the buffer empty. -/
theorem escape_run_flushed_once (s : State σ) (fd : Fin MAX_DEVICES)
    (dev : devoptab_posix_t σ) (wr : Int → List Char → Nat → World σ → Int × World σ)
    (hdev : s.devoptab_list fd = some dev) (hwr : dev.dot.write_r = some wr)
    (b : stream_buf) (hsize : b.buf.length = OUTPUT_BUFFER_SIZE + 1)
    (hempty : b.buf_len = 0)
    (bytes : List Char) (hk : bytes.length ≤ 14) (hnt : ∀ x ∈ bytes, ¬ isTerminator x)
    (l : Char) (hl : isLetter l) :
    (putc_buffered.run s b fd (ESC :: bytes ++ [l])).1.buf_len = 0 ∧
    ∃ ptr : List Char, ptr.take (bytes.length + 2) = ESC :: bytes ++ [l] ∧
      (putc_buffered.run s b fd (ESC :: bytes ++ [l])).2.trace
        = s.trace ++ [{ device_idx := (fd.val : Int)
                        marker := s.callback_device_idx
                        what := Invoke.write_r (fd.val : Int) ptr (bytes.length + 2) }] := by
  have h16 : OUTPUT_BUFFER_SIZE = 16 := rfl
  have hesc := putc_buffered_keep s ESC b fd dev wr hdev hwr (Or.inl rfl)
    (by rw [hempty]; decide) not_isTerminator_ESC
  rw [hempty] at hesc
  obtain ⟨h1, h2, h3, h4⟩ := run_keep s fd dev wr hdev hwr bytes hnt
    { buf := (b.buf.set 0 ESC).set (0 + 1) (Char.ofNat 0), buf_len := 0 + 1 }
    (by simp [hsize]) (by simp) (by simp only []; omega)
  have hpre : ((b.buf.set 0 ESC).set (0 + 1) (Char.ofNat 0)).take (0 + 1) = [ESC] := by
    rw [take_set_set b.buf 0 ESC _ (by omega)]; simp
  simp only [] at h2 h4
  rw [hpre] at h4
  have hrun : putc_buffered.run s b fd (ESC :: bytes ++ [l])
      = putc_buffered.run
          (putc_buffered.run s
            { buf := (b.buf.set 0 ESC).set (0 + 1) (Char.ofNat 0), buf_len := 0 + 1 }
            fd bytes).2
          (putc_buffered.run s
            { buf := (b.buf.set 0 ESC).set (0 + 1) (Char.ofNat 0), buf_len := 0 + 1 }
            fd bytes).1 fd [l] := by
    rw [List.cons_append, putc_buffered.run, hesc, putc_buffered.run_append]
  rw [hrun]
  generalize putc_buffered.run s
    { buf := (b.buf.set 0 ESC).set (0 + 1) (Char.ofNat 0), buf_len := 0 + 1 } fd bytes = r
    at h1 h2 h3 h4
  have hlast := putc_buffered_flushed r.2 l r.1 fd dev wr (by rw [h1]; exact hdev) hwr
    (Or.inr (by rw [h2]; omega)) (by rw [h2]; omega) (Or.inr (Or.inl hl))
  simp only [putc_buffered.run, hlast]
  refine ⟨trivial, (r.1.buf.set r.1.buf_len l).set (r.1.buf_len + 1) (Char.ofNat 0), ?_, ?_⟩
  · have e : bytes.length + 2 = r.1.buf_len + 1 := by omega
    rw [e, take_set_set _ _ l _ (by rw [h3, h2]; omega), h2, h4]
    simp
  · have e : r.1.buf_len + 1 = bytes.length + 2 := by omega
    simp only [State.invoke, h1, e]

/-- Witness of C27: on the initial state, whose slot 1 holds the null device,
the bytes `ESC`, `[`, `1`, `m` written to an empty stream make one call of the
write entry with the four bytes. -/
theorem escape_run_flushed_once_witness :
    (putc_buffered.run (State.initial ()) stream_buf.initial 1
      (ESC :: ['[', '1'] ++ ['m'])).1.buf_len = 0 ∧
    ∃ ptr : List Char, ptr.take (['[', '1'].length + 2) = ESC :: ['[', '1'] ++ ['m'] ∧
      (putc_buffered.run (State.initial ()) stream_buf.initial 1
        (ESC :: ['[', '1'] ++ ['m'])).2.trace
        = (State.initial ()).trace ++
          [{ device_idx := ((1 : Fin MAX_DEVICES).val : Int)
             marker := (State.initial ()).callback_device_idx
             what := Invoke.write_r ((1 : Fin MAX_DEVICES).val : Int) ptr
               (['[', '1'].length + 2) }] :=
  escape_run_flushed_once (State.initial ()) 1 dot_null null_write rfl rfl
    stream_buf.initial (by decide) rfl ['[', '1'] (by decide) (by decide) 'm' (by decide)

/-- C28: for every byte other than the escape character, written to a stream
whose buffer is empty and whose device has a write entry, `putc_buffered`
makes exactly one call of the write entry, with that one byte and length 1,
leaves the stream as it was, its buffer still empty, and returns the byte. -/
theorem single_byte_written_through (s : State σ) (fd : Fin MAX_DEVICES)
    (dev : devoptab_posix_t σ) (wr : Int → List Char → Nat → World σ → Int × World σ)
    (hdev : s.devoptab_list fd = some dev) (hwr : dev.dot.write_r = some wr)
    (b : stream_buf) (hempty : b.buf_len = 0) (c : Char) (hc : c ≠ ESC) :
    (putc_buffered s c b fd).1 = (c.toNat : Int) ∧
    (putc_buffered s c b fd).2.1 = b ∧
    (putc_buffered s c b fd).2.1.buf_len = 0 ∧
    (putc_buffered s c b fd).2.2.trace
      = s.trace ++ [{ device_idx := (fd.val : Int)
                      marker := s.callback_device_idx
                      what := Invoke.write_r (fd.val : Int) [c] 1 }] := by
  rw [putc_buffered_through s c b fd dev wr hdev hwr hc hempty]
  exact ⟨rfl, rfl, hempty, rfl⟩

/-- Witness of C28: the byte `a` written to the empty stream of descriptor 1 on
the initial state. -/
theorem single_byte_written_through_witness :
    (putc_buffered (State.initial ()) 'a' stream_buf.initial 1).1 = (('a').toNat : Int) ∧
    (putc_buffered (State.initial ()) 'a' stream_buf.initial 1).2.1 = stream_buf.initial ∧
    (putc_buffered (State.initial ()) 'a' stream_buf.initial 1).2.1.buf_len = 0 ∧
    (putc_buffered (State.initial ()) 'a' stream_buf.initial 1).2.2.trace
      = (State.initial ()).trace ++
        [{ device_idx := ((1 : Fin MAX_DEVICES).val : Int)
           marker := (State.initial ()).callback_device_idx
           what := Invoke.write_r ((1 : Fin MAX_DEVICES).val : Int) ['a'] 1 }] :=
  single_byte_written_through (State.initial ()) 1 dot_null null_write rfl rfl
    stream_buf.initial rfl 'a' (by decide)

end Console

section FatOpen

variable {σ : Type}

theorem recorded_errno (w : World (σ × List FatCall)) (e : Int) :
    recorded { w with errno := e } = recorded w := rfl

theorem recorded_outer (v : World σ) (log : List FatCall) :
    recorded (v.outer log) = log := rfl

theorem inner_outer (v : World σ) (log : List FatCall) : (v.outer log).inner = v := rfl

theorem inner_errno (w : World (σ × List FatCall)) (e : Int) :
    World.inner { w with errno := e } = { w.inner with errno := e } := rfl

theorem outer_errno (v : World σ) (log : List FatCall) (e : Int) :
    ({ v.outer log with errno := e } : World (σ × List FatCall))
      = World.outer { v with errno := e } log := rfl

theorem logged_calloc (lib : FatLib σ) (w : World (σ × List FatCall)) :
    lib.logged.calloc w = ((lib.calloc w.inner).1,
      (lib.calloc w.inner).2.outer (recorded w ++ [FatCall.calloc (lib.calloc w.inner).1])) :=
  rfl

theorem logged_free (lib : FatLib σ) (ptr : Nat) (w : World (σ × List FatCall)) :
    lib.logged.free ptr w
      = (lib.free ptr w.inner).outer (recorded w ++ [FatCall.free ptr]) := rfl

theorem logged_f_open (lib : FatLib σ) (fp : Nat) (path : CStr) (mode : Nat)
    (w : World (σ × List FatCall)) :
    lib.logged.f_open fp path mode w = ((lib.f_open fp path mode w.inner).1,
      (lib.f_open fp path mode w.inner).2.outer
        (recorded w ++ [FatCall.f_open fp path mode (lib.f_open fp path mode w.inner).1])) :=
  rfl

theorem logged_f_lseek (lib : FatLib σ) (fp : Nat) (ofs : Nat)
    (w : World (σ × List FatCall)) :
    lib.logged.f_lseek fp ofs w = ((lib.f_lseek fp ofs w.inner).1,
      (lib.f_lseek fp ofs w.inner).2.outer
        (recorded w ++ [FatCall.f_lseek fp ofs (lib.f_lseek fp ofs w.inner).1])) :=
  rfl

theorem logged_f_truncate (lib : FatLib σ) (fp : Nat) (w : World (σ × List FatCall)) :
    lib.logged.f_truncate fp w = ((lib.f_truncate fp w.inner).1,
      (lib.f_truncate fp w.inner).2.outer
        (recorded w ++ [FatCall.f_truncate fp (lib.f_truncate fp w.inner).1])) :=
  rfl

/-- When the flags give no mode `fat_open` returns at once. -/
theorem fat_open_mode_none (lib : FatLib σ) (p : CStr) (flags : Int)
    (w : World (σ × List FatCall)) (h : fat_open.mode flags = none) :
    fat_open.Rejects lib p flags w := by
  simp [fat_open.Rejects, fat_open, h]

/-- When the flags give a mode `fat_open` allocates and opens in that mode. -/
theorem fat_open_mode_some (lib : FatLib σ) (p : CStr) (flags : Int)
    (w : World (σ × List FatCall)) (m : Nat) (h : fat_open.mode flags = some m) :
    fat_open.Requests lib p flags w m := by
  unfold fat_open.Requests
  simp only [fat_open, h, logged_calloc]
  cases ha : (lib.calloc w.inner).1 with
  | none =>
    exact ⟨none, [], by simp only [recorded_errno, recorded_outer], fun fp hfp => by simp at hfp⟩
  | some fp =>
    simp only [logged_f_open, inner_outer, logged_free]
    by_cases hr : (lib.f_open fp p m (lib.calloc w.inner).2).1 = FR_OK
    · refine ⟨some fp, [FatCall.f_open fp p m FR_OK], ?_, fun fp' hfp => ?_⟩
      · simp only [hr, if_true, recorded_outer, List.append_assoc, List.singleton_append]
      · simp only [Option.some.injEq] at hfp
        subst hfp
        exact ⟨FR_OK, [], rfl⟩
    · refine ⟨some fp, [FatCall.f_open fp p m (lib.f_open fp p m (lib.calloc w.inner).2).1,
        FatCall.free fp], ?_, fun fp' hfp => ?_⟩
      · simp only [hr, if_false, recorded_errno, recorded_outer, List.append_assoc,
          List.singleton_append, List.cons_append, List.nil_append]
      · simp only [Option.some.injEq] at hfp
        subst hfp
        exact ⟨_, _, rfl⟩

/-- The early return of `fat_open` is taken exactly when the flags give no
mode. -/
theorem fat_open_rejects_iff (lib : FatLib σ) (p : CStr) (flags : Int)
    (w : World (σ × List FatCall)) :
    fat_open.Rejects lib p flags w ↔ fat_open.mode flags = none := by
  constructor
  · intro hrej
    cases hm : fat_open.mode flags with
    | none => rfl
    | some m =>
      obtain ⟨r, rest, hrec, _⟩ := fat_open_mode_some lib p flags w m hm
      unfold fat_open.Rejects at hrej
      rw [hrej] at hrec
      have hlen := congrArg List.length hrec
      simp [recorded] at hlen
  · exact fat_open_mode_none lib p flags w

end FatOpen

section FatOpenMode

theorem accessBits_cases_ne :
    (O_WRONLY : Int) ≠ (O_RDONLY : Int) ∧ (O_RDWR : Int) ≠ (O_RDONLY : Int) ∧
    (O_RDWR : Int) ≠ (O_WRONLY : Int) := by decide

/-- The mode computed for read-only access. -/
theorem fat_open.mode_rdonly (flags : Int) (h : accessBits flags = (O_RDONLY : Int)) :
    fat_open.mode flags = some (FA_READ ||| FA_OPEN_EXISTING) := by
  unfold accessBits at h
  simp [fat_open.mode, h]

/-- The mode computed for write access, `base` being the access part. -/
theorem fat_open.mode_write (flags : Int) (base : Nat)
    (h : (accessBits flags = (O_WRONLY : Int) ∧ base = FA_WRITE) ∨
         (accessBits flags = (O_RDWR : Int) ∧ base = FA_READ ||| FA_WRITE)) :
    fat_open.mode flags =
      if hasFlag flags O_CREAT then
        if hasFlag flags O_APPEND then some (base ||| FA_OPEN_APPEND)
        else if hasFlag flags O_TRUNC then
          if hasFlag flags O_EXCL then some (base ||| FA_CREATE_NEW)
          else some (base ||| FA_CREATE_ALWAYS)
        else none
      else some (base ||| FA_OPEN_EXISTING) := by
  obtain ⟨h1, h2, h3⟩ := accessBits_cases_ne
  unfold accessBits at h
  rcases h with ⟨h, rfl⟩ | ⟨h, rfl⟩
  · simp only [fat_open.mode, h, hasFlag, h1, if_false, if_true]
  · simp only [fat_open.mode, h, hasFlag, h2, h3, if_false, if_true]

/-- The mode computed when the access bits are none of the three. -/
theorem fat_open.mode_bad_access (flags : Int) (h0 : accessBits flags ≠ (O_RDONLY : Int))
    (h1 : accessBits flags ≠ (O_WRONLY : Int)) (h2 : accessBits flags ≠ (O_RDWR : Int)) :
    fat_open.mode flags = none := by
  unfold accessBits at h0 h1 h2
  simp only [fat_open.mode, h0, h1, h2, if_false]

variable {σ : Type}

/-- C21: for every non-null path and all flags, `fat_open` allocates a handle
and opens the path in the mode of the table below, or returns at once.  Access
bits read-only: `FA_READ | FA_OPEN_EXISTING`, whatever the other flags.
Access bits write-only (`base = FA_WRITE`) or read-write (`base = FA_READ |
FA_WRITE`): `base | FA_OPEN_EXISTING` without create; `base | FA_OPEN_APPEND`
with create and append; `base | FA_CREATE_NEW` with create, truncate and
exclusive and without append; `base | FA_CREATE_ALWAYS` with create and
truncate and without append and exclusive.  It fails with `EINVAL` without
allocating or calling the library exactly when the access bits are none of
the three, or write access comes with create and with neither append nor
truncate. -/
theorem fat_open_mode_table (lib : FatLib σ) (p : CStr) (flags : Int)
    (w : World (σ × List FatCall)) :
    (accessBits flags = (O_RDONLY : Int) →
      fat_open.Requests lib p flags w (FA_READ ||| FA_OPEN_EXISTING)) ∧
    (∀ base : Nat,
      (accessBits flags = (O_WRONLY : Int) ∧ base = FA_WRITE) ∨
        (accessBits flags = (O_RDWR : Int) ∧ base = FA_READ ||| FA_WRITE) →
      (¬ hasFlag flags O_CREAT →
        fat_open.Requests lib p flags w (base ||| FA_OPEN_EXISTING)) ∧
      (hasFlag flags O_CREAT → hasFlag flags O_APPEND →
        fat_open.Requests lib p flags w (base ||| FA_OPEN_APPEND)) ∧
      (hasFlag flags O_CREAT → hasFlag flags O_TRUNC → hasFlag flags O_EXCL →
        ¬ hasFlag flags O_APPEND →
        fat_open.Requests lib p flags w (base ||| FA_CREATE_NEW)) ∧
      (hasFlag flags O_CREAT → hasFlag flags O_TRUNC → ¬ hasFlag flags O_APPEND →
        ¬ hasFlag flags O_EXCL →
        fat_open.Requests lib p flags w (base ||| FA_CREATE_ALWAYS))) ∧
    (fat_open.Rejects lib p flags w ↔
      (accessBits flags ≠ (O_RDONLY : Int) ∧ accessBits flags ≠ (O_WRONLY : Int) ∧
        accessBits flags ≠ (O_RDWR : Int)) ∨
      ((accessBits flags = (O_WRONLY : Int) ∨ accessBits flags = (O_RDWR : Int)) ∧
        hasFlag flags O_CREAT ∧ ¬ hasFlag flags O_APPEND ∧ ¬ hasFlag flags O_TRUNC)) := by
  refine ⟨fun h => fat_open_mode_some lib p flags w _ (fat_open.mode_rdonly flags h),
    fun base hb => ?_, ?_⟩
  · have hm := fat_open.mode_write flags base hb
    refine ⟨fun hc => ?_, fun hc ha => ?_, fun hc ht he ha => ?_, fun hc ht ha he => ?_⟩ <;>
      refine fat_open_mode_some lib p flags w _ ?_ <;> rw [hm] <;> simp [*]
  · rw [fat_open_rejects_iff]
    by_cases h0 : accessBits flags = (O_RDONLY : Int)
    · have hne := accessBits_cases_ne
      rw [fat_open.mode_rdonly flags h0]
      simp only [h0, ne_eq, not_true_eq_false, false_and, false_or, reduceCtorEq, false_iff,
        not_and]
      rintro (h | h)
      · exact absurd h.symm hne.1
      · exact absurd h.symm hne.2.1
    · by_cases h1 : accessBits flags = (O_WRONLY : Int)
      · have hne := accessBits_cases_ne
        rw [fat_open.mode_write flags FA_WRITE (Or.inl ⟨h1, rfl⟩)]
        by_cases hc : hasFlag flags O_CREAT <;> by_cases ha : hasFlag flags O_APPEND <;>
          by_cases ht : hasFlag flags O_TRUNC <;> by_cases he : hasFlag flags O_EXCL <;>
          simp [h1, hc, ha, ht, he]
      · by_cases h2 : accessBits flags = (O_RDWR : Int)
        · rw [fat_open.mode_write flags (FA_READ ||| FA_WRITE) (Or.inr ⟨h2, rfl⟩)]
          by_cases hc : hasFlag flags O_CREAT <;> by_cases ha : hasFlag flags O_APPEND <;>
            by_cases ht : hasFlag flags O_TRUNC <;> by_cases he : hasFlag flags O_EXCL <;>
            simp [h2, hc, ha, ht, he]
        · rw [fat_open.mode_bad_access flags h0 h1 h2]
          simp [h0, h1, h2]

end FatOpenMode

section FatOpenClaims

variable {σ : Type}

/-- Witness of C21: write-only access with create and truncate, on the example
library, asks for the mode `FA_WRITE | FA_CREATE_ALWAYS`. -/
theorem fat_open_mode_table_witness :
    accessBits ((O_WRONLY ||| O_CREAT ||| O_TRUNC : Nat) : Int) = (O_WRONLY : Int) ∧
    hasFlag ((O_WRONLY ||| O_CREAT ||| O_TRUNC : Nat) : Int) O_CREAT ∧
    hasFlag ((O_WRONLY ||| O_CREAT ||| O_TRUNC : Nat) : Int) O_TRUNC ∧
    ¬ hasFlag ((O_WRONLY ||| O_CREAT ||| O_TRUNC : Nat) : Int) O_APPEND ∧
    ¬ hasFlag ((O_WRONLY ||| O_CREAT ||| O_TRUNC : Nat) : Int) O_EXCL ∧
    fat_open.Requests (exampleLib 1000) "f".toList
      ((O_WRONLY ||| O_CREAT ||| O_TRUNC : Nat) : Int) (exampleWorld 0 0)
      (FA_WRITE ||| FA_CREATE_ALWAYS) :=
  ⟨by decide, by decide, by decide, by decide, by decide,
   ((fat_open_mode_table (exampleLib 1000) "f".toList
      ((O_WRONLY ||| O_CREAT ||| O_TRUNC : Nat) : Int) (exampleWorld 0 0)).2.1 FA_WRITE
        (Or.inl ⟨by decide, rfl⟩)).2.2.2 (by decide) (by decide) (by decide) (by decide)⟩

/-- C22 (amended): for `fat_open` with write access and the create flag, append
or truncate is what makes the creation explicit: with one of them the call is
not rejected (it goes on to allocate a handle and open in some mode), and with
neither it is rejected as invalid argument, whether or not create-exclusive is
set. -/
theorem fat_open_create_needs_append_or_truncate (lib : FatLib σ) (p : CStr)
    (flags : Int) (w : World (σ × List FatCall))
    (hacc : accessBits flags = (O_WRONLY : Int) ∨ accessBits flags = (O_RDWR : Int))
    (hc : hasFlag flags O_CREAT) :
    (hasFlag flags O_APPEND ∨ hasFlag flags O_TRUNC →
      ¬ fat_open.Rejects lib p flags w ∧
      ∃ mode : Nat, fat_open.Requests lib p flags w mode) ∧
    (¬ hasFlag flags O_APPEND → ¬ hasFlag flags O_TRUNC →
      fat_open.Rejects lib p flags w) := by
  have hb : ∃ base : Nat, (accessBits flags = (O_WRONLY : Int) ∧ base = FA_WRITE) ∨
      (accessBits flags = (O_RDWR : Int) ∧ base = FA_READ ||| FA_WRITE) := by
    rcases hacc with h | h
    · exact ⟨_, Or.inl ⟨h, rfl⟩⟩
    · exact ⟨_, Or.inr ⟨h, rfl⟩⟩
  obtain ⟨base, hbase⟩ := hb
  have hm := fat_open.mode_write flags base hbase
  constructor
  · intro hat
    have hsome : ∃ mode : Nat, fat_open.mode flags = some mode := by
      rw [hm]
      by_cases ha : hasFlag flags O_APPEND
      · exact ⟨base ||| FA_OPEN_APPEND, by simp [hc, ha]⟩
      · have ht : hasFlag flags O_TRUNC := hat.resolve_left ha
        by_cases he : hasFlag flags O_EXCL
        · exact ⟨base ||| FA_CREATE_NEW, by simp [hc, ha, ht, he]⟩
        · exact ⟨base ||| FA_CREATE_ALWAYS, by simp [hc, ha, ht, he]⟩
    obtain ⟨mode, hmode⟩ := hsome
    refine ⟨fun hrej => ?_, mode, fat_open_mode_some lib p flags w mode hmode⟩
    rw [fat_open_rejects_iff, hmode] at hrej
    exact absurd hrej (by simp)
  · intro ha ht
    refine fat_open_mode_none lib p flags w ?_
    rw [hm]
    simp [hc, ha, ht]

/-- Witness of C22 (amended): write-only access with create and append on the
example library. -/
theorem fat_open_create_needs_append_or_truncate_witness :
    (accessBits ((O_WRONLY ||| O_CREAT ||| O_APPEND : Nat) : Int) = (O_WRONLY : Int) ∨
      accessBits ((O_WRONLY ||| O_CREAT ||| O_APPEND : Nat) : Int) = (O_RDWR : Int)) ∧
    hasFlag ((O_WRONLY ||| O_CREAT ||| O_APPEND : Nat) : Int) O_CREAT ∧
    hasFlag ((O_WRONLY ||| O_CREAT ||| O_APPEND : Nat) : Int) O_APPEND ∧
    ¬ fat_open.Rejects (exampleLib 1000) "f".toList
      ((O_WRONLY ||| O_CREAT ||| O_APPEND : Nat) : Int) (exampleWorld 0 0) ∧
    ∃ mode : Nat, fat_open.Requests (exampleLib 1000) "f".toList
      ((O_WRONLY ||| O_CREAT ||| O_APPEND : Nat) : Int) (exampleWorld 0 0) mode :=
  ⟨by decide, by decide, by decide,
   (fat_open_create_needs_append_or_truncate (exampleLib 1000) "f".toList
      ((O_WRONLY ||| O_CREAT ||| O_APPEND : Nat) : Int) (exampleWorld 0 0)
      (by decide) (by decide)).1 (Or.inl (by decide))⟩

/-- Counterexample to C22 as stated: write-only access with create and
create-exclusive, and neither append nor truncate, is rejected: `fat_open`
returns -1 with `EINVAL` and makes no call. -/
theorem fat_open_create_exclusive_rejected :
    accessBits ((O_WRONLY ||| O_CREAT ||| O_EXCL : Nat) : Int) = (O_WRONLY : Int) ∧
    hasFlag ((O_WRONLY ||| O_CREAT ||| O_EXCL : Nat) : Int) O_CREAT ∧
    hasFlag ((O_WRONLY ||| O_CREAT ||| O_EXCL : Nat) : Int) O_EXCL ∧
    ¬ hasFlag ((O_WRONLY ||| O_CREAT ||| O_EXCL : Nat) : Int) O_APPEND ∧
    ¬ hasFlag ((O_WRONLY ||| O_CREAT ||| O_EXCL : Nat) : Int) O_TRUNC ∧
    (fat_open (exampleLib 1000).logged (some "f".toList)
      ((O_WRONLY ||| O_CREAT ||| O_EXCL : Nat) : Int) (exampleWorld 0 0)).1 = -1 ∧
    (fat_open (exampleLib 1000).logged (some "f".toList)
      ((O_WRONLY ||| O_CREAT ||| O_EXCL : Nat) : Int) (exampleWorld 0 0)).2.errno = EINVAL ∧
    recorded (fat_open (exampleLib 1000).logged (some "f".toList)
      ((O_WRONLY ||| O_CREAT ||| O_EXCL : Nat) : Int) (exampleWorld 0 0)).2 = [] := by
  decide

end FatOpenClaims

section FatConversions

variable {σ : Type}

theorem FatLib.to_size_t_of_lt (lib : FatLib σ) (x : Int) (h0 : 0 ≤ x)
    (h : x < 2 ^ lib.size_t_bits) : lib.to_size_t x = x.toNat := by
  unfold FatLib.to_size_t
  rw [Int.emod_eq_of_lt h0 h]

end FatConversions

section FatSeek

variable {σ : Type}

/-- The body of `fat_seek` once the `off_t` offset `target` is known: one call
of `f_lseek` with its conversion to `FSIZE_t`, and the result of the call
decides. -/
theorem fat_seek_target (lib : FatLib σ) (fd offset whence target : Int)
    (w : World (σ × List FatCall))
    (h : (whence = SEEK_SET ∧ target = offset) ∨
      (whence = SEEK_CUR ∧
        target = (lib.f_tell (lib.FD_FAT_UNPACK fd) w.ext.1 : Int) + offset) ∨
      (whence = SEEK_END ∧
        target = (lib.f_size (lib.FD_FAT_UNPACK fd) w.ext.1 : Int) + offset)) :
    fat_seek lib.logged fd offset whence w =
      if (lib.f_lseek (lib.FD_FAT_UNPACK fd) (lib.to_FSIZE_t target) w.inner).1 = FR_OK then
        (target,
          (lib.f_lseek (lib.FD_FAT_UNPACK fd) (lib.to_FSIZE_t target) w.inner).2.outer
            (recorded w ++ [FatCall.f_lseek (lib.FD_FAT_UNPACK fd) (lib.to_FSIZE_t target)
              (lib.f_lseek (lib.FD_FAT_UNPACK fd) (lib.to_FSIZE_t target) w.inner).1]))
      else
        (-1, World.outer
          { (lib.f_lseek (lib.FD_FAT_UNPACK fd) (lib.to_FSIZE_t target) w.inner).2 with
            errno := lib.fatfs_error_to_posix
              (lib.f_lseek (lib.FD_FAT_UNPACK fd) (lib.to_FSIZE_t target) w.inner).1 }
          (recorded w ++ [FatCall.f_lseek (lib.FD_FAT_UNPACK fd) (lib.to_FSIZE_t target)
            (lib.f_lseek (lib.FD_FAT_UNPACK fd) (lib.to_FSIZE_t target) w.inner).1])) := by
  have hne : SEEK_CUR ≠ SEEK_END ∧ SEEK_SET ≠ SEEK_END ∧ SEEK_SET ≠ SEEK_CUR := by decide
  have hfp : fat_fd_to_fil lib.logged fd = lib.FD_FAT_UNPACK fd := rfl
  have hsz : ∀ fp, lib.logged.f_size fp w.ext = lib.f_size fp w.ext.1 := fun _ => rfl
  have htl : ∀ fp, lib.logged.f_tell fp w.ext = lib.f_tell fp w.ext.1 := fun _ => rfl
  have herr : lib.logged.fatfs_error_to_posix = lib.fatfs_error_to_posix := rfl
  have hto : ∀ x : Int, lib.logged.to_FSIZE_t x = lib.to_FSIZE_t x := fun _ => rfl
  rcases h with ⟨hw, ht⟩ | ⟨hw, ht⟩ | ⟨hw, ht⟩
  · subst hw ht
    simp only [fat_seek, hfp, hne.2.1, hne.2.2, if_false, ne_eq, not_true_eq_false,
      logged_f_lseek, herr, hto, outer_errno]
  · subst hw ht
    simp only [fat_seek, hfp, hne.1, if_false, if_true, htl, logged_f_lseek, herr, hto,
      outer_errno, add_comm]
  · subst hw ht
    simp only [fat_seek, hfp, if_true, hsz, logged_f_lseek, herr, hto, outer_errno,
      add_comm]

end FatSeek

section FatGrow

variable {σ : Type}

end FatGrow

section FatGrowClaim

variable {σ : Type}

end FatGrowClaim

section FatGrowTheorem

variable {σ : Type}

end FatGrowTheorem

section FatTruncate

variable {σ : Type}

/-- The result of `fat_ftruncate` when the length differs from the size, in
terms of the result `(t, w1)` of `fat_ftruncate_internal` and of the seek back
to the position `p` the file had before. -/
theorem fat_ftruncate_steps (lib : FatLib σ) (fd len : Int)
    (w w1 : World (σ × List FatCall)) (t : Int)
    (hne : lib.to_size_t len ≠
      lib.to_size_t (lib.f_size (lib.FD_FAT_UNPACK fd) w.ext.1 : Int))
    (hint : fat_ftruncate_internal lib.logged (lib.FD_FAT_UNPACK fd) len w = some (t, w1)) :
    fat_ftruncate lib.logged fd len w =
      if t ≠ 0 then
        some (-1, { (fat_seek lib.logged fd
          (lib.f_tell (lib.FD_FAT_UNPACK fd) w.ext.1 : Int) SEEK_SET w1).2 with
            errno := w1.errno })
      else if (fat_seek lib.logged fd
          (lib.f_tell (lib.FD_FAT_UNPACK fd) w.ext.1 : Int) SEEK_SET w1).1
            ≠ (lib.f_tell (lib.FD_FAT_UNPACK fd) w.ext.1 : Int) then
        some (-1, (fat_seek lib.logged fd
          (lib.f_tell (lib.FD_FAT_UNPACK fd) w.ext.1 : Int) SEEK_SET w1).2)
      else
        some (0, (fat_seek lib.logged fd
          (lib.f_tell (lib.FD_FAT_UNPACK fd) w.ext.1 : Int) SEEK_SET w1).2) := by
  have hfp : fat_fd_to_fil lib.logged fd = lib.FD_FAT_UNPACK fd := rfl
  have hsz : lib.logged.f_size (lib.FD_FAT_UNPACK fd) w.ext
      = lib.f_size (lib.FD_FAT_UNPACK fd) w.ext.1 := rfl
  have htl : lib.logged.f_tell (lib.FD_FAT_UNPACK fd) w.ext
      = lib.f_tell (lib.FD_FAT_UNPACK fd) w.ext.1 := rfl
  have hne' : ¬ lib.logged.to_size_t len =
      lib.logged.to_size_t (lib.f_size (lib.FD_FAT_UNPACK fd) w.ext.1 : Int) := hne
  simp only [fat_ftruncate, hfp, hsz, htl, hne', if_false, hint]


end FatTruncate

section FatShrink

variable {σ : Type}

/-- The calls of `fat_ftruncate` for a length below the size, when the seek to
the length and the truncation succeed: a seek to the length, the truncation at
the position, and the seek back to the position `p` the file had before; the
result is 0 when that last seek succeeds.  What size and position the file
has afterwards is the library's matter. -/
theorem fat_ftruncate_shrink_calls (lib : FatLib σ) (fd len : Int)
    (w : World (σ × List FatCall)) (hlen0 : 0 ≤ len)
    (hlt : len < (lib.f_size (lib.FD_FAT_UNPACK fd) w.ext.1 : Int))
    (hsize : (lib.f_size (lib.FD_FAT_UNPACK fd) w.ext.1 : Int) < 2 ^ lib.size_t_bits)
    (hseek : (lib.f_lseek (lib.FD_FAT_UNPACK fd) (lib.to_FSIZE_t len) w.inner).1 = FR_OK)
    (htrunc : (lib.f_truncate (lib.FD_FAT_UNPACK fd)
      (lib.f_lseek (lib.FD_FAT_UNPACK fd) (lib.to_FSIZE_t len) w.inner).2).1 = FR_OK) :
    ∃ (res : Int) (w2 : World (σ × List FatCall)),
      fat_ftruncate lib.logged fd len w = some ((if res = FR_OK then 0 else -1), w2) ∧
      recorded w2 = recorded w ++
        [FatCall.f_lseek (lib.FD_FAT_UNPACK fd) (lib.to_FSIZE_t len) FR_OK,
         FatCall.f_truncate (lib.FD_FAT_UNPACK fd) FR_OK,
         FatCall.f_lseek (lib.FD_FAT_UNPACK fd)
           (lib.to_FSIZE_t (lib.f_tell (lib.FD_FAT_UNPACK fd) w.ext.1 : Int)) res] := by
  have h1 : lib.to_size_t len = len.toNat :=
    FatLib.to_size_t_of_lt lib len hlen0 (lt_trans hlt hsize)
  have h2 : lib.to_size_t (lib.f_size (lib.FD_FAT_UNPACK fd) w.ext.1 : Int)
      = lib.f_size (lib.FD_FAT_UNPACK fd) w.ext.1 := by
    rw [FatLib.to_size_t_of_lt lib _ (by omega) hsize]
    simp
  have hne : lib.to_size_t len ≠
      lib.to_size_t (lib.f_size (lib.FD_FAT_UNPACK fd) w.ext.1 : Int) := by
    rw [h1, h2]; omega
  have hsz : lib.logged.f_size (lib.FD_FAT_UNPACK fd) w.ext
      = lib.f_size (lib.FD_FAT_UNPACK fd) w.ext.1 := rfl
  have hto : ∀ x : Int, lib.logged.to_FSIZE_t x = lib.to_FSIZE_t x := fun _ => rfl
  have h1' : lib.logged.to_size_t len = len.toNat := h1
  have h2' : lib.logged.to_size_t (lib.f_size (lib.FD_FAT_UNPACK fd) w.ext.1 : Int)
      = lib.f_size (lib.FD_FAT_UNPACK fd) w.ext.1 := h2
  have hcmp : ¬ len.toNat > lib.f_size (lib.FD_FAT_UNPACK fd) w.ext.1 := by omega
  have hint : fat_ftruncate_internal lib.logged (lib.FD_FAT_UNPACK fd) len w
      = some (0, (lib.f_truncate (lib.FD_FAT_UNPACK fd)
          (lib.f_lseek (lib.FD_FAT_UNPACK fd) (lib.to_FSIZE_t len) w.inner).2).2.outer
        (recorded w ++ [FatCall.f_lseek (lib.FD_FAT_UNPACK fd) (lib.to_FSIZE_t len) FR_OK,
          FatCall.f_truncate (lib.FD_FAT_UNPACK fd) FR_OK])) := by
    simp only [fat_ftruncate_internal, hsz, h1', h2', hto, hcmp, if_false, logged_f_lseek,
      hseek, ne_eq, not_true_eq_false, logged_f_truncate, inner_outer, htrunc,
      recorded_outer, List.append_assoc, List.singleton_append]
  have hsteps := fat_ftruncate_steps lib fd len w _ 0 hne hint
  have hback := fat_seek_target lib fd
    (lib.f_tell (lib.FD_FAT_UNPACK fd) w.ext.1 : Int) SEEK_SET
    (lib.f_tell (lib.FD_FAT_UNPACK fd) w.ext.1 : Int)
    ((lib.f_truncate (lib.FD_FAT_UNPACK fd)
          (lib.f_lseek (lib.FD_FAT_UNPACK fd) (lib.to_FSIZE_t len) w.inner).2).2.outer
        (recorded w ++ [FatCall.f_lseek (lib.FD_FAT_UNPACK fd) (lib.to_FSIZE_t len) FR_OK,
          FatCall.f_truncate (lib.FD_FAT_UNPACK fd) FR_OK])) (Or.inl ⟨rfl, rfl⟩)
  rw [hback] at hsteps
  simp only [inner_outer, recorded_outer] at hsteps
  generalize lib.f_lseek (lib.FD_FAT_UNPACK fd)
    (lib.to_FSIZE_t (lib.f_tell (lib.FD_FAT_UNPACK fd) w.ext.1 : Int))
    (lib.f_truncate (lib.FD_FAT_UNPACK fd)
      (lib.f_lseek (lib.FD_FAT_UNPACK fd) (lib.to_FSIZE_t len) w.inner).2).2 = r at hsteps
  have hp : (-1 : Int) ≠ (lib.f_tell (lib.FD_FAT_UNPACK fd) w.ext.1 : Int) := by omega
  by_cases hr : r.1 = FR_OK
  · rw [if_pos hr] at hsteps
    simp only [ne_eq, not_true_eq_false, if_false] at hsteps
    refine ⟨r.1, _, by rw [if_pos hr]; exact hsteps, ?_⟩
    rw [recorded_outer]
    simp
  · rw [if_neg hr] at hsteps
    simp only [ne_eq, not_true_eq_false, if_false, hp, not_false_eq_true, if_true] at hsteps
    refine ⟨r.1, _, by rw [if_neg hr]; exact hsteps, ?_⟩
    rw [recorded_outer]
    simp

end FatShrink


section FatShrinkExamples

/-- Truncation of a file of 10 bytes at position 7 to 3 bytes, on the example
library, whose seek only moves the position: result 0, size 3, position 7. -/
theorem fat_ftruncate_shrink_example :
    (fat_ftruncate (exampleLib 1000).logged 1 3 (exampleWorld 10 7)).map
        (fun r => (r.1, r.2.ext.1))
      = some (0, (3, 7)) := by
  decide

/-- The same truncation on the library whose seek past the end extends the
file: the calls are the same and the result is 0, but the seek back to
position 7 leaves a file of 7 bytes. -/
theorem fat_ftruncate_shrink_extending :
    (fat_ftruncate (extendingLib 1000).logged 1 3 (exampleWorld 10 7)).map
        (fun r => (r.1, r.2.ext.1, recorded r.2))
      = some (0, (7, 7), [FatCall.f_lseek 1 3 FR_OK, FatCall.f_truncate 1 FR_OK,
          FatCall.f_lseek 1 7 FR_OK]) := by
  decide

end FatShrinkExamples

section RemoveFrame

variable {σ : Type}

/-- In a state whose default device is valid, `FindDevice` gives a negative
index or the index of an occupied slot. -/
theorem FindDevice_valid (s : State σ) (h : DefaultValid s) (name : Option CStr) :
    FindDevice s name < 0 ∨
    ∃ i : Fin MAX_DEVICES, FindDevice s name = (i.val : Int) ∧
      (s.devoptab_list i).isSome = true := by
  cases name with
  | none => left; simp [FindDevice]
  | some p =>
    by_cases hc : ':' ∈ p
    · rcases FindDevice_of_sep s p hc with ⟨i, hi, hn, _⟩ | ⟨hneg, _⟩
      · exact Or.inr ⟨i, hi, isSome_of_slotName s i _ hn⟩
      · left; rw [hneg]; decide
    · rw [FindDevice_no_sep s p hc]
      rcases h with h | ⟨i, hi, hs⟩
      · left; rw [h]; decide
      · exact Or.inr ⟨i, hi, hs⟩

/-- C31: for every registry state (its default device unset or an occupied
slot, as in every reachable state) and every name, `RemoveDevice` returns 0
or -1; when it returns 0 it changes exactly one slot, an occupied one that it
makes empty, and the default device becomes -1 when that slot was the default
device and is unchanged otherwise; when it fails it changes nothing. -/
theorem RemoveDevice_frame (s : State σ) (h : DefaultValid s) (name : Option CStr) :
    ((RemoveDevice s name).1 = 0 ∨ (RemoveDevice s name).1 = -1) ∧
    ((RemoveDevice s name).1 = 0 →
      ∃ i : Fin MAX_DEVICES, (s.devoptab_list i).isSome = true ∧
        (RemoveDevice s name).2.devoptab_list i = none ∧
        (∀ j : Fin MAX_DEVICES, j ≠ i →
          (RemoveDevice s name).2.devoptab_list j = s.devoptab_list j) ∧
        (s.defaultDevice = (i.val : Int) → (RemoveDevice s name).2.defaultDevice = -1) ∧
        (s.defaultDevice ≠ (i.val : Int) →
          (RemoveDevice s name).2.defaultDevice = s.defaultDevice)) ∧
    ((RemoveDevice s name).1 ≠ 0 → (RemoveDevice s name).2 = s) := by
  rcases FindDevice_valid s h name with hneg | ⟨i, hi, hs⟩
  · have hr := RemoveDevice_of_neg s name hneg
    rw [hr]
    refine ⟨Or.inr rfl, fun h0 => ?_, fun _ => rfl⟩
    have h1 : (-1 : Int) = 0 := h0
    omega
  · obtain ⟨h1, h2, h3⟩ := RemoveDevice_of_slot s name i hi
    refine ⟨Or.inl h1, fun _ => ⟨i, hs, ?_, fun j hj => ?_, fun hd => ?_, fun hd => ?_⟩,
      fun hne => absurd h1 hne⟩
    · rw [h2]; simp
    · rw [h2, Function.update_noteq hj]
    · rw [h3, if_pos hd]
    · rw [h3, if_neg hd]

/-- Witness of C31: with `a` in slot 3 (the default device) and `fat` in slot
4, `RemoveDevice("fat:")` returns 0. -/
theorem RemoveDevice_frame_witness :
    DefaultValid (registryOf ["a", "fat"]) ∧
    (RemoveDevice (registryOf ["a", "fat"]) (some "fat:".toList)).1 = 0 ∧
    ∃ i : Fin MAX_DEVICES, ((registryOf ["a", "fat"]).devoptab_list i).isSome = true ∧
      (RemoveDevice (registryOf ["a", "fat"]) (some "fat:".toList)).2.devoptab_list i = none ∧
      (∀ j : Fin MAX_DEVICES, j ≠ i →
        (RemoveDevice (registryOf ["a", "fat"]) (some "fat:".toList)).2.devoptab_list j
          = (registryOf ["a", "fat"]).devoptab_list j) ∧
      ((registryOf ["a", "fat"]).defaultDevice = (i.val : Int) →
        (RemoveDevice (registryOf ["a", "fat"]) (some "fat:".toList)).2.defaultDevice = -1) ∧
      ((registryOf ["a", "fat"]).defaultDevice ≠ (i.val : Int) →
        (RemoveDevice (registryOf ["a", "fat"]) (some "fat:".toList)).2.defaultDevice
          = (registryOf ["a", "fat"]).defaultDevice) :=
  ⟨Or.inr ⟨3, by decide, by decide⟩, by decide,
   (RemoveDevice_frame (registryOf ["a", "fat"]) (Or.inr ⟨3, by decide, by decide⟩)
      (some "fat:".toList)).2.1 (by decide)⟩

end RemoveFrame

section DefaultDevice

variable {σ : Type}

/-- The result of `SetDefaultDevice`: on an index in range whose slot is
occupied it returns 0 and sets the default device to the index; otherwise it
returns -1 and changes nothing. -/
theorem SetDefaultDevice_cases (s : State σ) (index : Int) :
    ((∃ i : Fin MAX_DEVICES, index = (i.val : Int) ∧ (s.devoptab_list i).isSome = true) ∧
      SetDefaultDevice s index = (0, { s with defaultDevice := index })) ∨
    ((index < 0 ∨ (MAX_DEVICES : Int) ≤ index ∨
        ∃ i : Fin MAX_DEVICES, index = (i.val : Int) ∧ s.devoptab_list i = none) ∧
      SetDefaultDevice s index = (-1, s)) := by
  unfold SetDefaultDevice
  cases hs : slot? MAX_DEVICES index with
  | none =>
    right
    rcases slot?_eq_none.1 hs with h | h
    · exact ⟨Or.inl h, rfl⟩
    · exact ⟨Or.inr (Or.inl h), rfl⟩
  | some i =>
    have hi := slot?_eq_some hs
    cases hl : s.devoptab_list i with
    | none => exact Or.inr ⟨Or.inr (Or.inr ⟨i, hi, hl⟩), by simp [hl]⟩
    | some d => exact Or.inl ⟨⟨i, hi, by rw [hl]; rfl⟩, by simp [hl]⟩

/-- A call of `chdir` leaves the registry as it was, and the default device
too unless the path resolves to a registered device, which then becomes the
default device. -/
theorem chdir_registry (s : State σ) (name : Option CStr) :
    (chdir s name).2.devoptab_list = s.devoptab_list ∧
    ((chdir s name).2.defaultDevice = s.defaultDevice ∨
      ∃ dev : devoptab_posix_t σ, GetDevice s (FindDevice s name) = some dev ∧
        (chdir s name).2.defaultDevice = FindDevice s name) := by
  cases hdev : GetDevice s (FindDevice s name) with
  | none =>
    have hun : ∃ e : Int, chdir s name = (-1, { s with errno := e }) := by
      cases name with
      | none => exact ⟨EINVAL, by simp [chdir, path_get_device]⟩
      | some p =>
        refine ⟨ENODEV, ?_⟩
        by_cases hneg : FindDevice s (some p) < 0
        · simp [chdir, path_get_device, hneg]
        · simp [chdir, path_get_device, hneg, hdev]
    obtain ⟨e, he⟩ := hun
    rw [he]
    exact ⟨rfl, Or.inl rfl⟩
  | some dev =>
    by_cases hflag : Nat.land dev.dot.flags DEVOPTAB_IS_POSIX = 0
    · rw [chdir_nosys s name dev hdev (Or.inl hflag)]
      exact ⟨rfl, Or.inl rfl⟩
    · cases hent : dev.chdir_r with
      | none =>
        rw [chdir_nosys s name dev hdev (Or.inr hent)]
        exact ⟨rfl, Or.inl rfl⟩
      | some chdir_r =>
        by_cases hret : (chdir_r name s.world).1 = 0
        · rw [chdir_ok s name dev chdir_r hdev hflag hent hret]
          exact ⟨rfl, Or.inr ⟨dev, rfl, rfl⟩⟩
        · have hfail : chdir s name = ((chdir_r name s.world).1,
              (s.invoke (FindDevice s name) (Invoke.chdir_r name) (chdir_r name)).2) := by
            simp only [chdir, path_get_device_resolved s name dev hdev,
              as_posix_device_flag s dev hflag, hent, State.invoke]
            rw [if_neg hret]
          rw [hfail]
          exact ⟨rfl, Or.inl rfl⟩

/-- A state with the registry of a valid state, and its default device or the
index of an occupied slot for default device, is valid. -/
theorem DefaultValid_of_registry (s t : State σ) (h : DefaultValid s)
    (hl : t.devoptab_list = s.devoptab_list)
    (hd : t.defaultDevice = s.defaultDevice ∨
      ∃ i : Fin MAX_DEVICES, t.defaultDevice = (i.val : Int) ∧
        (s.devoptab_list i).isSome = true) :
    DefaultValid t := by
  rcases hd with hd | ⟨i, hi, hs⟩
  · rcases h with h | ⟨i, hi, hs⟩
    · exact Or.inl (by rw [hd, h])
    · exact Or.inr ⟨i, by rw [hd, hi], by rw [hl]; exact hs⟩
  · exact Or.inr ⟨i, hi, by rw [hl]; exact hs⟩

theorem DefaultValid_AddDevice (s : State σ) (h : DefaultValid s)
    (device : Option (devoptab_posix_t σ)) : DefaultValid (AddDevice s device).2 := by
  cases device with
  | none => exact h
  | some d =>
    cases hn : d.dot.name with
    | none =>
      have : AddDevice s (some d) = (-1, s) := by simp [AddDevice, hn]
      rw [this]; exact h
    | some name =>
      rcases AddDevice_cases s d name hn with ⟨he, _⟩ | ⟨idx, _, _, _, he⟩
      · rw [he]; exact h
      · rw [he]
        have hocc : ∀ j : Fin MAX_DEVICES, (s.devoptab_list j).isSome = true →
            (Function.update s.devoptab_list idx (some d) j).isSome = true := by
          intro j hj
          by_cases hji : j = idx
          · subst hji; simp
          · rw [Function.update_noteq hji]; exact hj
        by_cases hneg : s.defaultDevice < 0
        · exact Or.inr ⟨idx, by simp [hneg], by simp⟩
        · rcases h with h | ⟨i, hi, hs⟩
          · rw [h] at hneg
            exact absurd (by decide) hneg
          · exact Or.inr ⟨i, by simp [hneg, hi], hocc i hs⟩

theorem DefaultValid_RemoveDevice (s : State σ) (h : DefaultValid s)
    (name : Option CStr) : DefaultValid (RemoveDevice s name).2 := by
  rcases FindDevice_valid s h name with hneg | ⟨i, hi, _⟩
  · rw [RemoveDevice_of_neg s name hneg]; exact h
  · obtain ⟨_, h2, h3⟩ := RemoveDevice_of_slot s name i hi
    by_cases hd : s.defaultDevice = (i.val : Int)
    · left; rw [h3, if_pos hd]
    · rw [if_neg hd] at h3
      rcases h with h | ⟨j, hj, hs⟩
      · left; rw [h3, h]
      · right
        have hji : j ≠ i := fun e => hd (by rw [hj, e])
        exact ⟨j, by rw [h3, hj], by rw [h2, Function.update_noteq hji]; exact hs⟩

theorem DefaultValid_SetDefaultDevice (s : State σ) (h : DefaultValid s)
    (index : Int) : DefaultValid (SetDefaultDevice s index).2 := by
  rcases SetDefaultDevice_cases s index with ⟨⟨i, hi, hs⟩, he⟩ | ⟨_, he⟩
  · rw [he]; exact Or.inr ⟨i, hi, hs⟩
  · rw [he]; exact h

theorem DefaultValid_chdir (s : State σ) (h : DefaultValid s)
    (name : Option CStr) : DefaultValid (chdir s name).2 := by
  obtain ⟨hl, hd⟩ := chdir_registry s name
  refine DefaultValid_of_registry s _ h hl ?_
  rcases hd with hd | ⟨dev, hdev, hd⟩
  · exact Or.inl hd
  · obtain ⟨k, hk, hsl⟩ := GetDevice_eq_some s _ dev hdev
    exact Or.inr ⟨k, by rw [hd, hk], by rw [hsl]; rfl⟩

/-- C32: in every state reachable from the initial state by calls of
`AddDevice`, `RemoveDevice`, `SetDefaultDevice` and `chdir`, the default
device is -1 or an index in 0..15 whose slot is occupied; and in every state
`SetDefaultDevice(i)` returns -1, changing nothing, exactly when `i` is out
of range or slot `i` is empty, and otherwise returns 0 and makes `i` the
default device. -/
theorem default_device_valid (s : State σ) (h : ReachableByCalls s) :
    (s.defaultDevice = -1 ∨
      ∃ i : Fin MAX_DEVICES, s.defaultDevice = (i.val : Int) ∧
        (s.devoptab_list i).isSome = true) ∧
    (∀ (t : State σ) (index : Int),
      ((SetDefaultDevice t index).1 = -1 ↔
        (index < 0 ∨ (MAX_DEVICES : Int) ≤ index ∨
          ∃ i : Fin MAX_DEVICES, index = (i.val : Int) ∧ t.devoptab_list i = none)) ∧
      ((SetDefaultDevice t index).1 = -1 → (SetDefaultDevice t index).2 = t) ∧
      ((SetDefaultDevice t index).1 ≠ -1 →
        SetDefaultDevice t index = (0, { t with defaultDevice := index }))) := by
  constructor
  · have hv : DefaultValid s := by
      induction h with
      | initial ext => exact Or.inl rfl
      | add s device _ ih => exact DefaultValid_AddDevice s ih device
      | remove s name _ ih => exact DefaultValid_RemoveDevice s ih name
      | setDefault s index _ ih => exact DefaultValid_SetDefaultDevice s ih index
      | chdir s name _ ih => exact DefaultValid_chdir s ih name
    exact hv
  · intro t index
    rcases SetDefaultDevice_cases t index with ⟨⟨i, hi, hs⟩, he⟩ | ⟨hc, he⟩
    · rw [he]
      refine ⟨⟨fun h0 => ?_, fun hc => ?_⟩, fun h0 => ?_, fun _ => rfl⟩
      · have h1 : (0 : Int) = -1 := h0
        omega
      · exfalso
        have hlt : i.val < 16 := i.isLt
        rcases hc with hc | hc | ⟨j, hj, hn⟩
        · omega
        · have : (16 : Int) ≤ index := hc
          omega
        · have hji : j = i := Fin.ext (by omega)
          subst hji
          rw [hn] at hs
          exact absurd hs (by simp)
      · have h1 : (0 : Int) = -1 := h0
        omega
    · rw [he]
      exact ⟨⟨fun _ => hc, fun _ => rfl⟩, fun _ => rfl, fun hne => absurd rfl hne⟩

/-- Witness of C32: the state reached by registering the drives `fat` and
`sd`, changing directory to `sd:/sub` and unregistering `fat`. -/
theorem default_device_valid_witness :
    ((RemoveDevice (chdir twoDrives (some "sd:/sub".toList)).2
        (some "fat:".toList)).2.defaultDevice = -1 ∨
      ∃ i : Fin MAX_DEVICES,
        (RemoveDevice (chdir twoDrives (some "sd:/sub".toList)).2
          (some "fat:".toList)).2.defaultDevice = (i.val : Int) ∧
        ((RemoveDevice (chdir twoDrives (some "sd:/sub".toList)).2
          (some "fat:".toList)).2.devoptab_list i).isSome = true) :=
  (default_device_valid
    (RemoveDevice (chdir twoDrives (some "sd:/sub".toList)).2 (some "fat:".toList)).2
    (ReachableByCalls.remove _ _
      (ReachableByCalls.chdir _ _
        (ReachableByCalls.add _ (some (posixDev "sd"))
          (ReachableByCalls.add _ (some (posixDev "fat"))
            (ReachableByCalls.initial ())))))).1

end DefaultDevice

section ConsoleBound

variable {σ : Type}

theorem payloads_append (xs ys : List Call) :
    payloads (xs ++ ys) = payloads xs ++ payloads ys := by
  induction xs with
  | nil => rfl
  | cons x xs ih => simp [payloads, ih]

/-- Without a device in the slot, or without a write entry, `putc_buffered`
does nothing. -/
theorem putc_buffered_nodev (s : State σ) (c : Char) (b : stream_buf)
    (fd : Fin MAX_DEVICES)
    (h : s.devoptab_list fd = none ∨
      ∃ dev : devoptab_posix_t σ, s.devoptab_list fd = some dev ∧ dev.dot.write_r = none) :
    putc_buffered s c b fd = ((c.toNat : Int), b, s) := by
  rcases h with h | ⟨dev, h, hw⟩
  · simp [putc_buffered, h]
  · simp [putc_buffered, h, hw]

/-- One call of `putc_buffered` on a stream whose counter is at most 15 and
whose array has 17 chars: the counter is at most 15 afterwards, the array
still has 17 chars, the registry is as before, the trace grows by the calls
`cs`, at most one, each a call of the write entry for the descriptor with a
length from 1 to 16; and when the device has a write entry, the payloads of
`cs` followed by the bytes then pending are the bytes pending before followed
by the byte written. -/
theorem putc_buffered_step (s : State σ) (c : Char) (b : stream_buf)
    (fd : Fin MAX_DEVICES) (hlen : b.buf_len ≤ 15)
    (hsize : b.buf.length = OUTPUT_BUFFER_SIZE + 1) :
    (putc_buffered s c b fd).2.1.buf_len ≤ 15 ∧
    (putc_buffered s c b fd).2.1.buf.length = OUTPUT_BUFFER_SIZE + 1 ∧
    (putc_buffered s c b fd).2.2.devoptab_list = s.devoptab_list ∧
    ∃ cs : List Call, (putc_buffered s c b fd).2.2.trace = s.trace ++ cs ∧
      cs.length ≤ 1 ∧
      (∀ x ∈ cs, ∃ (ptr : List Char) (len : Nat),
        x.what = Invoke.write_r (fd.val : Int) ptr len ∧ 1 ≤ len ∧ len ≤ 16) ∧
      ((∃ (dev : devoptab_posix_t σ) (wr : Int → List Char → Nat → World σ → Int × World σ),
          s.devoptab_list fd = some dev ∧ dev.dot.write_r = some wr) →
        payloads cs ++ (putc_buffered s c b fd).2.1.pending = b.pending ++ [c]) := by
  have h16 : OUTPUT_BUFFER_SIZE = 16 := rfl
  cases hdev : s.devoptab_list fd with
  | none =>
    rw [putc_buffered_nodev s c b fd (Or.inl hdev)]
    refine ⟨hlen, hsize, rfl, [], by simp, by simp, by simp, ?_⟩
    rintro ⟨dev, wr, hd, _⟩
    simp at hd
  | some dev =>
    cases hwr : dev.dot.write_r with
    | none =>
      rw [putc_buffered_nodev s c b fd (Or.inr ⟨dev, hdev, hwr⟩)]
      refine ⟨hlen, hsize, rfl, [], by simp, by simp, by simp, ?_⟩
      rintro ⟨dev', wr, hd, hw⟩
      simp only [Option.some.injEq] at hd
      subst hd
      rw [hwr] at hw
      simp at hw
    | some wr =>
      by_cases hc : c = ESC ∨ b.buf_len > 0
      · by_cases hf : b.buf_len + 1 = OUTPUT_BUFFER_SIZE ∨ isTerminator c
        · rw [putc_buffered_flushed s c b fd dev wr hdev hwr hc (by omega) hf]
          refine ⟨by simp, by simp [hsize], rfl, [_], rfl, by simp,
            ?_, fun _ => ?_⟩
          · intro x hx
            simp only [List.mem_singleton] at hx
            subst hx
            exact ⟨_, _, rfl, by omega, by omega⟩
          · simp only [payloads, Call.payload, stream_buf.pending, List.take_zero,
              List.append_nil]
            exact take_set_set b.buf b.buf_len c _ (by omega)
        · have hnf : ¬ b.buf_len + 1 = OUTPUT_BUFFER_SIZE ∧ ¬ isTerminator c := not_or.1 hf
          rw [putc_buffered_keep s c b fd dev wr hdev hwr hc (by omega) hnf.2]
          refine ⟨by simp only []; omega, by simp [hsize], rfl, [], by simp, by simp,
            by simp, fun _ => ?_⟩
          simp only [payloads, stream_buf.pending, List.nil_append]
          exact take_set_set b.buf b.buf_len c _ (by omega)
      · have hne : c ≠ ESC := fun e => hc (Or.inl e)
        have hz : b.buf_len = 0 := by
          have : ¬ b.buf_len > 0 := fun e => hc (Or.inr e)
          omega
        rw [putc_buffered_through s c b fd dev wr hdev hwr hne hz]
        refine ⟨hlen, hsize, rfl, [_], rfl, by simp, ?_, fun _ => ?_⟩
        · intro x hx
          simp only [List.mem_singleton] at hx
          subst hx
          exact ⟨_, _, rfl, by omega, by omega⟩
        · simp [payloads, Call.payload, stream_buf.pending, hz]

end ConsoleBound

section ConsoleRun

variable {σ : Type}

/-- A sequence of calls of `putc_buffered` on a stream whose counter is at
most 15 and whose array has 17 chars: the facts of `putc_buffered_step`, for
the whole sequence. -/
theorem putc_buffered_run_steps (fd : Fin MAX_DEVICES) (bytes : List Char) :
    ∀ (s : State σ) (b : stream_buf), b.buf_len ≤ 15 →
      b.buf.length = OUTPUT_BUFFER_SIZE + 1 →
      (putc_buffered.run s b fd bytes).1.buf_len ≤ 15 ∧
      (putc_buffered.run s b fd bytes).1.buf.length = OUTPUT_BUFFER_SIZE + 1 ∧
      (putc_buffered.run s b fd bytes).2.devoptab_list = s.devoptab_list ∧
      ∃ cs : List Call, (putc_buffered.run s b fd bytes).2.trace = s.trace ++ cs ∧
        cs.length ≤ bytes.length ∧
        (∀ x ∈ cs, ∃ (ptr : List Char) (len : Nat),
          x.what = Invoke.write_r (fd.val : Int) ptr len ∧ 1 ≤ len ∧ len ≤ 16) ∧
        ((∃ (dev : devoptab_posix_t σ)
            (wr : Int → List Char → Nat → World σ → Int × World σ),
            s.devoptab_list fd = some dev ∧ dev.dot.write_r = some wr) →
          payloads cs ++ (putc_buffered.run s b fd bytes).1.pending
            = b.pending ++ bytes) := by
  induction bytes with
  | nil =>
    intro s b hlen hsize
    exact ⟨hlen, hsize, rfl, [], by simp [putc_buffered.run], by simp, by simp,
      fun _ => by simp [putc_buffered.run, payloads]⟩
  | cons c rest ih =>
    intro s b hlen hsize
    obtain ⟨h1, h2, h3, cs1, ht1, hn1, hs1, hp1⟩ := putc_buffered_step s c b fd hlen hsize
    obtain ⟨k1, k2, k3, cs2, ht2, hn2, hs2, hp2⟩ :=
      ih (putc_buffered s c b fd).2.2 (putc_buffered s c b fd).2.1 h1 h2
    simp only [putc_buffered.run]
    refine ⟨k1, k2, k3.trans h3, cs1 ++ cs2, ?_, ?_, ?_, fun hd => ?_⟩
    · rw [ht2, ht1, List.append_assoc]
    · simp only [List.length_append, List.length_cons]; omega
    · intro x hx
      rcases List.mem_append.1 hx with hx | hx
      · exact hs1 x hx
      · exact hs2 x hx
    · have hd' : ∃ (dev : devoptab_posix_t σ)
          (wr : Int → List Char → Nat → World σ → Int × World σ),
          (putc_buffered s c b fd).2.2.devoptab_list fd = some dev ∧
            dev.dot.write_r = some wr := by
        rw [h3]; exact hd
      rw [payloads_append, List.append_assoc, hp2 hd', ← List.append_assoc, hp1 hd,
        List.append_assoc]
      rfl

/-- C33: for every sequence of calls of `putc_buffered` on a stream that
starts with an empty buffer (of 17 chars), the counter is at most 15 when the
next call starts, so that its two stores into the array are at indices of at
most 16, and every call of the write entry made by the sequence carries a
length from 1 to 16.  The bound on the counter is kept by every single call,
in whatever state it is made. -/
theorem console_buffer_bound (s : State σ) (fd : Fin MAX_DEVICES) (b : stream_buf)
    (hsize : b.buf.length = OUTPUT_BUFFER_SIZE + 1) (hempty : b.buf_len = 0)
    (bytes : List Char) :
    (putc_buffered.run s b fd bytes).1.buf_len ≤ 15 ∧
    (putc_buffered.run s b fd bytes).1.buf.length = 17 ∧
    (∀ i ∈ putc_buffered.stores (putc_buffered.run s b fd bytes).1, i ≤ 16) ∧
    (∃ cs : List Call, (putc_buffered.run s b fd bytes).2.trace = s.trace ++ cs ∧
      ∀ x ∈ cs, ∃ (ptr : List Char) (len : Nat),
        x.what = Invoke.write_r (fd.val : Int) ptr len ∧ 1 ≤ len ∧ len ≤ 16) ∧
    (∀ (t : State σ) (c : Char) (b' : stream_buf), b'.buf_len ≤ 15 →
      b'.buf.length = 17 → (putc_buffered t c b' fd).2.1.buf_len ≤ 15 ∧
        (putc_buffered t c b' fd).2.1.buf.length = 17) := by
  obtain ⟨h1, h2, _, cs, ht, _, hs, _⟩ :=
    putc_buffered_run_steps fd bytes s b (by omega) hsize
  refine ⟨h1, h2, ?_, ⟨cs, ht, hs⟩, fun t c b' hl hz => ?_⟩
  · intro i hi
    simp only [putc_buffered.stores, List.mem_cons, List.mem_singleton,
      List.not_mem_nil, or_false] at hi
    rcases hi with hi | hi
    · omega
    · have hm : ((putc_buffered.run s b fd bytes).1.buf_len + 1) % 2 ^ 16
          = (putc_buffered.run s b fd bytes).1.buf_len + 1 := Nat.mod_eq_of_lt (by omega)
      omega
  · obtain ⟨k1, k2, _⟩ := putc_buffered_step t c b' fd hl hz
    exact ⟨k1, k2⟩

/-- Witness of C33: the bytes `ESC`, `[`, `1` written to the empty stream of
descriptor 1 on the initial state. -/
theorem console_buffer_bound_witness :
    (putc_buffered.run (State.initial ()) stream_buf.initial 1 [ESC, '[', '1']).1.buf_len
      ≤ 15 ∧
    (putc_buffered.run (State.initial ()) stream_buf.initial 1 [ESC, '[', '1']).1.buf.length
      = 17 ∧
    (∀ i ∈ putc_buffered.stores
        (putc_buffered.run (State.initial ()) stream_buf.initial 1 [ESC, '[', '1']).1,
      i ≤ 16) :=
  have h := console_buffer_bound (State.initial ()) 1 stream_buf.initial
    (by decide) rfl [ESC, '[', '1']
  ⟨h.1, h.2.1, h.2.2.1⟩

/-- C34: for every byte sequence written through `putc_buffered` to a stream
that starts with an empty buffer (of 17 chars) and whose device has a write
entry, the payloads of the calls of the write entry made by the sequence, in
call order, followed by the bytes then pending in the buffer, are the bytes
written, in order. -/
theorem console_output_conserved (s : State σ) (fd : Fin MAX_DEVICES)
    (dev : devoptab_posix_t σ) (wr : Int → List Char → Nat → World σ → Int × World σ)
    (hdev : s.devoptab_list fd = some dev) (hwr : dev.dot.write_r = some wr)
    (b : stream_buf) (hsize : b.buf.length = OUTPUT_BUFFER_SIZE + 1)
    (hempty : b.buf_len = 0) (bytes : List Char) :
    ∃ cs : List Call, (putc_buffered.run s b fd bytes).2.trace = s.trace ++ cs ∧
      (∀ x ∈ cs, ∃ (ptr : List Char) (len : Nat),
        x.what = Invoke.write_r (fd.val : Int) ptr len) ∧
      payloads cs ++ (putc_buffered.run s b fd bytes).1.pending = bytes ∧
      (putc_buffered.run s b fd bytes).2.devoptab_list fd = some dev := by
  obtain ⟨_, _, h3, cs, ht, _, hs, hp⟩ :=
    putc_buffered_run_steps fd bytes s b (by omega) hsize
  refine ⟨cs, ht, fun x hx => ?_, ?_, by rw [h3]; exact hdev⟩
  · obtain ⟨ptr, len, hw, _⟩ := hs x hx
    exact ⟨ptr, len, hw⟩
  · rw [hp ⟨dev, wr, hdev, hwr⟩]
    simp [stream_buf.pending, hempty]

set_option maxRecDepth 4000 in
/-- Witness of C34: the bytes `a`, `ESC`, `[`, `1`, `m`, `b`, `ESC`, `[`
written to the empty stream of descriptor 1 on the initial state: three calls
with payloads `a`, `ESC [ 1 m` and `b`, and `ESC [` pending. -/
theorem console_output_conserved_witness :
    (∃ cs : List Call,
      (putc_buffered.run (State.initial ()) stream_buf.initial 1
        ['a', ESC, '[', '1', 'm', 'b', ESC, '[']).2.trace
        = (State.initial ()).trace ++ cs ∧
      (∀ x ∈ cs, ∃ (ptr : List Char) (len : Nat),
        x.what = Invoke.write_r ((1 : Fin MAX_DEVICES).val : Int) ptr len) ∧
      payloads cs ++ (putc_buffered.run (State.initial ()) stream_buf.initial 1
        ['a', ESC, '[', '1', 'm', 'b', ESC, '[']).1.pending
        = ['a', ESC, '[', '1', 'm', 'b', ESC, '['] ∧
      (putc_buffered.run (State.initial ()) stream_buf.initial 1
        ['a', ESC, '[', '1', 'm', 'b', ESC, '[']).2.devoptab_list 1 = some dot_null) ∧
    payloads (putc_buffered.run (State.initial ()) stream_buf.initial 1
        ['a', ESC, '[', '1', 'm', 'b', ESC, '[']).2.trace
      = ['a', ESC, '[', '1', 'm', 'b'] ∧
    (putc_buffered.run (State.initial ()) stream_buf.initial 1
        ['a', ESC, '[', '1', 'm', 'b', ESC, '[']).1.pending = [ESC, '['] :=
  ⟨console_output_conserved (State.initial ()) 1 dot_null null_write rfl rfl
      stream_buf.initial (by decide) rfl ['a', ESC, '[', '1', 'm', 'b', ESC, '['],
   by decide, by decide⟩

end ConsoleRun

section TruncateDescriptor

variable {σ : Type}

/-- The outcome of `open` for the descriptor table: -1 and the table as
before; or a descriptor that was free, now in use and bound to a registered
device, every other entry as before. -/
theorem sys_open_outcome (s : State σ) (path : Option CStr) (flags : Int) :
    ((sys_open s path flags).1 = -1 ∧ (sys_open s path flags).2.fd_table = s.fd_table) ∨
    (∃ (fd : Fin DEVOPTAB_MAX_FDS) (dev : devoptab_posix_t σ),
      (s.fd_table fd).used = false ∧
      (sys_open s path flags).1 = (fd.val : Int) ∧
      ((sys_open s path flags).2.fd_table fd).used = true ∧
      (∀ j : Fin DEVOPTAB_MAX_FDS, j ≠ fd →
        (sys_open s path flags).2.fd_table j = s.fd_table j) ∧
      GetDevice (sys_open s path flags).2
        ((sys_open s path flags).2.fd_table fd).device_idx = some dev) := by
  rcases hp : path_get_device s path with ⟨_ | ⟨dev, i⟩, s1⟩
  · obtain ⟨e, rfl⟩ := path_get_device_none s s1 path hp
    left
    simp [sys_open, hp]
  · obtain ⟨rfl, rfl, hdev⟩ := path_get_device_some s s1 path dev i hp
    cases hent : dev.dot.open_r with
    | none =>
      left
      simp [sys_open, hp, hent]
    | some open_r =>
      rcases sys_open_resolved s1 path flags dev open_r hdev hent with
        ⟨h, _⟩ | ⟨fd, h3, hfree, hmin, h⟩
      · left
        rw [h]
        exact ⟨rfl, rfl⟩
      · by_cases hneg : (open_r path flags s1.world).1 < 0
        · left
          rw [h, if_pos hneg]
          exact ⟨rfl, rfl⟩
        · right
          rw [h, if_neg hneg]
          refine ⟨fd, dev, hfree, rfl, by simp, fun j hj => ?_, ?_⟩
          · simp [Function.update_noteq hj]
          · simp only [Function.update_same]
            rw [← hdev]
            exact GetDevice_congr s1 _ rfl _

/-- The calls built on `fd_posix_forward` leave the descriptor table and the
registry as they were. -/
theorem fd_posix_forward_frame (s : State σ) (fd : Int)
    (entry_r : devoptab_posix_t σ → Option (Int → World σ → Int × World σ))
    (what : Int → Invoke) :
    (fd_posix_forward s fd entry_r what).2.fd_table = s.fd_table ∧
    (fd_posix_forward s fd entry_r what).2.devoptab_list = s.devoptab_list := by
  rcases BadFd_or_inUse s fd with hbad | ⟨i, rfl, hused⟩
  · rw [fd_posix_forward_bad s fd entry_r what hbad]
    exact ⟨rfl, rfl⟩
  · cases hdev : GetDevice s (s.fd_table i).device_idx with
    | none =>
      rw [fd_posix_forward_nodev s i entry_r what hused hdev]
      exact ⟨rfl, rfl⟩
    | some dev =>
      by_cases hflag : Nat.land dev.dot.flags DEVOPTAB_IS_POSIX = 0
      · rw [fd_posix_forward_nosys s i entry_r what dev hused hdev (Or.inl hflag)]
        exact ⟨rfl, rfl⟩
      · cases hent : entry_r dev with
        | none =>
          rw [fd_posix_forward_nosys s i entry_r what dev hused hdev (Or.inr hent)]
          exact ⟨rfl, rfl⟩
        | some f =>
          rw [fd_posix_forward_call s i entry_r what dev f hused hdev hflag hent]
          exact ⟨rfl, rfl⟩

/-- C35: for every state, path and length, the descriptors in use after
`truncate` are those in use before, whatever the results of the internal
`open`, `ftruncate` and `close`.  (Backend entry points work on the world of
the libraries and cannot reach the registry or the descriptor table.) -/
theorem truncate_keeps_descriptors (s : State σ) (path : Option CStr) (len : Int)
    (i : Fin DEVOPTAB_MAX_FDS) :
    ((truncate s path len).2.fd_table i).used = (s.fd_table i).used := by
  cases path with
  | none => rfl
  | some p =>
    rcases sys_open_outcome s (some p) (O_WRONLY : Int) with
      ⟨hret, htab⟩ | ⟨fd, dev, hfree, hret, hused, hother, hdev⟩
    · have hneg : (sys_open s (some p) (O_WRONLY : Int)).1 < 0 := by rw [hret]; decide
      simp only [truncate, hneg, if_true]
      rw [htab]
    · have hnn : ¬ (sys_open s (some p) (O_WRONLY : Int)).1 < 0 := by rw [hret]; omega
      obtain ⟨hf1, hf2⟩ := fd_posix_forward_frame (sys_open s (some p) (O_WRONLY : Int)).2
        (fd.val : Int)
        (fun posix => posix.ftruncate_r.map (fun f device_fd => f device_fd len))
        (fun device_fd => Invoke.ftruncate_r device_fd len)
      have hclose := close_resolved
        (ftruncate (sys_open s (some p) (O_WRONLY : Int)).2 (fd.val : Int) len).2 fd dev
        (by
          show ((fd_posix_forward _ _ _ _).2.fd_table fd).used = true
          rw [hf1]; exact hused)
        (by
          show GetDevice (fd_posix_forward _ _ _ _).2
            ((fd_posix_forward _ _ _ _).2.fd_table fd).device_idx = some dev
          rw [hf1, GetDevice_congr _ _ hf2]; exact hdev)
      have htab : ∀ t : State σ,
          t.fd_table = (close (ftruncate (sys_open s (some p) (O_WRONLY : Int)).2
            (fd.val : Int) len).2 (fd.val : Int)).2.fd_table →
          (t.fd_table i).used = (s.fd_table i).used := by
        intro t ht
        rw [ht, hclose.1]
        by_cases hi : i = fd
        · subst hi
          simp [hfree]
        · rw [Function.update_noteq hi]
          have : (ftruncate (sys_open s (some p) (O_WRONLY : Int)).2 (fd.val : Int) len).2.fd_table
              = (sys_open s (some p) (O_WRONLY : Int)).2.fd_table := hf1
          rw [this, hother i hi]
      have hnn' : ¬ ((fd.val : Int) < 0) := by omega
      simp only [truncate, hret, hnn', if_false]
      split
      · exact htab _ rfl
      · split
        · exact htab _ rfl
        · exact htab _ rfl

/-- Witness of C35: on `truncDev`, whose close entry fails, the internal `open`
takes descriptor 3, and descriptor 3 is free again after `truncate`, as it was
before. -/
theorem truncate_keeps_descriptors_witness :
    (truncate.opened truncState (some "t:/f".toList)).1 = 3 ∧
    (truncState.fd_table 3).used = false ∧
    ((truncate truncState (some "t:/f".toList) 10).2.fd_table 3).used
      = (truncState.fd_table 3).used :=
  ⟨by decide!, by decide!, truncate_keeps_descriptors truncState (some "t:/f".toList) 10 3⟩

end TruncateDescriptor

section ChdirClaim
variable {σ : Type}

/-- A `chdir` that reaches the backend and gets a value other than 0 from it:
that value is the result, and the state is the one the backend call left. -/
theorem chdir_refused (s : State σ) (name : Option CStr) (dev : devoptab_posix_t σ)
    (chdir_r : Option CStr → World σ → Int × World σ)
    (hdev : GetDevice s (FindDevice s name) = some dev)
    (hflag : Nat.land dev.dot.flags DEVOPTAB_IS_POSIX ≠ 0)
    (hent : dev.chdir_r = some chdir_r)
    (hret : (chdir_r name s.world).1 ≠ 0) :
    chdir s name = ((chdir_r name s.world).1,
      (s.invoke (FindDevice s name) (Invoke.chdir_r name) (chdir_r name)).2) := by
  simp only [chdir, path_get_device_resolved s name dev hdev,
    as_posix_device_flag s dev hflag, hent, State.invoke]
  rw [if_neg hret]

/-- A `chdir` whose path resolves to no registered device fails with -1 and
changes nothing but `errno`. -/
theorem chdir_unresolved (s : State σ) (name : Option CStr)
    (hdev : GetDevice s (FindDevice s name) = none) :
    ∃ e : Int, chdir s name = (-1, { s with errno := e }) := by
  cases name with
  | none => exact ⟨EINVAL, by simp [chdir, path_get_device]⟩
  | some p =>
    refine ⟨ENODEV, ?_⟩
    by_cases hneg : FindDevice s (some p) < 0
    · simp [chdir, path_get_device, hneg]
    · simp [chdir, path_get_device, hneg, hdev]

/-- C6: when the path resolves to a posix-extended device at index `d` whose
chdir entry returns 0, `chdir` returns 0 and afterwards `GetDefaultDevice` is
`d`, `FindDevice` yields `d` on every path without a colon (which
`path_get_device` then resolves to that device, so that an unprefixed open
goes to it), and `getcwd` forwards to the getcwd entry of device `d`: it
returns what that entry returns and the call is logged on device `d` (with
`ENOSYS` when the device has no such entry).  When the chdir entry of the
device returns a value other than 0, `chdir` returns that value and the
default device is unchanged.  When `chdir` fails earlier (the path resolves
to no registered device, or the device is not posix-extended or has no chdir
entry) it returns -1 and the default device is unchanged.  So `chdir` returns
0 only when the backend did, and whenever it returns a value other than 0 the
default device is unchanged. -/
theorem chdir_default_device (s : State σ) (name : Option CStr) :
    (∀ (dev : devoptab_posix_t σ)
        (chdir_r : Option CStr → World σ → Int × World σ),
      GetDevice s (FindDevice s name) = some dev →
      Nat.land dev.dot.flags DEVOPTAB_IS_POSIX ≠ 0 →
      dev.chdir_r = some chdir_r →
      (chdir_r name s.world).1 = 0 →
      (chdir s name).1 = 0 ∧
      GetDefaultDevice (chdir s name).2 = FindDevice s name ∧
      (∀ p : CStr, ':' ∉ p →
        FindDevice (chdir s name).2 (some p) = FindDevice s name ∧
        path_get_device (chdir s name).2 (some p)
          = (some (dev, FindDevice s name), (chdir s name).2)) ∧
      (∀ (getcwd_r : Nat → Nat → World σ → Option CStr × World σ)
          (buf size : Nat), dev.getcwd_r = some getcwd_r →
        getcwd (chdir s name).2 buf size =
          ((getcwd_r buf size (chdir s name).2.world).1,
           { (chdir s name).2 with
             callback_device_idx := -1
             errno := (getcwd_r buf size (chdir s name).2.world).2.errno
             ext := (getcwd_r buf size (chdir s name).2.world).2.ext
             trace := (chdir s name).2.trace ++
               [{ device_idx := FindDevice s name
                  marker := FindDevice s name
                  what := Invoke.getcwd_r buf size }] })) ∧
      (dev.getcwd_r = none → ∀ buf size : Nat,
        getcwd (chdir s name).2 buf size
          = (none, { (chdir s name).2 with errno := ENOSYS }))) ∧
    (∀ (dev : devoptab_posix_t σ)
        (chdir_r : Option CStr → World σ → Int × World σ),
      GetDevice s (FindDevice s name) = some dev →
      Nat.land dev.dot.flags DEVOPTAB_IS_POSIX ≠ 0 →
      dev.chdir_r = some chdir_r →
      (chdir_r name s.world).1 ≠ 0 →
      (chdir s name).1 = (chdir_r name s.world).1 ∧
      (chdir s name).2.trace = s.trace ++
        [{ device_idx := FindDevice s name
           marker := s.callback_device_idx
           what := Invoke.chdir_r name }] ∧
      GetDefaultDevice (chdir s name).2 = GetDefaultDevice s) ∧
    (GetDevice s (FindDevice s name) = none →
      (chdir s name).1 = -1 ∧ (chdir s name).2.trace = s.trace ∧
      GetDefaultDevice (chdir s name).2 = GetDefaultDevice s) ∧
    (∀ dev : devoptab_posix_t σ,
      GetDevice s (FindDevice s name) = some dev → NoExtended dev dev.chdir_r →
      (chdir s name).1 = -1 ∧ (chdir s name).2.trace = s.trace ∧
      GetDefaultDevice (chdir s name).2 = GetDefaultDevice s) ∧
    ((chdir s name).1 ≠ 0 →
      GetDefaultDevice (chdir s name).2 = GetDefaultDevice s) := by
  refine ⟨?_, ?_, ?_, ?_, chdir_fail_default s name⟩
  · intro dev chdir_r hdev hflag hent hret
    have hc := chdir_ok s name dev chdir_r hdev hflag hent hret
    obtain ⟨k, hk, hl⟩ := GetDevice_eq_some s _ dev hdev
    have hnn : ¬ FindDevice s name < 0 := by omega
    have hget : GetDevice (chdir s name).2 (FindDevice s name) = some dev := by
      rw [hc, hk]
      simp [GetDevice, slot?_val, hl]
    have hdef : (chdir s name).2.defaultDevice = FindDevice s name := by rw [hc]
    have hgd : get_default_posix_device (chdir s name).2
        = (some (dev, FindDevice s name), (chdir s name).2) := by
      simp [get_default_posix_device, GetDefaultDevice, hdef, hnn, hget,
        as_posix_device_flag _ dev hflag]
    refine ⟨by rw [hc], hdef, ?_, ?_, ?_⟩
    · intro p hp
      have hf : FindDevice (chdir s name).2 (some p) = FindDevice s name := by
        rw [FindDevice_no_sep _ p hp, hdef]
      refine ⟨hf, ?_⟩
      have := path_get_device_resolved (chdir s name).2 (some p) dev (by rw [hf]; exact hget)
      rw [hf] at this
      exact this
    · intro getcwd_r buf size hg
      simp [getcwd, hgd, hg, State.invoke, State.world]
    · intro hg buf size
      simp [getcwd, hgd, hg]
  · intro dev chdir_r hdev hflag hent hret
    rw [chdir_refused s name dev chdir_r hdev hflag hent hret]
    exact ⟨rfl, rfl, rfl⟩
  · intro hdev
    obtain ⟨e, he⟩ := chdir_unresolved s name hdev
    rw [he]
    exact ⟨rfl, rfl, rfl⟩
  · intro dev hdev hno
    rw [chdir_nosys s name dev hdev hno]
    exact ⟨rfl, rfl, rfl⟩

/-- Witness of C6: `chdir` to `sd:/sub` in `twoDrives`, whose default device
is slot 3, makes slot 4 the default device; `chdir` to `x:/sub` in
`refusingState`, where the chdir entry of the device `x` in slot 4 returns
-1, returns -1 and leaves slot 3 the default device. -/
theorem chdir_default_device_witness :
    (GetDevice twoDrives (FindDevice twoDrives (some "sd:/sub".toList))
        = some (posixDev "sd") ∧
     Nat.land (posixDev "sd").dot.flags DEVOPTAB_IS_POSIX ≠ 0 ∧
     (posixDev "sd").chdir_r = some (fun _ w => (0, w)) ∧
     GetDefaultDevice twoDrives = 3) ∧
    ((chdir twoDrives (some "sd:/sub".toList)).1 = 0 ∧
     GetDefaultDevice (chdir twoDrives (some "sd:/sub".toList)).2 = 4 ∧
     FindDevice (chdir twoDrives (some "sd:/sub".toList)).2 (some "file".toList) = 4 ∧
     (getcwd (chdir twoDrives (some "sd:/sub".toList)).2 0 64).1 = some "/".toList) ∧
    (GetDevice refusingState (FindDevice refusingState (some "x:/sub".toList))
        = some refusingDev ∧
     Nat.land refusingDev.dot.flags DEVOPTAB_IS_POSIX ≠ 0 ∧
     refusingDev.chdir_r = some (fun _ w => (-1, { w with errno := EINVAL })) ∧
     GetDefaultDevice refusingState = 3) ∧
    ((chdir refusingState (some "x:/sub".toList)).1 = -1 ∧
     GetDefaultDevice (chdir refusingState (some "x:/sub".toList)).2 = 3) :=
  have h := (chdir_default_device twoDrives (some "sd:/sub".toList)).1
    (posixDev "sd") (fun _ w => (0, w)) rfl (by decide) rfl rfl
  have r := (chdir_default_device refusingState (some "x:/sub".toList)).2.1
    refusingDev (fun _ w => (-1, { w with errno := EINVAL })) rfl (by decide) rfl
    (by decide)
  ⟨⟨rfl, by decide, rfl, rfl⟩,
   ⟨h.1, h.2.1, (h.2.2.1 "file".toList (by decide)).1,
    by rw [h.2.2.2.1 (fun _ _ w => (some "/".toList, w)) 0 64 rfl]⟩,
   ⟨rfl, by decide, rfl, rfl⟩, r.1, r.2.2⟩

end ChdirClaim

end Devoptab
